import Mathlib

/-!
faunadb: query expressions, optional parameters and the two serializers

A shallow embedding of package `faunadb` (expr.go, functions.go, query.go, strconv.go).

* `Expr` is the Go interface type `Expr`: the nil interface, the literal values, the two
  unescaped containers, the error sentinel and the struct types of functions.go.  A struct value
  is its kind together with its field values in declaration order.
* Functions that build a node and then fill optional fields through pointers
  (`optionalKeysMapping`) are written in state-passing style: the state is the local struct `fn`,
  a pointer `&(fn.F)` is the field name `F`, and a nil-pointer dereference is a panic.
* `Marshal` is `json.Marshal` on an `Expr`; its result is a JSON tree.
* `Expr.String` is the `String()` method; a panic is a result of its own.
-/

set_option autoImplicit false

namespace faunadb

/-! ## Errors, panics, JSON -/

/-- Go `error` values: a plain error with its message, or the `*json.MarshalerError` in which
`json.Marshal` wraps an error returned by a `MarshalJSON` method.  (The nil error is not a
`GoError`; a failing result is `Except.error`.) -/
inductive GoError where
  | errorString (msg : String)
  | MarshalerError (typ : String) (err : GoError)
  deriving DecidableEq, Repr

/-- The method `Unwrap` of `*json.MarshalerError` (`errors.Unwrap`). -/
def GoError.Unwrap : GoError → Option GoError
  | .errorString _ => none
  | .MarshalerError _ err => some err

/-- The innermost error of a chain of wrapped errors. -/
def GoError.cause : GoError → GoError
  | .errorString msg => .errorString msg
  | .MarshalerError _ err => err.cause

/-- A run-time panic. -/
inductive Panic where
  /-- A method call or a dereference through nil. -/
  | nilDereference
  /-- A failed type assertion `x.(T)` on a value of static type `iface`. -/
  | interfaceConversion (iface found wanted : String)
  /-- The panic of `reflect.Type.Implements` on an argument that is not an interface type. -/
  | nonInterfaceImplements
  /-- A call `panic(s)` with a string. -/
  | message (s : String)
  deriving DecidableEq, Repr

/-- The text of a panic value as `fmt` prints it. -/
def Panic.text : Panic → String
  | .nilDereference => "runtime error: invalid memory address or nil pointer dereference"
  | .interfaceConversion iface found wanted =>
      "interface conversion: " ++ iface ++ " is " ++ found ++ ", not " ++ wanted
  | .nonInterfaceImplements => "reflect: non-interface type passed to Type.Implements"
  | .message s => s

/-- Modelled from the spec: the scalar literal nodes.  Their declarations (values.go) are not
among the source files; the spec (4.1) lists the host scalars that wrap to a literal node:
absent/null, booleans, numbers, strings, byte sequences and timestamps.  Only `NullV` and
`BooleanV` are named in the source files (query.go).  Floating-point numbers are left out. -/
inductive Value where
  | NullV
  | BooleanV (b : Bool)
  | LongV (n : Int)
  | StringV (s : String)
  | BytesV (bytes : List Nat)
  | TimeV (nanos : Int)
  deriving DecidableEq, Repr

/-- The Go type name of a literal, as `reflect.Type.String` gives it. -/
def Value.typeString : Value → String
  | .NullV => "faunadb.NullV"
  | .BooleanV _ => "faunadb.BooleanV"
  | .LongV _ => "faunadb.LongV"
  | .StringV _ => "faunadb.StringV"
  | .BytesV _ => "faunadb.BytesV"
  | .TimeV _ => "faunadb.TimeV"

/-- The output of `json.Marshal`, as a tree.  The bytes that encode a literal are fixed by
values.go, which is not among the source files: `lit v` stands for the encoding of `v`.  The
members of an object are kept in the order in which they are written. -/
inductive Json where
  | null
  | lit (v : Value)
  | arr (elems : List Json)
  | obj (members : List (String × Json))
  deriving Repr

/-- The keys of a JSON object, in order (empty for any other JSON value). -/
def Json.keys : Json → List String
  | .obj members => members.map Prod.fst
  | _ => []

/-- The value under key `k` of a JSON object. -/
def Json.member (j : Json) (k : String) : Option Json :=
  match j with
  | .obj members => members.lookup k
  | _ => none

/-! ## The struct types of functions.go -/

/-- One field of a struct of functions.go: its Go name, the name in its `json` tag and whether the
tag has `omitempty`. -/
structure Field where
  name : String
  json : String
  omitempty : Bool
  deriving DecidableEq, Repr

/-- The struct types of functions.go, one constructor per `type xFn struct`. -/
inductive FnKind where
  | abortFn | doFn | ifFn | lambdaFn | atFn | letFn | varFn | callFn | queryFn | mapFn
  | foreachFn | filterFn | takeFn | dropFn | prependFn | appendFn | isEmptyFn | isNonEmptyFn
  | getFn | legacyRefFn | refFn | keyFromSecretFn | existsFn | paginateFn | createFn
  | createClassFn | createCollectionFn | createDatabaseFn | createIndexFn | createKeyFn
  | createFunctionFn | createRoleFn | moveDatabaseFn | updateFn | replaceFn | deleteFn | insertFn
  | removeFn | formatFn | concatFn | casefoldFn | startsWithFn | endsWithFn | containsStrFn
  | containsStrRegexFn | regexEscapeFn | findStrFn | findStrRegexFn | lengthFn | lowercaseFn
  | lTrimFn | repeatFn | replaceStrFn | replaceStrRegexFn | rTrimFn | spaceFn | subStringFn
  | titleCaseFn | trimFn | upperCaseFn | timeFn | timeAddFn | timeSubtractFn | timeDiffFn
  | dateFn | epochFn | nowFn | singletonFn | eventsFn | matchFn | unionFn | mergeFn | reduceFn
  | intersectionFn | differenceFn | distinctFn | joinFn | rangeFn | loginFn | logoutFn
  | identifyFn | identityFn | hasIdentityFn | nextIdFn | newIdFn | databaseFn | indexFn | classFn
  | collectionFn | documentsFn | functionFn | roleFn | collectionsFn | classesFn | indexesFn
  | databasesFn | functionsFn | rolesFn | keysFn | tokensFn | credentialsFn | equalsFn
  | containsFn | absFn | acosFn | asinFn | atanFn | addFn | bitAndFn | bitNotFn | bitOrFn
  | bitXorFn | ceilFn | cosFn | coshFn | degreesFn | divideFn | expFn | floorFn | hypotFn | lnFn
  | logFn | maxFn | minFn | moduloFn | multiplyFn | powFn | radiansFn | roundFn | signFn | sinFn
  | sinhFn | sqrtFn | subtractFn | tanFn | tanhFn | truncFn | anyFn | allFn | countFn | sumFn
  | meanFn | ltFn | lteFn | gtFn | gteFn | andFn | orFn | notFn | selectFn | selectAllFn
  | toStringFn | toNumberFn | toTimeFn | toSecondsFn | toMillisFn | toMicrosFn | yearFn | monthFn
  | hourFn | minuteFn | secondFn | dayOfMonthFn | dayOfWeekFn | dayOfYearFn | toDateFn
  | isNumberFn | isDoubleFn | isIntegerFn | isBooleanFn | isTimestampFn | isBytesFn | isNullFn
  | isDateFn | isStringFn | isArrayFn | isObjectFn | isRefFn | isSetFn | isDocFn | isLambdaFn
  | isCollectionFn | isDatabaseFn | isFunctionFn | isKeyFn | isTokenFn | isCredentialsFn
  | isRoleFn | isIndexFn
  deriving DecidableEq, Repr

/-- The Go name of the struct type. -/
def FnKind.goName : FnKind → String
  | .abortFn => "abortFn"
  | .doFn => "doFn"
  | .ifFn => "ifFn"
  | .lambdaFn => "lambdaFn"
  | .atFn => "atFn"
  | .letFn => "letFn"
  | .varFn => "varFn"
  | .callFn => "callFn"
  | .queryFn => "queryFn"
  | .mapFn => "mapFn"
  | .foreachFn => "foreachFn"
  | .filterFn => "filterFn"
  | .takeFn => "takeFn"
  | .dropFn => "dropFn"
  | .prependFn => "prependFn"
  | .appendFn => "appendFn"
  | .isEmptyFn => "isEmptyFn"
  | .isNonEmptyFn => "isNonEmptyFn"
  | .getFn => "getFn"
  | .legacyRefFn => "legacyRefFn"
  | .refFn => "refFn"
  | .keyFromSecretFn => "keyFromSecretFn"
  | .existsFn => "existsFn"
  | .paginateFn => "paginateFn"
  | .createFn => "createFn"
  | .createClassFn => "createClassFn"
  | .createCollectionFn => "createCollectionFn"
  | .createDatabaseFn => "createDatabaseFn"
  | .createIndexFn => "createIndexFn"
  | .createKeyFn => "createKeyFn"
  | .createFunctionFn => "createFunctionFn"
  | .createRoleFn => "createRoleFn"
  | .moveDatabaseFn => "moveDatabaseFn"
  | .updateFn => "updateFn"
  | .replaceFn => "replaceFn"
  | .deleteFn => "deleteFn"
  | .insertFn => "insertFn"
  | .removeFn => "removeFn"
  | .formatFn => "formatFn"
  | .concatFn => "concatFn"
  | .casefoldFn => "casefoldFn"
  | .startsWithFn => "startsWithFn"
  | .endsWithFn => "endsWithFn"
  | .containsStrFn => "containsStrFn"
  | .containsStrRegexFn => "containsStrRegexFn"
  | .regexEscapeFn => "regexEscapeFn"
  | .findStrFn => "findStrFn"
  | .findStrRegexFn => "findStrRegexFn"
  | .lengthFn => "lengthFn"
  | .lowercaseFn => "lowercaseFn"
  | .lTrimFn => "lTrimFn"
  | .repeatFn => "repeatFn"
  | .replaceStrFn => "replaceStrFn"
  | .replaceStrRegexFn => "replaceStrRegexFn"
  | .rTrimFn => "rTrimFn"
  | .spaceFn => "spaceFn"
  | .subStringFn => "subStringFn"
  | .titleCaseFn => "titleCaseFn"
  | .trimFn => "trimFn"
  | .upperCaseFn => "upperCaseFn"
  | .timeFn => "timeFn"
  | .timeAddFn => "timeAddFn"
  | .timeSubtractFn => "timeSubtractFn"
  | .timeDiffFn => "timeDiffFn"
  | .dateFn => "dateFn"
  | .epochFn => "epochFn"
  | .nowFn => "nowFn"
  | .singletonFn => "singletonFn"
  | .eventsFn => "eventsFn"
  | .matchFn => "matchFn"
  | .unionFn => "unionFn"
  | .mergeFn => "mergeFn"
  | .reduceFn => "reduceFn"
  | .intersectionFn => "intersectionFn"
  | .differenceFn => "differenceFn"
  | .distinctFn => "distinctFn"
  | .joinFn => "joinFn"
  | .rangeFn => "rangeFn"
  | .loginFn => "loginFn"
  | .logoutFn => "logoutFn"
  | .identifyFn => "identifyFn"
  | .identityFn => "identityFn"
  | .hasIdentityFn => "hasIdentityFn"
  | .nextIdFn => "nextIdFn"
  | .newIdFn => "newIdFn"
  | .databaseFn => "databaseFn"
  | .indexFn => "indexFn"
  | .classFn => "classFn"
  | .collectionFn => "collectionFn"
  | .documentsFn => "documentsFn"
  | .functionFn => "functionFn"
  | .roleFn => "roleFn"
  | .collectionsFn => "collectionsFn"
  | .classesFn => "classesFn"
  | .indexesFn => "indexesFn"
  | .databasesFn => "databasesFn"
  | .functionsFn => "functionsFn"
  | .rolesFn => "rolesFn"
  | .keysFn => "keysFn"
  | .tokensFn => "tokensFn"
  | .credentialsFn => "credentialsFn"
  | .equalsFn => "equalsFn"
  | .containsFn => "containsFn"
  | .absFn => "absFn"
  | .acosFn => "acosFn"
  | .asinFn => "asinFn"
  | .atanFn => "atanFn"
  | .addFn => "addFn"
  | .bitAndFn => "bitAndFn"
  | .bitNotFn => "bitNotFn"
  | .bitOrFn => "bitOrFn"
  | .bitXorFn => "bitXorFn"
  | .ceilFn => "ceilFn"
  | .cosFn => "cosFn"
  | .coshFn => "coshFn"
  | .degreesFn => "degreesFn"
  | .divideFn => "divideFn"
  | .expFn => "expFn"
  | .floorFn => "floorFn"
  | .hypotFn => "hypotFn"
  | .lnFn => "lnFn"
  | .logFn => "logFn"
  | .maxFn => "maxFn"
  | .minFn => "minFn"
  | .moduloFn => "moduloFn"
  | .multiplyFn => "multiplyFn"
  | .powFn => "powFn"
  | .radiansFn => "radiansFn"
  | .roundFn => "roundFn"
  | .signFn => "signFn"
  | .sinFn => "sinFn"
  | .sinhFn => "sinhFn"
  | .sqrtFn => "sqrtFn"
  | .subtractFn => "subtractFn"
  | .tanFn => "tanFn"
  | .tanhFn => "tanhFn"
  | .truncFn => "truncFn"
  | .anyFn => "anyFn"
  | .allFn => "allFn"
  | .countFn => "countFn"
  | .sumFn => "sumFn"
  | .meanFn => "meanFn"
  | .ltFn => "ltFn"
  | .lteFn => "lteFn"
  | .gtFn => "gtFn"
  | .gteFn => "gteFn"
  | .andFn => "andFn"
  | .orFn => "orFn"
  | .notFn => "notFn"
  | .selectFn => "selectFn"
  | .selectAllFn => "selectAllFn"
  | .toStringFn => "toStringFn"
  | .toNumberFn => "toNumberFn"
  | .toTimeFn => "toTimeFn"
  | .toSecondsFn => "toSecondsFn"
  | .toMillisFn => "toMillisFn"
  | .toMicrosFn => "toMicrosFn"
  | .yearFn => "yearFn"
  | .monthFn => "monthFn"
  | .hourFn => "hourFn"
  | .minuteFn => "minuteFn"
  | .secondFn => "secondFn"
  | .dayOfMonthFn => "dayOfMonthFn"
  | .dayOfWeekFn => "dayOfWeekFn"
  | .dayOfYearFn => "dayOfYearFn"
  | .toDateFn => "toDateFn"
  | .isNumberFn => "isNumberFn"
  | .isDoubleFn => "isDoubleFn"
  | .isIntegerFn => "isIntegerFn"
  | .isBooleanFn => "isBooleanFn"
  | .isTimestampFn => "isTimestampFn"
  | .isBytesFn => "isBytesFn"
  | .isNullFn => "isNullFn"
  | .isDateFn => "isDateFn"
  | .isStringFn => "isStringFn"
  | .isArrayFn => "isArrayFn"
  | .isObjectFn => "isObjectFn"
  | .isRefFn => "isRefFn"
  | .isSetFn => "isSetFn"
  | .isDocFn => "isDocFn"
  | .isLambdaFn => "isLambdaFn"
  | .isCollectionFn => "isCollectionFn"
  | .isDatabaseFn => "isDatabaseFn"
  | .isFunctionFn => "isFunctionFn"
  | .isKeyFn => "isKeyFn"
  | .isTokenFn => "isTokenFn"
  | .isCredentialsFn => "isCredentialsFn"
  | .isRoleFn => "isRoleFn"
  | .isIndexFn => "isIndexFn"

/-- The `Expr` fields of each struct of functions.go, in declaration order, with their
`json` tags.  The embedded `fnApply` has both its fields tagged `json:"-"` and is left out. -/
def FnKind.fields : FnKind → List Field
  | .abortFn => [⟨"Abort", "abort", false⟩]
  | .doFn => [⟨"Do", "do", false⟩]
  | .ifFn => [⟨"Else", "else", false⟩, ⟨"If", "if", false⟩, ⟨"Then", "then", false⟩]
  | .lambdaFn => [⟨"Expression", "expr", false⟩, ⟨"Lambda", "lambda", false⟩]
  | .atFn => [⟨"At", "at", false⟩, ⟨"Expression", "expr", false⟩]
  | .letFn => [⟨"In", "in", false⟩, ⟨"Let", "let", false⟩]
  | .varFn => [⟨"Var", "var", false⟩]
  | .callFn => [⟨"Call", "call", false⟩, ⟨"Params", "arguments", false⟩]
  | .queryFn => [⟨"Query", "query", false⟩]
  | .mapFn => [⟨"Collection", "collection", false⟩, ⟨"Map", "map", false⟩]
  | .foreachFn => [⟨"Collection", "collection", false⟩, ⟨"Foreach", "foreach", false⟩]
  | .filterFn => [⟨"Collection", "collection", false⟩, ⟨"Filter", "filter", false⟩]
  | .takeFn => [⟨"Collection", "collection", false⟩, ⟨"Take", "take", false⟩]
  | .dropFn => [⟨"Collection", "collection", false⟩, ⟨"Drop", "drop", false⟩]
  | .prependFn => [⟨"Collection", "collection", false⟩, ⟨"Prepend", "prepend", false⟩]
  | .appendFn => [⟨"Append", "append", false⟩, ⟨"Collection", "collection", false⟩]
  | .isEmptyFn => [⟨"IsEmpty", "is_empty", false⟩]
  | .isNonEmptyFn => [⟨"IsNonEmpty", "is_nonempty", false⟩]
  | .getFn => [⟨"Get", "get", false⟩, ⟨"TS", "ts", true⟩]
  | .legacyRefFn => [⟨"Ref", "@ref", false⟩]
  | .refFn => [⟨"ID", "id", true⟩, ⟨"Ref", "ref", false⟩]
  | .keyFromSecretFn => [⟨"KeyFromSecret", "key_from_secret", false⟩]
  | .existsFn => [⟨"Exists", "exists", false⟩, ⟨"TS", "ts", true⟩]
  | .paginateFn => [⟨"After", "after", true⟩, ⟨"Before", "before", true⟩, ⟨"Events", "events", true⟩, ⟨"Paginate", "paginate", false⟩, ⟨"Size", "size", true⟩, ⟨"Sources", "sources", true⟩, ⟨"TS", "ts", true⟩]
  | .createFn => [⟨"Create", "create", false⟩, ⟨"Params", "params", false⟩]
  | .createClassFn => [⟨"CreateClass", "create_class", false⟩]
  | .createCollectionFn => [⟨"CreateCollection", "create_collection", false⟩]
  | .createDatabaseFn => [⟨"CreateDatabase", "create_database", false⟩]
  | .createIndexFn => [⟨"CreateIndex", "create_index", false⟩]
  | .createKeyFn => [⟨"CreateKey", "create_key", false⟩]
  | .createFunctionFn => [⟨"CreateFunction", "create_function", false⟩]
  | .createRoleFn => [⟨"CreateRole", "create_role", false⟩]
  | .moveDatabaseFn => [⟨"MoveDatabase", "move_database", false⟩, ⟨"To", "to", false⟩]
  | .updateFn => [⟨"Params", "params", false⟩, ⟨"Update", "update", false⟩]
  | .replaceFn => [⟨"Params", "params", false⟩, ⟨"Replace", "replace", false⟩]
  | .deleteFn => [⟨"Delete", "delete", false⟩]
  | .insertFn => [⟨"Action", "action", false⟩, ⟨"Insert", "insert", false⟩, ⟨"Params", "params", false⟩, ⟨"Ts", "ts", false⟩]
  | .removeFn => [⟨"Action", "action", false⟩, ⟨"Remove", "remove", false⟩, ⟨"Ts", "ts", false⟩]
  | .formatFn => [⟨"Format", "format", false⟩, ⟨"Values", "values", false⟩]
  | .concatFn => [⟨"Concat", "concat", false⟩, ⟨"Separator", "separator", true⟩]
  | .casefoldFn => [⟨"Casefold", "casefold", false⟩, ⟨"Normalizer", "normalizer", true⟩]
  | .startsWithFn => [⟨"Search", "search", false⟩, ⟨"StartsWith", "startswith", false⟩]
  | .endsWithFn => [⟨"EndsWith", "endswith", false⟩, ⟨"Search", "search", false⟩]
  | .containsStrFn => [⟨"ContainsStr", "containsstr", false⟩, ⟨"Search", "search", false⟩]
  | .containsStrRegexFn => [⟨"ContainsStrRegex", "containsstrregex", false⟩, ⟨"Pattern", "pattern", false⟩]
  | .regexEscapeFn => [⟨"RegexEscape", "regexescape", false⟩]
  | .findStrFn => [⟨"Find", "find", false⟩, ⟨"FindStr", "findstr", false⟩, ⟨"Start", "start", true⟩]
  | .findStrRegexFn => [⟨"FindStrRegex", "findstrregex", false⟩, ⟨"Pattern", "pattern", false⟩]
  | .lengthFn => [⟨"Length", "length", false⟩]
  | .lowercaseFn => [⟨"Lowercase", "lowercase", false⟩]
  | .lTrimFn => [⟨"LTrim", "ltrim", false⟩]
  | .repeatFn => [⟨"Number", "number", false⟩, ⟨"Repeat", "repeat", false⟩]
  | .replaceStrFn => [⟨"Find", "find", false⟩, ⟨"Replace", "replace", false⟩, ⟨"ReplaceStr", "replacestr", false⟩]
  | .replaceStrRegexFn => [⟨"Pattern", "pattern", false⟩, ⟨"Replace", "replace", false⟩, ⟨"ReplaceStrRegex", "replacestrregex", false⟩, ⟨"First", "first", true⟩]
  | .rTrimFn => [⟨"RTrim", "rtrim", false⟩]
  | .spaceFn => [⟨"Space", "space", false⟩]
  | .subStringFn => [⟨"Length", "length", true⟩, ⟨"Start", "start", false⟩, ⟨"SubString", "substring", false⟩]
  | .titleCaseFn => [⟨"Titlecase", "titlecase", false⟩]
  | .trimFn => [⟨"Trim", "trim", false⟩]
  | .upperCaseFn => [⟨"UpperCase", "uppercase", false⟩]
  | .timeFn => [⟨"Time", "time", false⟩]
  | .timeAddFn => [⟨"Offset", "offset", false⟩, ⟨"TimeAdd", "time_add", false⟩, ⟨"Unit", "unit", false⟩]
  | .timeSubtractFn => [⟨"Offset", "offset", false⟩, ⟨"TimeSubtract", "time_subtract", false⟩, ⟨"Unit", "unit", false⟩]
  | .timeDiffFn => [⟨"Other", "other", false⟩, ⟨"TimeDiff", "time_diff", false⟩, ⟨"Unit", "unit", false⟩]
  | .dateFn => [⟨"Date", "date", false⟩]
  | .epochFn => [⟨"Epoch", "epoch", false⟩, ⟨"Unit", "unit", false⟩]
  | .nowFn => [⟨"Now", "now", false⟩]
  | .singletonFn => [⟨"Singleton", "singleton", false⟩]
  | .eventsFn => [⟨"Events", "events", false⟩]
  | .matchFn => [⟨"Match", "match", false⟩, ⟨"Terms", "terms", true⟩]
  | .unionFn => [⟨"Union", "union", false⟩]
  | .mergeFn => [⟨"Lambda", "lambda", true⟩, ⟨"Merge", "merge", false⟩, ⟨"With", "with", false⟩]
  | .reduceFn => [⟨"Collection", "collection", false⟩, ⟨"Initial", "initial", false⟩, ⟨"Reduce", "reduce", false⟩]
  | .intersectionFn => [⟨"Intersection", "intersection", false⟩]
  | .differenceFn => [⟨"Difference", "difference", false⟩]
  | .distinctFn => [⟨"Distinct", "distinct", false⟩]
  | .joinFn => [⟨"Join", "join", false⟩, ⟨"With", "with", false⟩]
  | .rangeFn => [⟨"From", "from", false⟩, ⟨"Range", "range", false⟩, ⟨"To", "to", false⟩]
  | .loginFn => [⟨"Login", "login", false⟩, ⟨"Params", "params", false⟩]
  | .logoutFn => [⟨"Logout", "logout", false⟩]
  | .identifyFn => [⟨"Identify", "identify", false⟩, ⟨"Password", "password", false⟩]
  | .identityFn => [⟨"Identity", "identity", false⟩]
  | .hasIdentityFn => [⟨"HasIdentity", "has_identity", false⟩]
  | .nextIdFn => [⟨"NextID", "next_id", false⟩]
  | .newIdFn => [⟨"NewID", "new_id", false⟩]
  | .databaseFn => [⟨"Database", "database", false⟩, ⟨"Scope", "scope", true⟩]
  | .indexFn => [⟨"Index", "index", false⟩, ⟨"Scope", "scope", true⟩]
  | .classFn => [⟨"Class", "class", false⟩, ⟨"Scope", "scope", true⟩]
  | .collectionFn => [⟨"Collection", "collection", false⟩, ⟨"Scope", "scope", true⟩]
  | .documentsFn => [⟨"Documents", "documents", false⟩]
  | .functionFn => [⟨"Function", "function", false⟩, ⟨"Scope", "scope", true⟩]
  | .roleFn => [⟨"Role", "role", false⟩, ⟨"Scope", "scope", true⟩]
  | .collectionsFn => [⟨"Collections", "collections", false⟩]
  | .classesFn => [⟨"Classes", "classes", false⟩]
  | .indexesFn => [⟨"Indexes", "indexes", false⟩]
  | .databasesFn => [⟨"Databases", "databases", false⟩]
  | .functionsFn => [⟨"Functions", "functions", false⟩]
  | .rolesFn => [⟨"Roles", "roles", false⟩]
  | .keysFn => [⟨"Keys", "keys", false⟩]
  | .tokensFn => [⟨"Tokens", "tokens", false⟩]
  | .credentialsFn => [⟨"Credentials", "credentials", false⟩]
  | .equalsFn => [⟨"Equals", "equals", false⟩]
  | .containsFn => [⟨"Contains", "contains", false⟩, ⟨"Value", "in", false⟩]
  | .absFn => [⟨"Abs", "abs", false⟩]
  | .acosFn => [⟨"Acos", "acos", false⟩]
  | .asinFn => [⟨"Asin", "asin", false⟩]
  | .atanFn => [⟨"Atan", "atan", false⟩]
  | .addFn => [⟨"Add", "add", false⟩]
  | .bitAndFn => [⟨"BitAnd", "bitand", false⟩]
  | .bitNotFn => [⟨"BitNot", "bitnot", false⟩]
  | .bitOrFn => [⟨"BitOr", "bitor", false⟩]
  | .bitXorFn => [⟨"BitXor", "bitxor", false⟩]
  | .ceilFn => [⟨"Ceil", "ceil", false⟩]
  | .cosFn => [⟨"Cos", "cos", false⟩]
  | .coshFn => [⟨"Cosh", "cosh", false⟩]
  | .degreesFn => [⟨"Degrees", "degrees", false⟩]
  | .divideFn => [⟨"Divide", "divide", false⟩]
  | .expFn => [⟨"Exp", "exp", false⟩]
  | .floorFn => [⟨"Floor", "floor", false⟩]
  | .hypotFn => [⟨"B", "b", false⟩, ⟨"Hypot", "hypot", false⟩]
  | .lnFn => [⟨"Ln", "ln", false⟩]
  | .logFn => [⟨"Log", "log", false⟩]
  | .maxFn => [⟨"Max", "max", false⟩]
  | .minFn => [⟨"Min", "min", false⟩]
  | .moduloFn => [⟨"Modulo", "modulo", false⟩]
  | .multiplyFn => [⟨"Multiply", "multiply", false⟩]
  | .powFn => [⟨"Exp", "exp", false⟩, ⟨"Pow", "pow", false⟩]
  | .radiansFn => [⟨"Radians", "radians", false⟩]
  | .roundFn => [⟨"Round", "round", false⟩, ⟨"Precision", "precision", true⟩]
  | .signFn => [⟨"Sign", "sign", false⟩]
  | .sinFn => [⟨"Sin", "sin", false⟩]
  | .sinhFn => [⟨"Sinh", "sinh", false⟩]
  | .sqrtFn => [⟨"Sqrt", "sqrt", false⟩]
  | .subtractFn => [⟨"Subtract", "subtract", false⟩]
  | .tanFn => [⟨"Tan", "tan", false⟩]
  | .tanhFn => [⟨"Tanh", "tanh", false⟩]
  | .truncFn => [⟨"Trunc", "trunc", false⟩, ⟨"Precision", "precision", true⟩]
  | .anyFn => [⟨"Any", "any", false⟩]
  | .allFn => [⟨"All", "all", false⟩]
  | .countFn => [⟨"Count", "count", false⟩]
  | .sumFn => [⟨"Sum", "sum", false⟩]
  | .meanFn => [⟨"Mean", "mean", false⟩]
  | .ltFn => [⟨"LT", "lt", false⟩]
  | .lteFn => [⟨"LTE", "lte", false⟩]
  | .gtFn => [⟨"GT", "gt", false⟩]
  | .gteFn => [⟨"GTE", "gte", false⟩]
  | .andFn => [⟨"And", "and", false⟩]
  | .orFn => [⟨"Or", "or", false⟩]
  | .notFn => [⟨"Not", "not", false⟩]
  | .selectFn => [⟨"Default", "default", true⟩, ⟨"From", "from", false⟩, ⟨"Select", "select", false⟩]
  | .selectAllFn => [⟨"Default", "default", true⟩, ⟨"From", "from", false⟩, ⟨"SelectAll", "select_all", false⟩]
  | .toStringFn => [⟨"ToString", "to_string", false⟩]
  | .toNumberFn => [⟨"ToNumber", "to_number", false⟩]
  | .toTimeFn => [⟨"ToTime", "to_time", false⟩]
  | .toSecondsFn => [⟨"ToSeconds", "to_seconds", false⟩]
  | .toMillisFn => [⟨"ToMillis", "to_millis", false⟩]
  | .toMicrosFn => [⟨"ToMicros", "to_micros", false⟩]
  | .yearFn => [⟨"Year", "year", false⟩]
  | .monthFn => [⟨"Month", "month", false⟩]
  | .hourFn => [⟨"Hour", "hour", false⟩]
  | .minuteFn => [⟨"Minute", "minute", false⟩]
  | .secondFn => [⟨"Second", "second", false⟩]
  | .dayOfMonthFn => [⟨"DayOfMonth", "day_of_month", false⟩]
  | .dayOfWeekFn => [⟨"DayOfWeek", "day_of_week", false⟩]
  | .dayOfYearFn => [⟨"DayOfYear", "day_of_year", false⟩]
  | .toDateFn => [⟨"ToDate", "to_date", false⟩]
  | .isNumberFn => [⟨"IsNumber", "is_number", false⟩]
  | .isDoubleFn => [⟨"IsDouble", "is_double", false⟩]
  | .isIntegerFn => [⟨"IsInteger", "is_integer", false⟩]
  | .isBooleanFn => [⟨"IsBoolean", "is_boolean", false⟩]
  | .isTimestampFn => [⟨"IsTimestamp", "is_timestamp", false⟩]
  | .isBytesFn => [⟨"IsBytes", "is_bytes", false⟩]
  | .isNullFn => [⟨"IsNull", "is_null", false⟩]
  | .isDateFn => [⟨"IsDate", "is_date", false⟩]
  | .isStringFn => [⟨"IsString", "is_string", false⟩]
  | .isArrayFn => [⟨"IsArray", "is_array", false⟩]
  | .isObjectFn => [⟨"IsObject", "is_object", false⟩]
  | .isRefFn => [⟨"IsRef", "is_ref", false⟩]
  | .isSetFn => [⟨"IsSet", "is_set", false⟩]
  | .isDocFn => [⟨"IsDoc", "is_doc", false⟩]
  | .isLambdaFn => [⟨"IsLambda", "is_lambda", false⟩]
  | .isCollectionFn => [⟨"IsCollection", "is_collection", false⟩]
  | .isDatabaseFn => [⟨"IsDatabase", "is_database", false⟩]
  | .isFunctionFn => [⟨"IsFunction", "is_function", false⟩]
  | .isKeyFn => [⟨"IsKey", "is_key", false⟩]
  | .isTokenFn => [⟨"IsToken", "is_token", false⟩]
  | .isCredentialsFn => [⟨"IsCredentials", "is_credentials", false⟩]
  | .isRoleFn => [⟨"IsRole", "is_role", false⟩]
  | .isIndexFn => [⟨"IsIndex", "is_index", false⟩]

/-! ## Expressions and host values -/

/-- A value of the interface type `Expr` (expr.go).  `nil` is the nil interface value, which is
what an unset struct field holds.  An `unescapedObj` is a Go map: its entries are kept as a list
without repeated keys.  An `unescapedArr` is a slice; a nil slice and an empty one are both the
empty list.  A value of a struct type of functions.go is `fn k fields`, the values of the fields
of `k.fields` in the same order (`wf` below says that there is one value per field).  The types
`Obj` and `Arr` of expr.go are host-side shortcuts and are values of `Host`. -/
inductive Expr where
  | nil
  | value (v : Value)
  | unescapedObj (obj : List (String × Expr))
  | unescapedArr (arr : List Expr)
  | invalidExpr (err : GoError)
  | fn (k : FnKind) (fields : List Expr)
  deriving Repr

/-- The test `e == nil` on an interface value. -/
def Expr.isNil : Expr → Bool
  | .nil => true
  | _ => false

/-- The test `expr == Null()` of two interface values: equal dynamic types and equal values.  `NullV`
is a struct without fields, so the test never panics. -/
def Expr.isNull : Expr → Bool
  | .value .NullV => true
  | _ => false

/-- The name of the dynamic type, as `reflect.TypeOf(e).String()` gives it; for the nil
interface, what `fmt` prints for a nil `reflect.Type` under `%s`. -/
def Expr.typeString : Expr → String
  | .nil => "%!s(<nil>)"
  | .value v => v.typeString
  | .unescapedObj _ => "faunadb.unescapedObj"
  | .unescapedArr _ => "faunadb.unescapedArr"
  | .invalidExpr _ => "faunadb.invalidExpr"
  | .fn k _ => "faunadb." ++ k.goName

/-- The field selected by Go name in a list of field values laid out as `decl`; a name that is
not declared gives nil. -/
def getField : List Field → List Expr → String → Expr
  | f :: decl, v :: vals, name => if f.name = name then v else getField decl vals name
  | _, _, _ => .nil

/-- Assignment to the field selected by Go name. -/
def setField : List Field → List Expr → String → Expr → List Expr
  | f :: decl, v :: vals, name, nv =>
      if f.name = name then nv :: vals else v :: setField decl vals name nv
  | _, vals, _, _ => vals

/-- The selector expression `fn.F`. -/
def Expr.get (e : Expr) (F : String) : Expr :=
  match e with
  | .fn k vals => getField k.fields vals F
  | _ => .nil

/-- The assignment `fn.F = nv`. -/
def Expr.set (e : Expr) (F : String) (nv : Expr) : Expr :=
  match e with
  | .fn k vals => .fn k (setField k.fields vals F nv)
  | e => e

/-- The composite literal `k{F1: e1, ..., Fn: en}`: the named fields take the given values and
every other field is the zero value, nil. -/
def structLit (k : FnKind) (inits : List (String × Expr)) : Expr :=
  .fn k (k.fields.map fun f => (inits.lookup f.name).getD .nil)

/-- A value of type `interface{}` handed to a query function.  The kinds are those the spec (4.1)
names: null, scalars, an `Expr`, an ordered sequence (`Arr`, a slice), a key-value mapping (`Obj`,
a map with string keys, kept as a list of entries without repeated keys) and a value of a kind
that `wrap` does not support, with the error that `wrap` reports for it. -/
inductive Host where
  | nil
  | bool (b : Bool)
  | int (n : Int)
  | str (s : String)
  | bytes (bs : List Nat)
  | time (nanos : Int)
  | expr (e : Expr)
  | slice (xs : List Host)
  | map (kvs : List (String × Host))
  | unsupported (err : GoError)
  deriving Repr

mutual
/-- Modelled from the spec: `wrap` is called throughout query.go but its source is not among the
files.  Spec 4.1: scalars wrap to the corresponding literal nodes; an AST node is returned
unchanged; an ordered sequence wraps to an escaped array whose elements are each wrapped; a
key-value mapping wraps to an escaped object whose values are each wrapped, except that a
single-entry mapping whose only key is the literal-data tag `"object"` is transparent: the result
is its value, wrapped; a value of an unsupported kind gives an error sentinel that carries the
reason.  The nil `Expr` is the absent value.  The spec names no reserved control tag other than
the literal-data tag, so no other single-entry mapping is set apart. -/
def wrap : Host → Expr
  | .nil => .value .NullV
  | .bool b => .value (.BooleanV b)
  | .int n => .value (.LongV n)
  | .str s => .value (.StringV s)
  | .bytes bs => .value (.BytesV bs)
  | .time t => .value (.TimeV t)
  | .expr .nil => .value .NullV
  | .expr e => e
  | .slice xs => .unescapedArr (wrapList xs)
  | .map [(k, v)] => if k = "object" then wrap v else .unescapedObj [(k, wrap v)]
  | .map kvs => .unescapedObj (wrapEntries kvs)
  | .unsupported err => .invalidExpr err
/-- Modelled from the spec: `wrap` on each element of a sequence. -/
def wrapList : List Host → List Expr
  | [] => []
  | x :: xs => wrap x :: wrapList xs
/-- Modelled from the spec: `wrap` on each value of a mapping. -/
def wrapEntries : List (String × Host) → List (String × Expr)
  | [] => []
  | (k, v) :: kvs => (k, wrap v) :: wrapEntries kvs
end

/-! ## json.Marshal -/

/-- The method `invalidExpr.MarshalJSON` (expr.go): `return nil, inv.err`. -/
def invalidExpr.MarshalJSON (err : GoError) : Except GoError Json :=
  .error err

/-- The encoder `json.Marshal` uses for a value with a `MarshalJSON` method: the method's
output, or the method's error wrapped in a `*json.MarshalerError` that names the type. -/
def marshalerEncoder (typ : String) (r : Except GoError Json) : Except GoError Json :=
  match r with
  | .ok j => .ok j
  | .error err => .error (.MarshalerError typ err)

/-- Modelled from the spec: the wire form of `unescapedObj`, whose `MarshalJSON` is not among the
source files, from its encoded entries.  Spec 4.3: an escaped object serializes as a single-key
object whose key is the literal-data tag and whose value is the recursively serialized field
mapping. -/
def unescapedObj.MarshalJSON (entries : Except GoError (List (String × Json))) :
    Except GoError Json :=
  match entries with
  | .ok members => .ok (.obj [("object", .obj members)])
  | .error err => .error err

mutual
/-- The function `json.Marshal` on an `Expr`.
* nil encodes as `null`;
* a literal encodes as values.go prescribes (`Json.lit`);
* `invalidExpr` has a `MarshalJSON` method (expr.go), called through `marshalerEncoder`;
* `unescapedArr` is a slice: a JSON array of the encoded elements;
* a struct of functions.go is encoded field by field from its `json` tags (`marshalFields`);
* for `unescapedObj` see `unescapedObj.MarshalJSON`, called through `marshalerEncoder`.
Encoding stops at the first error. -/
def Marshal : Expr → Except GoError Json
  | .nil => .ok .null
  | .value v => .ok (.lit v)
  | .invalidExpr err => marshalerEncoder "faunadb.invalidExpr" (invalidExpr.MarshalJSON err)
  | .unescapedArr arr =>
      match marshalList arr with
      | .ok js => .ok (.arr js)
      | .error err => .error err
  | .unescapedObj obj =>
      marshalerEncoder "faunadb.unescapedObj" (unescapedObj.MarshalJSON (marshalEntries obj))
  | .fn k vals =>
      match marshalFields k.fields vals with
      | .ok members => .ok (.obj members)
      | .error err => .error err
/-- The elements of a slice, encoded in order. -/
def marshalList : List Expr → Except GoError (List Json)
  | [] => .ok []
  | e :: es =>
      match Marshal e with
      | .error err => .error err
      | .ok j =>
          match marshalList es with
          | .error err => .error err
          | .ok js => .ok (j :: js)
/-- The entries of a map, encoded in order. -/
def marshalEntries : List (String × Expr) → Except GoError (List (String × Json))
  | [] => .ok []
  | (k, e) :: es =>
      match Marshal e with
      | .error err => .error err
      | .ok j =>
          match marshalEntries es with
          | .error err => .error err
          | .ok js => .ok ((k, j) :: js)
/-- The struct encoder of `encoding/json`: the fields in declaration order; a field tagged
`omitempty` is skipped when its interface value is nil; every other field is written under the
name of its tag. -/
def marshalFields : List Field → List Expr → Except GoError (List (String × Json))
  | f :: decl, v :: vals =>
      if f.omitempty && v.isNil then marshalFields decl vals
      else
        match Marshal v with
        | .error err => .error err
        | .ok j =>
            match marshalFields decl vals with
            | .error err => .error err
            | .ok members => .ok ((f.json, j) :: members)
  | _, _ => .ok []
end

/-! ## The debug serializer (strconv.go, expr.go) -/

/-- What the debug serializer takes from outside the source files. -/
structure Runtime where
  /-- The `String` methods of the literal values (values.go, not among the source files). -/
  valueString : Value → String
  /-- The library function `strconv.Quote`. -/
  quote : String → String
  /-- The order in which a `range` loop visits a map with `n` entries, as a list of positions
  among the entries.  Go leaves the order unspecified; a legal order is a permutation of
  `0, ..., n-1` (`Runtime.Legal`).  Within one rendering every map with `n` entries is visited in
  this one order; two renderings may differ in their `Runtime`. -/
  rangeOrder : Nat → List Nat
  /-- The outcome of `reflect.ValueOf(args).Type().Implements(arrType)` in `_fnCall`, where
  `args` has type `[]Expr`; the variable `arrType` is not declared in the source files. -/
  implementsArrType : Except Panic Bool

/-- The iteration orders that Go allows. -/
def Runtime.Legal (rt : Runtime) : Prop :=
  ∀ n, (rt.rangeOrder n).Perm (List.range n)

/-- The entries of a map in the order a `range` loop visits them. -/
def Runtime.range {α : Type} (rt : Runtime) (entries : List α) : List α :=
  (rt.rangeOrder entries.length).filterMap fun i => entries[i]?

/-- An `Expr` operand of the debug serializer: the value, the outcome of calling its `String`
method, and the same for the values it holds (the elements of an `unescapedArr`, under the key
`""`; the entries of an `unescapedObj`; the fields of a struct, under their Go names). -/
inductive Arg where
  | mk (val : Expr) (str : Except Panic String) (elems : List (String × Arg))

/-- The operand itself. -/
def Arg.val : Arg → Expr
  | .mk val _ _ => val

/-- The outcome of `v.String()`. -/
def Arg.str : Arg → Except Panic String
  | .mk _ str _ => str

/-- The operands held by the value. -/
def Arg.elems : Arg → List (String × Arg)
  | .mk _ _ elems => elems

/-- The nil operand: a method call on it panics. -/
def Arg.nil : Arg :=
  .mk .nil (.error .nilDereference) []

/-- The index expression `m[key]` on a map (nil when the key is absent) and the selector `fn.F`
on a struct. -/
def Arg.index (elems : List (String × Arg)) (key : String) : Arg :=
  (elems.lookup key).getD Arg.nil

/-- How `fmt` prints an `Expr` operand under the verb `%s` or `%v`: the nil interface is a bad
operand; otherwise the `String` method is called, and a panic of the method is caught and
printed. -/
def fmtVerb (verb : String) (a : Arg) : String :=
  match a.val with
  | .nil => "%!" ++ verb ++ "(<nil>)"
  | _ =>
      match a.str with
      | .ok s => s
      | .error p => "%!" ++ verb ++ "(PANIC=String method: " ++ p.text ++ ")"

/-- The scan of the format string in `fmt.Sprintf(format, v)` with one `Expr` operand: `used`
tells whether the operand is consumed.  The format strings of strconv.go contain no verb but
`%s`; any other character is copied. -/
def sprintfScan (a : Arg) : List Char → Bool → String
  | '%' :: 's' :: rest, used =>
      (if used then "%!s(MISSING)" else fmtVerb "s" a) ++ sprintfScan a rest true
  | c :: rest, used => c.toString ++ sprintfScan a rest used
  | [], used =>
      if used then "" else "%!(EXTRA " ++ a.val.typeString ++ "=" ++ fmtVerb "v" a ++ ")"

/-- The call `fmt.Sprintf(format, v)` with one non-nil `Expr` operand: an operand that no verb
consumes is reported at the end as `%!(EXTRA type=value)`. -/
def Sprintf1 (format : String) (a : Arg) : String :=
  sprintfScan a format.toList false

/-- The call `strings.Join(strs, sep)`. -/
def strings.Join (strs : List String) (sep : String) : String :=
  sep.intercalate strs

/-- The calls `v.String()` for the operands in order; the first panic ends the loop. -/
def callStrings : List Arg → Except Panic (List String)
  | [] => .ok []
  | a :: rest =>
      match a.str with
      | .error p => .error p
      | .ok s =>
          match callStrings rest with
          | .error p => .error p
          | .ok ss => .ok (s :: ss)

/-- The constants `noArgs`, `varArgs`, `optArgs`, `basicArgs` of strconv.go. -/
def noArgs : Nat := 1
/-- See `noArgs`. -/
def varArgs : Nat := 2
/-- See `noArgs`. -/
def optArgs : Nat := 3
/-- See `noArgs`. -/
def basicArgs : Nat := 4

/-- The case `basicArgs` of `_fnCall`. -/
def fnCallBasic (name : String) (args : List Arg) : Except Panic String :=
  match callStrings args with
  | .error p => .error p
  | .ok strArgs => .ok (name ++ "(" ++ strings.Join strArgs ", " ++ ")")

/-- The function `_fnCall` (strconv.go), with the pattern `"%s(%s)"`.  `mapping` is `none` for a
nil map.  In the case `varArgs` the test is evaluated only for a single argument; when it holds,
the type assertion of a `[]Expr` to `unescapedArr` that follows panics. -/
def _fnCall (rt : Runtime) (name : String) (argType : Nat)
    (mapping : Option (List (String × Arg))) (args : List Arg) : Except Panic String :=
  if argType = noArgs then .ok (name ++ "(" ++ "" ++ ")")
  else if argType = basicArgs then fnCallBasic name args
  else if argType = varArgs then
    if args.length = 1 then
      match rt.implementsArrType with
      | .error p => .error p
      | .ok true =>
          .error (.interfaceConversion "interface \x7b\x7d" "[]faunadb.Expr" "faunadb.unescapedArr")
      | .ok false => fnCallBasic name args
    else fnCallBasic name args
  else if argType = optArgs then
    match mapping with
    | none => .error (.message
        (name ++ ".String() accepts optional parameters, should have a non-zero mapping"))
    | some mapping =>
        if mapping.length = 0 then .error (.message
          (name ++ ".String() accepts optional parameters, should have a non-zero mapping"))
        else
          match callStrings args with
          | .error p => .error p
          | .ok strArgs =>
              let opts := (rt.range mapping).filterMap fun kv =>
                if kv.2.val.isNil then none else some (Sprintf1 kv.1 kv.2)
              .ok (name ++ "(" ++ strings.Join (strArgs ++ opts) ", " ++ ")")
  else .ok ""

/-- The function `printFn`. -/
def printFn (rt : Runtime) (name : String) (args : List Arg) : Except Panic String :=
  _fnCall rt name basicArgs none args

/-- The function `printNoArgsFn`; it passes the single argument `nil`. -/
def printNoArgsFn (rt : Runtime) (name : String) : Except Panic String :=
  _fnCall rt name noArgs none [Arg.nil]

/-- The function `printScopedFn`. -/
def printScopedFn (rt : Runtime) (name : String) (arg1 : Arg) (scope : Arg) :
    Except Panic String :=
  if !scope.val.isNil then printFn rt ("Scoped" ++ name) [arg1, scope]
  else printFn rt name [arg1]

/-- The function `printKeyScopedFn`. -/
def printKeyScopedFn (rt : Runtime) (name : String) (expr : Arg) : Except Panic String :=
  if !expr.val.isNull then printFn rt ("Scoped" ++ name) [expr]
  else printNoArgsFn rt name

/-- The function `printVarArgFn`. -/
def printVarArgFn (rt : Runtime) (name : String) (args : List Arg) : Except Panic String :=
  _fnCall rt name varArgs none args

/-- The function `printFnWithOpts`. -/
def printFnWithOpts (rt : Runtime) (name : String) (mapping : List (String × Arg))
    (args : List Arg) : Except Panic String :=
  _fnCall rt name optArgs (some mapping) args

/-- The method `invalidExpr.String` (expr.go). -/
def invalidExpr.String : String := "invalidExpr"

/-- The method `unescapedArr.String` (expr.go). -/
def unescapedArr.String (arr : List Arg) : String :=
  "Arr\x7b" ++ strings.Join (arr.map fun v => fmtVerb "s" v) ", " ++ "\x7d"

/-- The method `unescapedObj.String` (expr.go). -/
def unescapedObj.String (rt : Runtime) (obj : List (String × Arg)) : String :=
  if obj.length = 1 && !(Arg.index obj "object").val.isNil then
    fmtVerb "s" (Arg.index obj "object")
  else
    "Obj\x7b"
      ++ strings.Join ((rt.range obj).map fun kv => rt.quote kv.1 ++ ": " ++ fmtVerb "s" kv.2) ", "
      ++ "\x7d"

/-- The loop of `letFn.String` over the elements of the bindings: each element is asserted to be
an `unescapedObj` and each of its entries gives one `Bind(k, v)`. -/
def letBindings (rt : Runtime) : List Arg → Except Panic (List String)
  | [] => .ok []
  | elem :: rest =>
      match elem.val with
      | .unescapedObj _ =>
          match letBindings rt rest with
          | .error p => .error p
          | .ok bs =>
              .ok (((rt.range elem.elems).map fun kv =>
                "Bind(" ++ kv.1 ++ ", " ++ fmtVerb "s" kv.2 ++ ")") ++ bs)
      | e => .error (.interfaceConversion "faunadb.Expr"
          (match e with | .nil => "nil" | e => e.typeString) "faunadb.unescapedObj")

/-- The method `letFn.String` (strconv.go). -/
def letFn.String (rt : Runtime) (Let In : Arg) : Except Panic String :=
  match Let.val with
  | .unescapedArr _ =>
      match letBindings rt (Let.elems.map Prod.snd) with
      | .error p => .error p
      | .ok bindings =>
          .ok ("Let()." ++ strings.Join bindings "." ++ ".In(" ++ fmtVerb "s" In ++ ")")
  | e => .error (.message
      ("Let bindings should be an unescapedArr, " ++ e.typeString ++ " instead"))

/-- The method `matchFn.String` (strconv.go). -/
def matchFn.String (rt : Runtime) (Match Terms : Arg) : Except Panic String :=
  if !Terms.val.isNil then printFn rt "MatchTerms" [Match, Terms]
  else printFn rt "Match" [Match]

/-- The `String` method of each struct type of functions.go (strconv.go); `fn F` is the field
`fn.F`. -/
def FnKind.String (rt : Runtime) (k : FnKind) (fn : String → Arg) : Except Panic String :=
  match k with
  | .letFn => letFn.String rt (fn "Let") (fn "In")
  | .matchFn => matchFn.String rt (fn "Match") (fn "Terms")
  | .legacyRefFn => printFn rt "Ref" [fn "Ref"]
  | .refFn => printFn rt "RefCollection" [fn "Ref", fn "ID"]
  | .abortFn => printFn rt "Abort" [fn "Abort"]
  | .doFn => printFn rt "Do" [fn "Do"]
  | .ifFn => printFn rt "If" [fn "If", fn "Then", fn "Else"]
  | .lambdaFn => printFn rt "Lambda" [fn "Lambda", fn "Expression"]
  | .atFn => printFn rt "At" [fn "At", fn "Expression"]
  | .varFn => printFn rt "Var" [fn "Var"]
  | .callFn => printFn rt "Call" [fn "Call", fn "Params"]
  | .queryFn => printFn rt "Query" [fn "Query"]
  | .mapFn => printFn rt "Map" [fn "Map"]
  | .foreachFn => printFn rt "Foreach" [fn "Foreach", fn "Collection"]
  | .filterFn => printFn rt "Filter" [fn "Filter", fn "Collection"]
  | .takeFn => printFn rt "Take" [fn "Take"]
  | .dropFn => printFn rt "Drop" [fn "Drop"]
  | .prependFn => printFn rt "Prepend" [fn "Prepend", fn "Collection"]
  | .appendFn => printFn rt "Append" [fn "Append", fn "Collection"]
  | .isEmptyFn => printFn rt "IsEmpty" [fn "IsEmpty"]
  | .isNonEmptyFn => printFn rt "IsNonEmpty" [fn "IsNonEmpty"]
  | .getFn => printFnWithOpts rt "Get" [("TS(%s)", fn "TS")] [fn "Get"]
  | .keyFromSecretFn => printFn rt "KeyFromSecret" [fn "KeyFromSecret"]
  | .existsFn => printFnWithOpts rt "Exists" [("TS(%s)", fn "TS")] [fn "Exists"]
  | .paginateFn => printFnWithOpts rt "Paginate" [("After(%s)", fn "After"), ("Before(%s)", fn "Before"), ("Events(%s)", fn "Events"), ("Size(%s)", fn "Size"), ("Sources(%s)", fn "Sources"), ("TS(%s)", fn "TS")] [fn "Paginate"]
  | .createFn => printFn rt "Create" [fn "Create"]
  | .createClassFn => printFn rt "CreateClass" [fn "CreateClass"]
  | .createCollectionFn => printFn rt "CreateCollection" [fn "CreateCollection"]
  | .createDatabaseFn => printFn rt "CreateDatabase" [fn "CreateDatabase"]
  | .createIndexFn => printFn rt "CreateIndex" [fn "CreateIndex"]
  | .createKeyFn => printFn rt "CreateKey" [fn "CreateKey"]
  | .createFunctionFn => printFn rt "CreateFunction" [fn "CreateFunction"]
  | .createRoleFn => printFn rt "CreateRole" [fn "CreateRole"]
  | .moveDatabaseFn => printFn rt "MoveDatabase" [fn "MoveDatabase", fn "To"]
  | .updateFn => printFn rt "Update" [fn "Update"]
  | .replaceFn => printFn rt "Replace" [fn "Replace"]
  | .deleteFn => printFn rt "Delete" [fn "Delete"]
  | .insertFn => printFn rt "Insert" [fn "Insert", fn "Ts", fn "Action", fn "Params"]
  | .removeFn => printFn rt "Remove" [fn "Remove", fn "Ts", fn "Action"]
  | .formatFn => printFn rt "Format" [fn "Format", fn "Values"]
  | .concatFn => printFnWithOpts rt "Concat" [("Separator(%s)", fn "Separator")] [fn "Concat"]
  | .casefoldFn => printFnWithOpts rt "Casefold" [("%s", fn "Normalizer")] [fn "Casefold"]
  | .startsWithFn => printFn rt "StartsWith" [fn "StartsWith", fn "Search"]
  | .endsWithFn => printFn rt "EndsWith" [fn "EndsWith", fn "Search"]
  | .containsStrFn => printFn rt "ContainsStr" [fn "ContainsStr", fn "Search"]
  | .containsStrRegexFn => printFn rt "ContainsStrRegex" [fn "ContainsStrRegex", fn "Pattern"]
  | .regexEscapeFn => printFn rt "RegexEscape" [fn "RegexEscape"]
  | .findStrFn => printFnWithOpts rt "FindStr" [("Start", fn "Start")] [fn "FindStr", fn "Find"]
  | .findStrRegexFn => printFn rt "FindStrRegex" [fn "FindStrRegex", fn "Pattern"]
  | .lengthFn => printFn rt "Length" [fn "Length"]
  | .lowercaseFn => printFn rt "LowerCase" [fn "Lowercase"]
  | .lTrimFn => printFn rt "LTrim" [fn "LTrim"]
  | .repeatFn => printFn rt "Repeat" [fn "Repeat"]
  | .replaceStrFn => printFn rt "ReplaceStr" [fn "ReplaceStr", fn "Find", fn "Replace"]
  | .replaceStrRegexFn => printFnWithOpts rt "ReplaceStrRegex" [("OnlyFirst()", fn "First")] [fn "ReplaceStrRegex", fn "Pattern", fn "Replace"]
  | .rTrimFn => printFn rt "RTrim" [fn "RTrim"]
  | .spaceFn => printFn rt "Space" [fn "Space"]
  | .subStringFn => printFnWithOpts rt "SubString" [("Length(%s)", fn "Length")] [fn "SubString", fn "Start"]
  | .titleCaseFn => printFn rt "TitleCase" [fn "Titlecase"]
  | .trimFn => printFn rt "Trim" [fn "Trim"]
  | .upperCaseFn => printFn rt "UpperCase" [fn "UpperCase"]
  | .timeFn => printFn rt "Time" [fn "Time"]
  | .timeAddFn => printFn rt "TimeAdd" [fn "TimeAdd", fn "Offset", fn "Unit"]
  | .timeSubtractFn => printFn rt "TimeSubtract" [fn "TimeSubtract", fn "Offset", fn "Unit"]
  | .timeDiffFn => printFn rt "TimeDiff" [fn "TimeDiff", fn "Other", fn "Unit"]
  | .dateFn => printFn rt "Date" [fn "Date"]
  | .epochFn => printFn rt "Epoch" [fn "Epoch"]
  | .nowFn => printNoArgsFn rt "Now"
  | .singletonFn => printFn rt "Singleton" [fn "Singleton"]
  | .eventsFn => printFn rt "Events" [fn "Events"]
  | .unionFn => printFn rt "Union" [fn "Union"]
  | .mergeFn => printFnWithOpts rt "Merge" [("ConflictResolver(%s)", fn "Lambda")] [fn "Merge", fn "With"]
  | .reduceFn => printFn rt "Reduce" [fn "Reduce", fn "Initial", fn "Collection"]
  | .intersectionFn => printFn rt "Intersection" [fn "Intersection"]
  | .differenceFn => printFn rt "Difference" [fn "Difference"]
  | .distinctFn => printFn rt "Distinct" [fn "Distinct"]
  | .joinFn => printFn rt "Join" [fn "Join"]
  | .rangeFn => printFn rt "Range" [fn "Range", fn "From", fn "To"]
  | .loginFn => printFn rt "Login" [fn "Login", fn "Params"]
  | .logoutFn => printFn rt "Logout" [fn "Logout"]
  | .identifyFn => printFn rt "Identify" [fn "Identify", fn "Password"]
  | .identityFn => printNoArgsFn rt "Identity"
  | .hasIdentityFn => printNoArgsFn rt "HasIdentity"
  | .nextIdFn => printNoArgsFn rt "NextID"
  | .newIdFn => printNoArgsFn rt "NewId"
  | .databaseFn => printScopedFn rt "Database" (fn "Database") (fn "Scope")
  | .indexFn => printScopedFn rt "Index" (fn "Index") (fn "Scope")
  | .classFn => printScopedFn rt "Class" (fn "Class") (fn "Scope")
  | .collectionFn => printScopedFn rt "Collection" (fn "Collection") (fn "Scope")
  | .documentsFn => printFn rt "Documents" [fn "Documents"]
  | .functionFn => printScopedFn rt "Function" (fn "Function") (fn "Scope")
  | .roleFn => printScopedFn rt "Role" (fn "Role") (fn "Scope")
  | .classesFn => printKeyScopedFn rt "Classes" (fn "Classes")
  | .collectionsFn => printKeyScopedFn rt "Collections" (fn "Collections")
  | .indexesFn => printKeyScopedFn rt "Indexes" (fn "Indexes")
  | .databasesFn => printKeyScopedFn rt "Databases" (fn "Databases")
  | .functionsFn => printKeyScopedFn rt "Functions" (fn "Functions")
  | .rolesFn => printKeyScopedFn rt "Roles" (fn "Roles")
  | .keysFn => printKeyScopedFn rt "Keys" (fn "Keys")
  | .tokensFn => printKeyScopedFn rt "Tokens" (fn "Tokens")
  | .credentialsFn => printKeyScopedFn rt "Credentials" (fn "Credentials")
  | .equalsFn => printFn rt "Equals" [fn "Equals"]
  | .containsFn => printFn rt "Contains" [fn "Contains", fn "Value"]
  | .absFn => printFn rt "Abs" [fn "Abs"]
  | .acosFn => printFn rt "Acos" [fn "Acos"]
  | .asinFn => printFn rt "Asin" [fn "Asin"]
  | .atanFn => printFn rt "Atan" [fn "Atan"]
  | .addFn => printFn rt "Add" [fn "Add"]
  | .bitAndFn => printFn rt "BitAnd" [fn "BitAnd"]
  | .bitNotFn => printFn rt "BitNot" [fn "BitNot"]
  | .bitOrFn => printFn rt "BitOr" [fn "BitOr"]
  | .bitXorFn => printFn rt "BitXor" [fn "BitXor"]
  | .ceilFn => printFn rt "Ceil" [fn "Ceil"]
  | .cosFn => printFn rt "Cos" [fn "Cos"]
  | .coshFn => printFn rt "Cosh" [fn "Cosh"]
  | .degreesFn => printFn rt "Degrees" [fn "Degrees"]
  | .divideFn => printFn rt "Divide" [fn "Divide"]
  | .expFn => printFn rt "Exp" [fn "Exp"]
  | .floorFn => printFn rt "Floor" [fn "Floor"]
  | .hypotFn => printFn rt "Hypot" [fn "Hypot"]
  | .lnFn => printFn rt "Ln" [fn "Ln"]
  | .logFn => printFn rt "Log" [fn "Log"]
  | .maxFn => printFn rt "Max" [fn "Max"]
  | .minFn => printFn rt "Min" [fn "Min"]
  | .moduloFn => printFn rt "Modulo" [fn "Modulo"]
  | .multiplyFn => printFn rt "Multiply" [fn "Multiply"]
  | .powFn => printFn rt "Pow" [fn "Pow"]
  | .radiansFn => printFn rt "Radians" [fn "Radians"]
  | .roundFn => printFnWithOpts rt "Round" [("Precision(%s)", fn "Precision")] [fn "Round"]
  | .signFn => printFn rt "Sign" [fn "Sign"]
  | .sinFn => printFn rt "Sin" [fn "Sin"]
  | .sinhFn => printFn rt "Sinh" [fn "Sinh"]
  | .sqrtFn => printFn rt "Sqrt" [fn "Sqrt"]
  | .subtractFn => printFn rt "Subtract" [fn "Subtract"]
  | .tanFn => printFn rt "Tan" [fn "Tan"]
  | .tanhFn => printFn rt "Tanh" [fn "Tanh"]
  | .truncFn => printFnWithOpts rt "Trunc" [("Precision(%s)", fn "Precision")] [fn "Trunc"]
  | .anyFn => printFn rt "Any" [fn "Any"]
  | .allFn => printFn rt "All" [fn "All"]
  | .countFn => printFn rt "Count" [fn "Count"]
  | .sumFn => printFn rt "Sum" [fn "Sum"]
  | .meanFn => printFn rt "Mean" [fn "Mean"]
  | .ltFn => printFn rt "LT" [fn "LT"]
  | .lteFn => printFn rt "LTE" [fn "LTE"]
  | .gtFn => printFn rt "GT" [fn "GT"]
  | .gteFn => printFn rt "GTE" [fn "GTE"]
  | .andFn => printFn rt "And" [fn "And"]
  | .orFn => printFn rt "Or" [fn "Or"]
  | .notFn => printFn rt "Not" [fn "Not"]
  | .selectFn => printFnWithOpts rt "Select" [("Default(%s)", fn "Default")] [fn "Select", fn "From"]
  | .selectAllFn => printFnWithOpts rt "SelectAll" [("SelectAll(%s)", fn "Default")] [fn "SelectAll", fn "From"]
  | .toStringFn => printFn rt "ToString" [fn "ToString"]
  | .toNumberFn => printFn rt "ToNumber" [fn "ToNumber"]
  | .toTimeFn => printFn rt "ToTime" [fn "ToTime"]
  | .toSecondsFn => printFn rt "ToSeconds" [fn "ToSeconds"]
  | .toMillisFn => printFn rt "ToMillis" [fn "ToMillis"]
  | .toMicrosFn => printFn rt "ToMicros" [fn "ToMicros"]
  | .yearFn => printFn rt "Year" [fn "Year"]
  | .monthFn => printFn rt "Month" [fn "Month"]
  | .hourFn => printFn rt "Hour" [fn "Hour"]
  | .minuteFn => printFn rt "Minute" [fn "Minute"]
  | .secondFn => printFn rt "Second" [fn "Second"]
  | .dayOfMonthFn => printFn rt "DayOfMonth" [fn "DayOfMonth"]
  | .dayOfWeekFn => printFn rt "DayOfWeek" [fn "DayOfWeek"]
  | .dayOfYearFn => printFn rt "DayOfYear" [fn "DayOfYear"]
  | .toDateFn => printFn rt "ToDate" [fn "ToDate"]
  | .isNumberFn => printFn rt "IsNumber" [fn "IsNumber"]
  | .isDoubleFn => printFn rt "IsDouble" [fn "IsDouble"]
  | .isIntegerFn => printFn rt "IsInteger" [fn "IsInteger"]
  | .isBooleanFn => printFn rt "IsBoolean" [fn "IsBoolean"]
  | .isNullFn => printFn rt "IsNull" [fn "IsNull"]
  | .isBytesFn => printFn rt "IsBytes" [fn "IsBytes"]
  | .isTimestampFn => printFn rt "IsTimestamp" [fn "IsTimestamp"]
  | .isDateFn => printFn rt "IsDate" [fn "IsDate"]
  | .isStringFn => printFn rt "IsString" [fn "IsString"]
  | .isArrayFn => printFn rt "IsArray" [fn "IsArray"]
  | .isObjectFn => printFn rt "IsObject" [fn "IsObject"]
  | .isRefFn => printFn rt "IsRef" [fn "IsRef"]
  | .isSetFn => printFn rt "IsSet" [fn "IsSet"]
  | .isDocFn => printFn rt "IsDoc" [fn "IsDoc"]
  | .isLambdaFn => printFn rt "IsLambda" [fn "IsLambda"]
  | .isCollectionFn => printFn rt "IsCollection" [fn "IsCollection"]
  | .isDatabaseFn => printFn rt "IsDatabase" [fn "IsDatabase"]
  | .isIndexFn => printFn rt "IsIndex" [fn "IsIndex"]
  | .isFunctionFn => printFn rt "IsFunction" [fn "IsFunction"]
  | .isKeyFn => printFn rt "IsKey" [fn "IsKey"]
  | .isTokenFn => printFn rt "IsToken" [fn "IsToken"]
  | .isCredentialsFn => printFn rt "IsCredentials" [fn "IsCredentials"]
  | .isRoleFn => printFn rt "IsRole" [fn "IsRole"]

/-- The field names of a struct paired with the operands for its field values. -/
def fieldArgs : List Field → List Arg → List (String × Arg)
  | f :: decl, a :: args => (f.name, a) :: fieldArgs decl args
  | _, _ => []

mutual
/-- An `Expr` as an operand: its `String` method applied, and its parts as operands. -/
def Expr.arg (rt : Runtime) : Expr → Arg
  | .nil => Arg.nil
  | .value v => .mk (.value v) (.ok (rt.valueString v)) []
  | .invalidExpr err => .mk (.invalidExpr err) (.ok invalidExpr.String) []
  | .unescapedArr arr =>
      .mk (.unescapedArr arr) (.ok (unescapedArr.String (Expr.args rt arr)))
        ((Expr.args rt arr).map fun a => ("", a))
  | .unescapedObj obj =>
      .mk (.unescapedObj obj) (.ok (unescapedObj.String rt (Expr.entryArgs rt obj)))
        (Expr.entryArgs rt obj)
  | .fn k vals =>
      .mk (.fn k vals) (k.String rt (Arg.index (fieldArgs k.fields (Expr.args rt vals))))
        (fieldArgs k.fields (Expr.args rt vals))
/-- The elements of a slice as operands. -/
def Expr.args (rt : Runtime) : List Expr → List Arg
  | [] => []
  | e :: es => Expr.arg rt e :: Expr.args rt es
/-- The entries of a map as operands. -/
def Expr.entryArgs (rt : Runtime) : List (String × Expr) → List (String × Arg)
  | [] => []
  | (k, e) :: es => (k, Expr.arg rt e) :: Expr.entryArgs rt es
end

/-- The method `String()` of an `Expr`. -/
def Expr.String (rt : Runtime) (e : Expr) : Except Panic String :=
  (e.arg rt).str


/-! ## Optional parameters (expr.go, query.go) -/

/-- The function `varargs` (query.go, line 41). -/
def varargs (expr : List Host) : Host :=
  if expr.length = 1 then
    match expr with
    | x :: _ => x
    | [] => .slice expr
  else .slice expr

/-- A pointer `*Expr` held by an `optionalKeysMapping`: the address `&(fn.F)` of a field of the
struct under construction, given by the Go name `F` of the field. -/
abbrev FieldPtr := String

/-- The type `optionalKeysMapping` (expr.go): a map from option names to pointers.  Looking up a
name that is absent gives the nil pointer (`none`). -/
abbrev optionalKeysMapping := List (String × FieldPtr)

/-- The type `OptionalParameter` (expr.go), `func(optionalKeysMapping)`.  Such a function writes
through the pointers of the mapping; here it takes the struct `fn` that the pointers address and
returns it after the writes, or panics.  The type `optionalKeysMapping` is not exported, so the
values of this type are those that the functions of query.go return (`Modifier`). -/
abbrev OptionalParameter := optionalKeysMapping → Expr → Except Panic Expr

/-- The function `updateField` (query.go, line 121): `*(m[field]) = nv`.  For a name that the
mapping lacks, `m[field]` is the nil pointer and the assignment through it panics. -/
def updateField (m : optionalKeysMapping) (field : String) (nv : Expr) (fn : Expr) :
    Except Panic Expr :=
  match m.lookup field with
  | none => .error .nilDereference
  | some p => .ok (fn.set p nv)

/-- The function `applyOptionals` (expr.go): the options are called in order on the mapping. -/
def applyOptionals (mappings : optionalKeysMapping) :
    List OptionalParameter → Expr → Except Panic Expr
  | [], fn => .ok fn
  | option :: options, fn =>
      match option mappings fn with
      | .error p => .error p
      | .ok fn => applyOptionals mappings options fn

/-- The optional parameter `EventsOpt` (query.go, line 59). -/
def EventsOpt (events : Host) : OptionalParameter :=
  fun m => updateField m "events" (wrap events)

/-- The optional parameter `TS` (query.go, line 68). -/
def TS (timestamp : Host) : OptionalParameter :=
  fun m => updateField m "ts" (wrap timestamp)

/-- The optional parameter `After` (query.go, line 78). -/
def After (ref : Host) : OptionalParameter :=
  fun m => updateField m "after" (wrap ref)

/-- The optional parameter `Before` (query.go, line 88). -/
def Before (ref : Host) : OptionalParameter :=
  fun m => updateField m "before" (wrap ref)

/-- The optional parameter `Size` (query.go, line 97). -/
def Size (size : Host) : OptionalParameter :=
  fun m => updateField m "size" (wrap size)

/-- The optional parameter `Start` (query.go, line 106). -/
def Start (start : Host) : OptionalParameter :=
  fun m => updateField m "start" (wrap start)

/-- The optional parameter `StrLength` (query.go, line 115). -/
def StrLength (length : Host) : OptionalParameter :=
  fun m => updateField m "length" (wrap length)

/-- The optional parameter `OnlyFirst` (query.go, line 128). -/
def OnlyFirst : OptionalParameter :=
  fun m => updateField m "first" (.value (.BooleanV true))

/-- The optional parameter `Sources` (query.go, line 138). -/
def Sources (sources : Host) : OptionalParameter :=
  fun m => updateField m "sources" (wrap sources)

/-- The optional parameter `Default` (query.go, line 148). -/
def Default (value : Host) : OptionalParameter :=
  fun m => updateField m "default" (wrap value)

/-- The optional parameter `Separator` (query.go, line 157). -/
def Separator (sep : Host) : OptionalParameter :=
  fun m => updateField m "separator" (wrap sep)

/-- The optional parameter `Precision` (query.go, line 166). -/
def Precision (precision : Host) : OptionalParameter :=
  fun m => updateField m "precision" (wrap precision)

/-- The optional parameter `ConflictResolver` (query.go, line 175). -/
def ConflictResolver (lambda : Host) : OptionalParameter :=
  fun m => updateField m "lambda" (wrap lambda)

/-- The optional parameter `Normalizer` (query.go, line 184). -/
def Normalizer (norm : Host) : OptionalParameter :=
  fun m => updateField m "normalizer" (wrap norm)

/-! ## The query functions (query.go) -/

/-- The type `LetBuilder` (query.go): the bindings collected so far, an `unescapedArr`. -/
structure LetBuilder where
  bindings : List Expr
  deriving Repr

/-- The method `LetBuilder.Bind` (query.go, line 196): appends the one-entry object
`{key: wrap(in)}`. -/
def LetBuilder.Bind (lb : LetBuilder) (key : String) (in_ : Host) : LetBuilder :=
  let binding := Expr.unescapedObj [(key, wrap in_)]
  { bindings := lb.bindings ++ [binding] }

/-- The method `LetBuilder.In` (query.go, line 204). -/
def LetBuilder.In (lb : LetBuilder) (in_ : Expr) : Expr :=
  structLit .letFn [("Let", wrap (.expr (.unescapedArr lb.bindings))), ("In", in_)]

/-- The function `Let` (query.go, line 345). -/
def Let : LetBuilder :=
  { bindings := [] }

/-- The function `Null` (query.go, line 258). -/
def Null : Expr :=
  .value .NullV

/-- The function `Do` (query.go, line 283).  It calls `varargs(exprs)` without spreading the
slice, so `varargs` receives the slice as its single argument. -/
def Do (exprs : List Host) : Expr :=
  structLit .doFn [("Do", wrap (varargs [.slice exprs]))]

/-- The function `Match` (query.go, line 1233). -/
def Match (ref : Host) : Expr :=
  structLit .matchFn [("Match", wrap ref), ("Terms", .nil)]

/-- The function `Database` (query.go, line 1449). -/
def Database (name : Host) : Expr :=
  structLit .databaseFn [("Database", wrap name), ("Scope", .nil)]

/-- The function `Ref` (query.go, line 222). -/
def Ref (id : String) : Expr :=
  structLit .legacyRefFn [("Ref", wrap (.str id))]

/-- The function `RefClass` (query.go, line 236). -/
def RefClass (classRef id : Host) : Expr :=
  structLit .refFn [("Ref", wrap classRef), ("ID", wrap id)]

/-- The function `RefCollection` (query.go, line 248). -/
def RefCollection (collectionRef id : Host) : Expr :=
  structLit .refFn [("Ref", wrap collectionRef), ("ID", wrap id)]

/-- The function `Abort` (query.go, line 271). -/
def Abort (msg : Host) : Expr :=
  structLit .abortFn [("Abort", wrap msg)]

/-- The function `If` (query.go, line 297). -/
def If (cond then_ elze : Host) : Expr :=
  structLit .ifFn [("If", wrap cond), ("Then", wrap then_), ("Else", wrap elze)]

/-- The function `Lambda` (query.go, line 315). -/
def Lambda (varName expr : Host) : Expr :=
  structLit .lambdaFn [("Lambda", wrap varName), ("Expression", wrap expr)]

/-- The function `At` (query.go, line 332). -/
def At (timestamp expr : Host) : Expr :=
  structLit .atFn [("At", wrap timestamp), ("Expression", wrap expr)]

/-- The function `Var` (query.go, line 356). -/
def Var (name : String) : Expr :=
  structLit .varFn [("Var", wrap (.str name))]

/-- The function `Call` (query.go, line 368). -/
def Call (ref : Host) (args : List Host) : Expr :=
  structLit .callFn [("Call", wrap ref), ("Params", wrap (varargs args))]

/-- The function `Query` (query.go, line 381). -/
def Query (lambda : Host) : Expr :=
  structLit .queryFn [("Query", wrap lambda)]

/-- The function `Map` (query.go, line 396). -/
def Map (coll lambda : Host) : Expr :=
  structLit .mapFn [("Map", wrap lambda), ("Collection", wrap coll)]

/-- The function `Foreach` (query.go, line 409). -/
def Foreach (coll lambda : Host) : Expr :=
  structLit .foreachFn [("Foreach", wrap lambda), ("Collection", wrap coll)]

/-- The function `Filter` (query.go, line 425). -/
def Filter (coll lambda : Host) : Expr :=
  structLit .filterFn [("Filter", wrap lambda), ("Collection", wrap coll)]

/-- The function `Take` (query.go, line 439). -/
def Take (num coll : Host) : Expr :=
  structLit .takeFn [("Take", wrap num), ("Collection", wrap coll)]

/-- The function `Drop` (query.go, line 452). -/
def Drop (num coll : Host) : Expr :=
  structLit .dropFn [("Drop", wrap num), ("Collection", wrap coll)]

/-- The function `Prepend` (query.go, line 464). -/
def Prepend (elems coll : Host) : Expr :=
  structLit .prependFn [("Prepend", wrap elems), ("Collection", wrap coll)]

/-- The function `Append` (query.go, line 478). -/
def Append (elems coll : Host) : Expr :=
  structLit .appendFn [("Append", wrap elems), ("Collection", wrap coll)]

/-- The function `IsEmpty` (query.go, line 491). -/
def IsEmpty (coll : Host) : Expr :=
  structLit .isEmptyFn [("IsEmpty", wrap coll)]

/-- The function `IsNonEmpty` (query.go, line 502). -/
def IsNonEmpty (coll : Host) : Expr :=
  structLit .isNonEmptyFn [("IsNonEmpty", wrap coll)]

/-- The function `Get` (query.go, line 518): the struct with its required fields, the
mapping from option names to the addresses of its optional fields, then the options. -/
def Get (ref : Host) (options : List OptionalParameter) : Except Panic Expr :=
  let fn := structLit .getFn [("Get", wrap ref)]
  let mappings : optionalKeysMapping := [("ts", "TS")]
  applyOptionals mappings options fn

/-- The function `KeyFromSecret` (query.go, line 536). -/
def KeyFromSecret (secret : Host) : Expr :=
  structLit .keyFromSecretFn [("KeyFromSecret", wrap secret)]

/-- The function `Exists` (query.go, line 551): the struct with its required fields, the
mapping from option names to the addresses of its optional fields, then the options. -/
def Exists (ref : Host) (options : List OptionalParameter) : Except Panic Expr :=
  let fn := structLit .existsFn [("Exists", wrap ref)]
  let mappings : optionalKeysMapping := [("ts", "TS")]
  applyOptionals mappings options fn

/-- The function `Paginate` (query.go, line 576): the struct with its required fields, the
mapping from option names to the addresses of its optional fields, then the options. -/
def Paginate (set : Host) (options : List OptionalParameter) : Except Panic Expr :=
  let fn := structLit .paginateFn [("Paginate", wrap set)]
  let mappings : optionalKeysMapping := [("after", "After"), ("before", "Before"), ("events", "Events"), ("size", "Size"), ("sources", "Sources"), ("ts", "TS")]
  applyOptionals mappings options fn

/-- The function `Create` (query.go, line 602). -/
def Create (ref params : Host) : Expr :=
  structLit .createFn [("Create", wrap ref), ("Params", wrap params)]

/-- The function `CreateClass` (query.go, line 615). -/
def CreateClass (params : Host) : Expr :=
  structLit .createClassFn [("CreateClass", wrap params)]

/-- The function `CreateCollection` (query.go, line 626). -/
def CreateCollection (params : Host) : Expr :=
  structLit .createCollectionFn [("CreateCollection", wrap params)]

/-- The function `CreateDatabase` (query.go, line 639). -/
def CreateDatabase (params : Host) : Expr :=
  structLit .createDatabaseFn [("CreateDatabase", wrap params)]

/-- The function `CreateIndex` (query.go, line 650). -/
def CreateIndex (params : Host) : Expr :=
  structLit .createIndexFn [("CreateIndex", wrap params)]

/-- The function `CreateKey` (query.go, line 661). -/
def CreateKey (params : Host) : Expr :=
  structLit .createKeyFn [("CreateKey", wrap params)]

/-- The function `CreateFunction` (query.go, line 672). -/
def CreateFunction (params : Host) : Expr :=
  structLit .createFunctionFn [("CreateFunction", wrap params)]

/-- The function `CreateRole` (query.go, line 683). -/
def CreateRole (params : Host) : Expr :=
  structLit .createRoleFn [("CreateRole", wrap params)]

/-- The function `MoveDatabase` (query.go, line 695). -/
def MoveDatabase (from_ to_ : Host) : Expr :=
  structLit .moveDatabaseFn [("MoveDatabase", wrap from_), ("To", wrap to_)]

/-- The function `Update` (query.go, line 709). -/
def Update (ref params : Host) : Expr :=
  structLit .updateFn [("Update", wrap ref), ("Params", wrap params)]

/-- The function `Replace` (query.go, line 721). -/
def Replace (ref params : Host) : Expr :=
  structLit .replaceFn [("Replace", wrap ref), ("Params", wrap params)]

/-- The function `Delete` (query.go, line 732). -/
def Delete (ref : Host) : Expr :=
  structLit .deleteFn [("Delete", wrap ref)]

/-- The function `Insert` (query.go, line 745). -/
def Insert (ref ts action params : Host) : Expr :=
  structLit .insertFn [("Insert", wrap ref), ("Ts", wrap ts), ("Action", wrap action), ("Params", wrap params)]

/-- The function `Remove` (query.go, line 760). -/
def Remove (ref ts action : Host) : Expr :=
  structLit .removeFn [("Remove", wrap ref), ("Ts", wrap ts), ("Action", wrap action)]

/-- The function `Format` (query.go, line 778). -/
def Format (format : Host) (values : List Host) : Expr :=
  structLit .formatFn [("Format", wrap format), ("Values", wrap (varargs values))]

/-- The function `Concat` (query.go, line 794): the struct with its required fields, the
mapping from option names to the addresses of its optional fields, then the options. -/
def Concat (terms : Host) (options : List OptionalParameter) : Except Panic Expr :=
  let fn := structLit .concatFn [("Concat", wrap terms)]
  let mappings : optionalKeysMapping := [("separator", "Separator")]
  applyOptionals mappings options fn

/-- The function `Casefold` (query.go, line 815): the struct with its required fields, the
mapping from option names to the addresses of its optional fields, then the options. -/
def Casefold (str : Host) (options : List OptionalParameter) : Except Panic Expr :=
  let fn := structLit .casefoldFn [("Casefold", wrap str)]
  let mappings : optionalKeysMapping := [("normalizer", "Normalizer")]
  applyOptionals mappings options fn

/-- The function `StartsWith` (query.go, line 835). -/
def StartsWith (value search : Host) : Expr :=
  structLit .startsWithFn [("StartsWith", wrap value), ("Search", wrap search)]

/-- The function `EndsWith` (query.go, line 850). -/
def EndsWith (value search : Host) : Expr :=
  structLit .endsWithFn [("EndsWith", wrap value), ("Search", wrap search)]

/-- The function `ContainsStr` (query.go, line 865). -/
def ContainsStr (value search : Host) : Expr :=
  structLit .containsStrFn [("ContainsStr", wrap value), ("Search", wrap search)]

/-- The function `ContainsStrRegex` (query.go, line 880). -/
def ContainsStrRegex (value pattern : Host) : Expr :=
  structLit .containsStrRegexFn [("ContainsStrRegex", wrap value), ("Pattern", wrap pattern)]

/-- The function `RegexEscape` (query.go, line 895). -/
def RegexEscape (value : Host) : Expr :=
  structLit .regexEscapeFn [("RegexEscape", wrap value)]

/-- The function `FindStr` (query.go, line 912): the struct with its required fields, the
mapping from option names to the addresses of its optional fields, then the options. -/
def FindStr (str find : Host) (options : List OptionalParameter) : Except Panic Expr :=
  let fn := structLit .findStrFn [("FindStr", wrap str), ("Find", wrap find)]
  let mappings : optionalKeysMapping := [("start", "Start")]
  applyOptionals mappings options fn

/-- The function `FindStrRegex` (query.go, line 934). -/
def FindStrRegex (str pattern : Host) (_options : List OptionalParameter) : Expr :=
  structLit .findStrRegexFn [("FindStrRegex", wrap str), ("Pattern", wrap pattern)]

/-- The function `Length` (query.go, line 947). -/
def Length (str : Host) : Expr :=
  structLit .lengthFn [("Length", wrap str)]

/-- The function `LowerCase` (query.go, line 958). -/
def LowerCase (str : Host) : Expr :=
  structLit .lowercaseFn [("Lowercase", wrap str)]

/-- The function `LTrim` (query.go, line 969). -/
def LTrim (str : Host) : Expr :=
  structLit .lTrimFn [("LTrim", wrap str)]

/-- The function `Repeat` (query.go, line 981). -/
def Repeat (str number : Host) : Expr :=
  structLit .repeatFn [("Repeat", wrap str), ("Number", wrap number)]

/-- The function `ReplaceStr` (query.go, line 994). -/
def ReplaceStr (str find replace : Host) : Expr :=
  structLit .replaceStrFn [("ReplaceStr", wrap str), ("Find", wrap find), ("Replace", wrap replace)]

/-- The function `ReplaceStrRegex` (query.go, line 1016): the struct with its required fields, the
mapping from option names to the addresses of its optional fields, then the options. -/
def ReplaceStrRegex (value pattern replace : Host) (options : List OptionalParameter) : Except Panic Expr :=
  let fn := structLit .replaceStrRegexFn [("ReplaceStrRegex", wrap value), ("Pattern", wrap pattern), ("Replace", wrap replace)]
  let mappings : optionalKeysMapping := [("first", "First")]
  applyOptionals mappings options fn

/-- The function `RTrim` (query.go, line 1038). -/
def RTrim (str : Host) : Expr :=
  structLit .rTrimFn [("RTrim", wrap str)]

/-- The function `Space` (query.go, line 1049). -/
def Space (value : Host) : Expr :=
  structLit .spaceFn [("Space", wrap value)]

/-- The function `SubString` (query.go, line 1064): the struct with its required fields, the
mapping from option names to the addresses of its optional fields, then the options. -/
def SubString (str start : Host) (options : List OptionalParameter) : Except Panic Expr :=
  let fn := structLit .subStringFn [("SubString", wrap str), ("Start", wrap start)]
  let mappings : optionalKeysMapping := [("length", "Length")]
  applyOptionals mappings options fn

/-- The function `TitleCase` (query.go, line 1082). -/
def TitleCase (str : Host) : Expr :=
  structLit .titleCaseFn [("Titlecase", wrap str)]

/-- The function `Trim` (query.go, line 1093). -/
def Trim (str : Host) : Expr :=
  structLit .trimFn [("Trim", wrap str)]

/-- The function `UpperCase` (query.go, line 1104). -/
def UpperCase (str : Host) : Expr :=
  structLit .upperCaseFn [("UpperCase", wrap str)]

/-- The function `Time` (query.go, line 1117). -/
def Time (str : Host) : Expr :=
  structLit .timeFn [("Time", wrap str)]

/-- The function `TimeAdd` (query.go, line 1131). -/
def TimeAdd (base offset unit : Host) : Expr :=
  structLit .timeAddFn [("TimeAdd", wrap base), ("Offset", wrap offset), ("Unit", wrap unit)]

/-- The function `TimeSubtract` (query.go, line 1147). -/
def TimeSubtract (base offset unit : Host) : Expr :=
  structLit .timeSubtractFn [("TimeSubtract", wrap base), ("Offset", wrap offset), ("Unit", wrap unit)]

/-- The function `TimeDiff` (query.go, line 1163). -/
def TimeDiff (start finish unit : Host) : Expr :=
  structLit .timeDiffFn [("TimeDiff", wrap start), ("Other", wrap finish), ("Unit", wrap unit)]

/-- The function `Date` (query.go, line 1176). -/
def Date (str : Host) : Expr :=
  structLit .dateFn [("Date", wrap str)]

/-- The function `Epoch` (query.go, line 1188). -/
def Epoch (num unit : Host) : Expr :=
  structLit .epochFn [("Epoch", wrap num), ("Unit", wrap unit)]

/-- The function `Now` (query.go, line 1196). -/
def Now : Expr :=
  structLit .nowFn [("Now", .value .NullV)]

/-- The function `Singleton` (query.go, line 1211). -/
def Singleton (ref : Host) : Expr :=
  structLit .singletonFn [("Singleton", wrap ref)]

/-- The function `Events` (query.go, line 1222). -/
def Events (refSet : Host) : Expr :=
  structLit .eventsFn [("Events", wrap refSet)]

/-- The function `MatchTerm` (query.go, line 1245). -/
def MatchTerm (ref terms : Host) : Expr :=
  structLit .matchFn [("Match", wrap ref), ("Terms", wrap terms)]

/-- The function `Union` (query.go, line 1256). -/
def Union (sets : List Host) : Expr :=
  structLit .unionFn [("Union", wrap (varargs sets))]

/-- The function `Merge` (query.go, line 1268): the struct with its required fields, the
mapping from option names to the addresses of its optional fields, then the options. -/
def Merge (merge with_ : Host) (lambda : List OptionalParameter) : Except Panic Expr :=
  let fn := structLit .mergeFn [("Merge", wrap merge), ("With", wrap with_)]
  let mappings : optionalKeysMapping := [("lambda", "Lambda")]
  applyOptionals mappings lambda fn

/-- The function `Reduce` (query.go, line 1288). -/
def Reduce (lambda initial collection : Host) : Expr :=
  structLit .reduceFn [("Reduce", wrap lambda), ("Initial", wrap initial), ("Collection", wrap collection)]

/-- The function `Intersection` (query.go, line 1305). -/
def Intersection (sets : List Host) : Expr :=
  structLit .intersectionFn [("Intersection", wrap (varargs sets))]

/-- The function `Difference` (query.go, line 1319). -/
def Difference (sets : List Host) : Expr :=
  structLit .differenceFn [("Difference", wrap (varargs sets))]

/-- The function `Distinct` (query.go, line 1330). -/
def Distinct (set : Host) : Expr :=
  structLit .distinctFn [("Distinct", wrap set)]

/-- The function `Join` (query.go, line 1342). -/
def Join (source target : Host) : Expr :=
  structLit .joinFn [("Join", wrap source), ("With", wrap target)]

/-- The function `Range` (query.go, line 1355). -/
def Range (set from_ to_ : Host) : Expr :=
  structLit .rangeFn [("Range", wrap set), ("From", wrap from_), ("To", wrap to_)]

/-- The function `Login` (query.go, line 1372). -/
def Login (ref params : Host) : Expr :=
  structLit .loginFn [("Login", wrap ref), ("Params", wrap params)]

/-- The function `Logout` (query.go, line 1382). -/
def Logout (invalidateAll : Host) : Expr :=
  structLit .logoutFn [("Logout", wrap invalidateAll)]

/-- The function `Identify` (query.go, line 1394). -/
def Identify (ref password : Host) : Expr :=
  structLit .identifyFn [("Identify", wrap ref), ("Password", wrap password)]

/-- The function `Identity` (query.go, line 1410). -/
def Identity : Expr :=
  structLit .identityFn [("Identity", .value .NullV)]

/-- The function `HasIdentity` (query.go, line 1418). -/
def HasIdentity : Expr :=
  structLit .hasIdentityFn [("HasIdentity", .value .NullV)]

/-- The function `NextID` (query.go, line 1430). -/
def NextID : Expr :=
  structLit .nextIdFn [("NextID", .value .NullV)]

/-- The function `NewId` (query.go, line 1438). -/
def NewId : Expr :=
  structLit .newIdFn [("NewID", .value .NullV)]

/-- The function `ScopedDatabase` (query.go, line 1461). -/
def ScopedDatabase (name scope : Host) : Expr :=
  structLit .databaseFn [("Database", wrap name), ("Scope", wrap scope)]

/-- The function `Index` (query.go, line 1477). -/
def Index (name : Host) : Expr :=
  structLit .indexFn [("Index", wrap name)]

/-- The function `ScopedIndex` (query.go, line 1489). -/
def ScopedIndex (name scope : Host) : Expr :=
  structLit .indexFn [("Index", wrap name), ("Scope", wrap scope)]

/-- The function `Class` (query.go, line 1507). -/
def Class (name : Host) : Expr :=
  structLit .classFn [("Class", wrap name)]

/-- The function `Collection` (query.go, line 1518). -/
def Collection (name : Host) : Expr :=
  structLit .collectionFn [("Collection", wrap name)]

/-- The function `Documents` (query.go, line 1530). -/
def Documents (collection : Host) : Expr :=
  structLit .documentsFn [("Documents", wrap collection)]

/-- The function `ScopedClass` (query.go, line 1546). -/
def ScopedClass (name scope : Host) : Expr :=
  structLit .classFn [("Class", wrap name), ("Scope", wrap scope)]

/-- The function `ScopedCollection` (query.go, line 1560). -/
def ScopedCollection (name scope : Host) : Expr :=
  structLit .collectionFn [("Collection", wrap name), ("Scope", wrap scope)]

/-- The function `Function` (query.go, line 1573). -/
def Function (name : Host) : Expr :=
  structLit .functionFn [("Function", wrap name)]

/-- The function `ScopedFunction` (query.go, line 1585). -/
def ScopedFunction (name scope : Host) : Expr :=
  structLit .functionFn [("Function", wrap name), ("Scope", wrap scope)]

/-- The function `Role` (query.go, line 1598). -/
def Role (name : Host) : Expr :=
  structLit .roleFn [("Role", wrap name)]

/-- The function `ScopedRole` (query.go, line 1610). -/
def ScopedRole (name scope : Host) : Expr :=
  structLit .roleFn [("Role", wrap name), ("Scope", wrap scope)]

/-- The function `Classes` (query.go, line 1620). -/
def Classes : Expr :=
  structLit .classesFn [("Classes", .value .NullV)]

/-- The function `Collections` (query.go, line 1628). -/
def Collections : Expr :=
  structLit .collectionsFn [("Collections", .value .NullV)]

/-- The function `ScopedClasses` (query.go, line 1641). -/
def ScopedClasses (scope : Host) : Expr :=
  structLit .classesFn [("Classes", wrap scope)]

/-- The function `ScopedCollections` (query.go, line 1652). -/
def ScopedCollections (scope : Host) : Expr :=
  structLit .collectionsFn [("Collections", wrap scope)]

/-- The function `Indexes` (query.go, line 1662). -/
def Indexes : Expr :=
  structLit .indexesFn [("Indexes", .value .NullV)]

/-- The function `ScopedIndexes` (query.go, line 1673). -/
def ScopedIndexes (scope : Host) : Expr :=
  structLit .indexesFn [("Indexes", wrap scope)]

/-- The function `Databases` (query.go, line 1681). -/
def Databases : Expr :=
  structLit .databasesFn [("Databases", .value .NullV)]

/-- The function `ScopedDatabases` (query.go, line 1692). -/
def ScopedDatabases (scope : Host) : Expr :=
  structLit .databasesFn [("Databases", wrap scope)]

/-- The function `Functions` (query.go, line 1700). -/
def Functions : Expr :=
  structLit .functionsFn [("Functions", .value .NullV)]

/-- The function `ScopedFunctions` (query.go, line 1711). -/
def ScopedFunctions (scope : Host) : Expr :=
  structLit .functionsFn [("Functions", wrap scope)]

/-- The function `Roles` (query.go, line 1719). -/
def Roles : Expr :=
  structLit .rolesFn [("Roles", .value .NullV)]

/-- The function `ScopedRoles` (query.go, line 1730). -/
def ScopedRoles (scope : Host) : Expr :=
  structLit .rolesFn [("Roles", wrap scope)]

/-- The function `Keys` (query.go, line 1738). -/
def Keys : Expr :=
  structLit .keysFn [("Keys", .value .NullV)]

/-- The function `ScopedKeys` (query.go, line 1749). -/
def ScopedKeys (scope : Host) : Expr :=
  structLit .keysFn [("Keys", wrap scope)]

/-- The function `Tokens` (query.go, line 1757). -/
def Tokens : Expr :=
  structLit .tokensFn [("Tokens", .value .NullV)]

/-- The function `ScopedTokens` (query.go, line 1768). -/
def ScopedTokens (scope : Host) : Expr :=
  structLit .tokensFn [("Tokens", wrap scope)]

/-- The function `Credentials` (query.go, line 1776). -/
def Credentials : Expr :=
  structLit .credentialsFn [("Credentials", .value .NullV)]

/-- The function `ScopedCredentials` (query.go, line 1787). -/
def ScopedCredentials (scope : Host) : Expr :=
  structLit .credentialsFn [("Credentials", wrap scope)]

/-- The function `Equals` (query.go, line 1800). -/
def Equals (args : List Host) : Expr :=
  structLit .equalsFn [("Equals", wrap (varargs args))]

/-- The function `Contains` (query.go, line 1812). -/
def Contains (path value : Host) : Expr :=
  structLit .containsFn [("Contains", wrap path), ("Value", wrap value)]

/-- The function `Abs` (query.go, line 1825). -/
def Abs (value : Host) : Expr :=
  structLit .absFn [("Abs", wrap value)]

/-- The function `Acos` (query.go, line 1836). -/
def Acos (value : Host) : Expr :=
  structLit .acosFn [("Acos", wrap value)]

/-- The function `Asin` (query.go, line 1847). -/
def Asin (value : Host) : Expr :=
  structLit .asinFn [("Asin", wrap value)]

/-- The function `Atan` (query.go, line 1858). -/
def Atan (value : Host) : Expr :=
  structLit .atanFn [("Atan", wrap value)]

/-- The function `Add` (query.go, line 1869). -/
def Add (args : List Host) : Expr :=
  structLit .addFn [("Add", wrap (varargs args))]

/-- The function `BitAnd` (query.go, line 1880). -/
def BitAnd (args : List Host) : Expr :=
  structLit .bitAndFn [("BitAnd", wrap (varargs args))]

/-- The function `BitNot` (query.go, line 1891). -/
def BitNot (value : Host) : Expr :=
  structLit .bitNotFn [("BitNot", wrap value)]

/-- The function `BitOr` (query.go, line 1902). -/
def BitOr (args : List Host) : Expr :=
  structLit .bitOrFn [("BitOr", wrap (varargs args))]

/-- The function `BitXor` (query.go, line 1913). -/
def BitXor (args : List Host) : Expr :=
  structLit .bitXorFn [("BitXor", wrap (varargs args))]

/-- The function `Ceil` (query.go, line 1924). -/
def Ceil (value : Host) : Expr :=
  structLit .ceilFn [("Ceil", wrap value)]

/-- The function `Cos` (query.go, line 1935). -/
def Cos (value : Host) : Expr :=
  structLit .cosFn [("Cos", wrap value)]

/-- The function `Cosh` (query.go, line 1946). -/
def Cosh (value : Host) : Expr :=
  structLit .coshFn [("Cosh", wrap value)]

/-- The function `Degrees` (query.go, line 1957). -/
def Degrees (value : Host) : Expr :=
  structLit .degreesFn [("Degrees", wrap value)]

/-- The function `Divide` (query.go, line 1968). -/
def Divide (args : List Host) : Expr :=
  structLit .divideFn [("Divide", wrap (varargs args))]

/-- The function `Exp` (query.go, line 1979). -/
def Exp (value : Host) : Expr :=
  structLit .expFn [("Exp", wrap value)]

/-- The function `Floor` (query.go, line 1990). -/
def Floor (value : Host) : Expr :=
  structLit .floorFn [("Floor", wrap value)]

/-- The function `Hypot` (query.go, line 2002). -/
def Hypot (a b : Host) : Expr :=
  structLit .hypotFn [("Hypot", wrap a), ("B", wrap b)]

/-- The function `Ln` (query.go, line 2013). -/
def Ln (value : Host) : Expr :=
  structLit .lnFn [("Ln", wrap value)]

/-- The function `Log` (query.go, line 2024). -/
def Log (value : Host) : Expr :=
  structLit .logFn [("Log", wrap value)]

/-- The function `Max` (query.go, line 2035). -/
def Max (args : List Host) : Expr :=
  structLit .maxFn [("Max", wrap (varargs args))]

/-- The function `Min` (query.go, line 2046). -/
def Min (args : List Host) : Expr :=
  structLit .minFn [("Min", wrap (varargs args))]

/-- The function `Modulo` (query.go, line 2057). -/
def Modulo (args : List Host) : Expr :=
  structLit .moduloFn [("Modulo", wrap (varargs args))]

/-- The function `Multiply` (query.go, line 2068). -/
def Multiply (args : List Host) : Expr :=
  structLit .multiplyFn [("Multiply", wrap (varargs args))]

/-- The function `Pow` (query.go, line 2080). -/
def Pow (base exp : Host) : Expr :=
  structLit .powFn [("Pow", wrap base), ("Exp", wrap exp)]

/-- The function `Radians` (query.go, line 2091). -/
def Radians (value : Host) : Expr :=
  structLit .radiansFn [("Radians", wrap value)]

/-- The function `Round` (query.go, line 2103): the struct with its required fields, the
mapping from option names to the addresses of its optional fields, then the options. -/
def Round (value : Host) (options : List OptionalParameter) : Except Panic Expr :=
  let fn := structLit .roundFn [("Round", wrap value)]
  let mappings : optionalKeysMapping := [("precision", "Precision")]
  applyOptionals mappings options fn

/-- The function `Sign` (query.go, line 2121). -/
def Sign (value : Host) : Expr :=
  structLit .signFn [("Sign", wrap value)]

/-- The function `Sin` (query.go, line 2132). -/
def Sin (value : Host) : Expr :=
  structLit .sinFn [("Sin", wrap value)]

/-- The function `Sinh` (query.go, line 2143). -/
def Sinh (value : Host) : Expr :=
  structLit .sinhFn [("Sinh", wrap value)]

/-- The function `Sqrt` (query.go, line 2154). -/
def Sqrt (value : Host) : Expr :=
  structLit .sqrtFn [("Sqrt", wrap value)]

/-- The function `Subtract` (query.go, line 2165). -/
def Subtract (args : List Host) : Expr :=
  structLit .subtractFn [("Subtract", wrap (varargs args))]

/-- The function `Tan` (query.go, line 2176). -/
def Tan (value : Host) : Expr :=
  structLit .tanFn [("Tan", wrap value)]

/-- The function `Tanh` (query.go, line 2187). -/
def Tanh (value : Host) : Expr :=
  structLit .tanhFn [("Tanh", wrap value)]

/-- The function `Trunc` (query.go, line 2199): the struct with its required fields, the
mapping from option names to the addresses of its optional fields, then the options. -/
def Trunc (value : Host) (options : List OptionalParameter) : Except Panic Expr :=
  let fn := structLit .truncFn [("Trunc", wrap value)]
  let mappings : optionalKeysMapping := [("precision", "Precision")]
  applyOptionals mappings options fn

/-- The function `Any` (query.go, line 2217). -/
def Any (collection : Host) : Expr :=
  structLit .anyFn [("Any", wrap collection)]

/-- The function `All` (query.go, line 2230). -/
def All (collection : Host) : Expr :=
  structLit .allFn [("All", wrap collection)]

/-- The function `Count` (query.go, line 2243). -/
def Count (collection : Host) : Expr :=
  structLit .countFn [("Count", wrap collection)]

/-- The function `Sum` (query.go, line 2256). -/
def Sum (collection : Host) : Expr :=
  structLit .sumFn [("Sum", wrap collection)]

/-- The function `Mean` (query.go, line 2270). -/
def Mean (collection : Host) : Expr :=
  structLit .meanFn [("Mean", wrap collection)]

/-- The function `LT` (query.go, line 2283). -/
def LT (args : List Host) : Expr :=
  structLit .ltFn [("LT", wrap (varargs args))]

/-- The function `LTE` (query.go, line 2294). -/
def LTE (args : List Host) : Expr :=
  structLit .lteFn [("LTE", wrap (varargs args))]

/-- The function `GT` (query.go, line 2306). -/
def GT (args : List Host) : Expr :=
  structLit .gtFn [("GT", wrap (varargs args))]

/-- The function `GTE` (query.go, line 2317). -/
def GTE (args : List Host) : Expr :=
  structLit .gteFn [("GTE", wrap (varargs args))]

/-- The function `And` (query.go, line 2328). -/
def And (args : List Host) : Expr :=
  structLit .andFn [("And", wrap (varargs args))]

/-- The function `Or` (query.go, line 2339). -/
def Or (args : List Host) : Expr :=
  structLit .orFn [("Or", wrap (varargs args))]

/-- The function `Not` (query.go, line 2350). -/
def Not (boolean : Host) : Expr :=
  structLit .notFn [("Not", wrap boolean)]

/-- The function `Select` (query.go, line 2365): the struct with its required fields, the
mapping from option names to the addresses of its optional fields, then the options. -/
def Select (path value : Host) (options : List OptionalParameter) : Except Panic Expr :=
  let fn := structLit .selectFn [("Select", wrap path), ("From", wrap value)]
  let mappings : optionalKeysMapping := [("default", "Default")]
  applyOptionals mappings options fn

/-- The function `SelectAll` (query.go, line 2384). -/
def SelectAll (path value : Host) : Expr :=
  structLit .selectAllFn [("SelectAll", wrap path), ("From", wrap value)]

/-- The function `ToString` (query.go, line 2395). -/
def ToString (value : Host) : Expr :=
  structLit .toStringFn [("ToString", wrap value)]

/-- The function `ToNumber` (query.go, line 2407). -/
def ToNumber (value : Host) : Expr :=
  structLit .toNumberFn [("ToNumber", wrap value)]

/-- The function `ToTime` (query.go, line 2418). -/
def ToTime (value : Host) : Expr :=
  structLit .toTimeFn [("ToTime", wrap value)]

/-- The function `ToSeconds` (query.go, line 2429). -/
def ToSeconds (value : Host) : Expr :=
  structLit .toSecondsFn [("ToSeconds", wrap value)]

/-- The function `ToMillis` (query.go, line 2440). -/
def ToMillis (value : Host) : Expr :=
  structLit .toMillisFn [("ToMillis", wrap value)]

/-- The function `ToMicros` (query.go, line 2451). -/
def ToMicros (value : Host) : Expr :=
  structLit .toMicrosFn [("ToMicros", wrap value)]

/-- The function `Year` (query.go, line 2462). -/
def Year (value : Host) : Expr :=
  structLit .yearFn [("Year", wrap value)]

/-- The function `Month` (query.go, line 2473). -/
def Month (value : Host) : Expr :=
  structLit .monthFn [("Month", wrap value)]

/-- The function `Hour` (query.go, line 2484). -/
def Hour (value : Host) : Expr :=
  structLit .hourFn [("Hour", wrap value)]

/-- The function `Minute` (query.go, line 2495). -/
def Minute (value : Host) : Expr :=
  structLit .minuteFn [("Minute", wrap value)]

/-- The function `Second` (query.go, line 2506). -/
def Second (value : Host) : Expr :=
  structLit .secondFn [("Second", wrap value)]

/-- The function `DayOfMonth` (query.go, line 2517). -/
def DayOfMonth (value : Host) : Expr :=
  structLit .dayOfMonthFn [("DayOfMonth", wrap value)]

/-- The function `DayOfWeek` (query.go, line 2528). -/
def DayOfWeek (value : Host) : Expr :=
  structLit .dayOfWeekFn [("DayOfWeek", wrap value)]

/-- The function `DayOfYear` (query.go, line 2539). -/
def DayOfYear (value : Host) : Expr :=
  structLit .dayOfYearFn [("DayOfYear", wrap value)]

/-- The function `ToDate` (query.go, line 2550). -/
def ToDate (value : Host) : Expr :=
  structLit .toDateFn [("ToDate", wrap value)]

/-- The function `IsNumber` (query.go, line 2561). -/
def IsNumber (expr : Host) : Expr :=
  structLit .isNumberFn [("IsNumber", wrap expr)]

/-- The function `IsDouble` (query.go, line 2572). -/
def IsDouble (expr : Host) : Expr :=
  structLit .isDoubleFn [("IsDouble", wrap expr)]

/-- The function `IsInteger` (query.go, line 2583). -/
def IsInteger (expr : Host) : Expr :=
  structLit .isIntegerFn [("IsInteger", wrap expr)]

/-- The function `IsBoolean` (query.go, line 2594). -/
def IsBoolean (expr : Host) : Expr :=
  structLit .isBooleanFn [("IsBoolean", wrap expr)]

/-- The function `IsNull` (query.go, line 2605). -/
def IsNull (expr : Host) : Expr :=
  structLit .isNullFn [("IsNull", wrap expr)]

/-- The function `IsBytes` (query.go, line 2616). -/
def IsBytes (expr : Host) : Expr :=
  structLit .isBytesFn [("IsBytes", wrap expr)]

/-- The function `IsTimestamp` (query.go, line 2627). -/
def IsTimestamp (expr : Host) : Expr :=
  structLit .isTimestampFn [("IsTimestamp", wrap expr)]

/-- The function `IsDate` (query.go, line 2638). -/
def IsDate (expr : Host) : Expr :=
  structLit .isDateFn [("IsDate", wrap expr)]

/-- The function `IsString` (query.go, line 2649). -/
def IsString (expr : Host) : Expr :=
  structLit .isStringFn [("IsString", wrap expr)]

/-- The function `IsArray` (query.go, line 2660). -/
def IsArray (expr : Host) : Expr :=
  structLit .isArrayFn [("IsArray", wrap expr)]

/-- The function `IsObject` (query.go, line 2671). -/
def IsObject (expr : Host) : Expr :=
  structLit .isObjectFn [("IsObject", wrap expr)]

/-- The function `IsRef` (query.go, line 2682). -/
def IsRef (expr : Host) : Expr :=
  structLit .isRefFn [("IsRef", wrap expr)]

/-- The function `IsSet` (query.go, line 2693). -/
def IsSet (expr : Host) : Expr :=
  structLit .isSetFn [("IsSet", wrap expr)]

/-- The function `IsDoc` (query.go, line 2704). -/
def IsDoc (expr : Host) : Expr :=
  structLit .isDocFn [("IsDoc", wrap expr)]

/-- The function `IsLambda` (query.go, line 2715). -/
def IsLambda (expr : Host) : Expr :=
  structLit .isLambdaFn [("IsLambda", wrap expr)]

/-- The function `IsCollection` (query.go, line 2726). -/
def IsCollection (expr : Host) : Expr :=
  structLit .isCollectionFn [("IsCollection", wrap expr)]

/-- The function `IsDatabase` (query.go, line 2737). -/
def IsDatabase (expr : Host) : Expr :=
  structLit .isDatabaseFn [("IsDatabase", wrap expr)]

/-- The function `IsIndex` (query.go, line 2748). -/
def IsIndex (expr : Host) : Expr :=
  structLit .isIndexFn [("IsIndex", wrap expr)]

/-- The function `IsFunction` (query.go, line 2759). -/
def IsFunction (expr : Host) : Expr :=
  structLit .isFunctionFn [("IsFunction", wrap expr)]

/-- The function `IsKey` (query.go, line 2770). -/
def IsKey (expr : Host) : Expr :=
  structLit .isKeyFn [("IsKey", wrap expr)]

/-- The function `IsToken` (query.go, line 2781). -/
def IsToken (expr : Host) : Expr :=
  structLit .isTokenFn [("IsToken", wrap expr)]

/-- The function `IsCredentials` (query.go, line 2792). -/
def IsCredentials (expr : Host) : Expr :=
  structLit .isCredentialsFn [("IsCredentials", wrap expr)]

/-- The function `IsRole` (query.go, line 2803). -/
def IsRole (expr : Host) : Expr :=
  structLit .isRoleFn [("IsRole", wrap expr)]

/-! ## The optional-parameter functions and their callers, as data -/

/-- A call of one of the optional-parameter functions of query.go (lines 59 to 188). -/
inductive Modifier where
  | EventsOpt (events : Host)
  | TS (timestamp : Host)
  | After (ref : Host)
  | Before (ref : Host)
  | Size (size : Host)
  | Start (start : Host)
  | StrLength (length : Host)
  | OnlyFirst
  | Sources (sources : Host)
  | Default (value : Host)
  | Separator (sep : Host)
  | Precision (precision : Host)
  | ConflictResolver (lambda : Host)
  | Normalizer (norm : Host)

/-- The `OptionalParameter` that the call returns. -/
def Modifier.option : Modifier → OptionalParameter
  | .EventsOpt events => faunadb.EventsOpt events
  | .TS timestamp => faunadb.TS timestamp
  | .After ref => faunadb.After ref
  | .Before ref => faunadb.Before ref
  | .Size size => faunadb.Size size
  | .Start start => faunadb.Start start
  | .StrLength length => faunadb.StrLength length
  | .OnlyFirst => faunadb.OnlyFirst
  | .Sources sources => faunadb.Sources sources
  | .Default value => faunadb.Default value
  | .Separator sep => faunadb.Separator sep
  | .Precision precision => faunadb.Precision precision
  | .ConflictResolver lambda => faunadb.ConflictResolver lambda
  | .Normalizer norm => faunadb.Normalizer norm

/-- The option name that the modifier hands to `updateField`: its target. -/
def Modifier.target : Modifier → String
  | .EventsOpt _ => "events"
  | .TS _ => "ts"
  | .After _ => "after"
  | .Before _ => "before"
  | .Size _ => "size"
  | .Start _ => "start"
  | .StrLength _ => "length"
  | .OnlyFirst => "first"
  | .Sources _ => "sources"
  | .Default _ => "default"
  | .Separator _ => "separator"
  | .Precision _ => "precision"
  | .ConflictResolver _ => "lambda"
  | .Normalizer _ => "normalizer"

/-- The value that the modifier hands to `updateField`. -/
def Modifier.newValue : Modifier → Expr
  | .EventsOpt events => wrap events
  | .TS timestamp => wrap timestamp
  | .After ref => wrap ref
  | .Before ref => wrap ref
  | .Size size => wrap size
  | .Start start => wrap start
  | .StrLength length => wrap length
  | .OnlyFirst => .value (.BooleanV true)
  | .Sources sources => wrap sources
  | .Default value => wrap value
  | .Separator sep => wrap sep
  | .Precision precision => wrap precision
  | .ConflictResolver lambda => wrap lambda
  | .Normalizer norm => wrap norm

/-- A call, without its options, of one of the twelve functions of query.go that build an
`optionalKeysMapping` and apply their options. -/
inductive OptCall where
  | Get (ref : Host)
  | Exists (ref : Host)
  | Paginate (set : Host)
  | Concat (terms : Host)
  | Casefold (str : Host)
  | FindStr (str find : Host)
  | ReplaceStrRegex (value pattern replace : Host)
  | SubString (str start : Host)
  | Merge (merge with_ : Host)
  | Round (value : Host)
  | Trunc (value : Host)
  | Select (path value : Host)

/-- The call with its options. -/
def OptCall.build : OptCall → List OptionalParameter → Except Panic Expr
  | .Get ref, options => faunadb.Get ref options
  | .Exists ref, options => faunadb.Exists ref options
  | .Paginate set, options => faunadb.Paginate set options
  | .Concat terms, options => faunadb.Concat terms options
  | .Casefold str, options => faunadb.Casefold str options
  | .FindStr str find, options => faunadb.FindStr str find options
  | .ReplaceStrRegex value pattern replace, options =>
      faunadb.ReplaceStrRegex value pattern replace options
  | .SubString str start, options => faunadb.SubString str start options
  | .Merge merge with_, options => faunadb.Merge merge with_ options
  | .Round value, options => faunadb.Round value options
  | .Trunc value, options => faunadb.Trunc value options
  | .Select path value, options => faunadb.Select path value options

/-- The `optionalKeysMapping` that the function builds. -/
def OptCall.mappings : OptCall → optionalKeysMapping
  | .Get _ => [("ts", "TS")]
  | .Exists _ => [("ts", "TS")]
  | .Paginate _ => [("after", "After"), ("before", "Before"), ("events", "Events"),
      ("size", "Size"), ("sources", "Sources"), ("ts", "TS")]
  | .Concat _ => [("separator", "Separator")]
  | .Casefold _ => [("normalizer", "Normalizer")]
  | .FindStr _ _ => [("start", "Start")]
  | .ReplaceStrRegex _ _ _ => [("first", "First")]
  | .SubString _ _ => [("length", "Length")]
  | .Merge _ _ => [("lambda", "Lambda")]
  | .Round _ => [("precision", "Precision")]
  | .Trunc _ => [("precision", "Precision")]
  | .Select _ _ => [("default", "Default")]

/-- The struct that the function builds before it applies the options: the required fields
hold the wrapped arguments and the optional fields are nil. -/
def OptCall.init : OptCall → Expr
  | .Get ref => structLit .getFn [("Get", wrap ref)]
  | .Exists ref => structLit .existsFn [("Exists", wrap ref)]
  | .Paginate set => structLit .paginateFn [("Paginate", wrap set)]
  | .Concat terms => structLit .concatFn [("Concat", wrap terms)]
  | .Casefold str => structLit .casefoldFn [("Casefold", wrap str)]
  | .FindStr str find => structLit .findStrFn [("FindStr", wrap str), ("Find", wrap find)]
  | .ReplaceStrRegex value pattern replace =>
      structLit .replaceStrRegexFn
        [("ReplaceStrRegex", wrap value), ("Pattern", wrap pattern), ("Replace", wrap replace)]
  | .SubString str start => structLit .subStringFn [("SubString", wrap str), ("Start", wrap start)]
  | .Merge merge with_ => structLit .mergeFn [("Merge", wrap merge), ("With", wrap with_)]
  | .Round value => structLit .roundFn [("Round", wrap value)]
  | .Trunc value => structLit .truncFn [("Trunc", wrap value)]
  | .Select path value => structLit .selectFn [("Select", wrap path), ("From", wrap value)]

/-- The option names that the function declares: the keys of its mapping. -/
def OptCall.declared (c : OptCall) : List String :=
  c.mappings.map Prod.fst

/-! ## Predicates on expressions -/

mutual
/-- Every struct value in the expression has one value per declared field. -/
def wf : Expr → Bool
  | .nil => true
  | .value _ => true
  | .invalidExpr _ => true
  | .unescapedArr arr => wfList arr
  | .unescapedObj obj => wfEntries obj
  | .fn k vals => vals.length == k.fields.length && wfList vals
/-- See `wf`. -/
def wfList : List Expr → Bool
  | [] => true
  | e :: es => wf e && wfList es
/-- See `wf`. -/
def wfEntries : List (String × Expr) → Bool
  | [] => true
  | (_, e) :: es => wf e && wfEntries es
end

mutual
/-- The captured errors of the error sentinels that occur in the expression: the expression
itself, a field of a struct, an element of an `unescapedArr` or a value of an `unescapedObj`, at
any depth. -/
def sentinels : Expr → List GoError
  | .nil => []
  | .value _ => []
  | .invalidExpr err => [err]
  | .unescapedArr arr => sentinelsList arr
  | .unescapedObj obj => sentinelsEntries obj
  | .fn _ vals => sentinelsList vals
/-- See `sentinels`. -/
def sentinelsList : List Expr → List GoError
  | [] => []
  | e :: es => sentinels e ++ sentinelsList es
/-- See `sentinels`. -/
def sentinelsEntries : List (String × Expr) → List GoError
  | [] => []
  | (_, e) :: es => sentinels e ++ sentinelsEntries es
end

/-- The error `outer` is `inner`, or wraps an error that is or wraps `inner` (what `errors.Is`
finds by repeated `Unwrap`). -/
def GoError.wraps : GoError → GoError → Bool
  | .errorString msg, inner => decide (GoError.errorString msg = inner)
  | .MarshalerError typ err, inner =>
      decide (GoError.MarshalerError typ err = inner) || GoError.wraps err inner

/-- The keys that the specification (4.3) prescribes for the wire object of a struct with fields
`decl` and field values `vals`: the wire name of every required field and of every optional
field that is populated, and no other.  It is compared with what `Marshal` writes. -/
def expectedKeys : List Field → List Expr → List String
  | f :: decl, v :: vals =>
      if !f.omitempty || !v.isNil then f.json :: expectedKeys decl vals
      else expectedKeys decl vals
  | _, _ => []


/-! ## Rendering a constructed node -/

/-- The call `e.String()` on the node that a query function returns; a panic of the function is
the outcome. -/
def stringOf (rt : Runtime) (r : Except Panic Expr) : Except Panic String :=
  match r with
  | .error p => .error p
  | .ok fn => fn.String rt

/-- A runtime in which a `range` loop visits the entries of a map in the order in which they are
kept; the other components are given. -/
def Runtime.inOrder (valueString : Value → String) (quote : String → String)
    (implementsArrType : Except Panic Bool) : Runtime :=
  { valueString := valueString, quote := quote, rangeOrder := List.range,
    implementsArrType := implementsArrType }

/-! ## Families of query functions, as data -/

/-- The six pairs of an unscoped and a scoped ref constructor of query.go. -/
inductive ScopedRef where
  | Database | Index | Class | Collection | Function | Role

/-- The name of the unscoped constructor; the scoped one has the prefix `Scoped`. -/
def ScopedRef.name : ScopedRef → String
  | .Database => "Database"
  | .Index => "Index"
  | .Class => "Class"
  | .Collection => "Collection"
  | .Function => "Function"
  | .Role => "Role"

/-- The call of the unscoped constructor. -/
def ScopedRef.unscoped : ScopedRef → Host → Expr
  | .Database, name => faunadb.Database name
  | .Index, name => faunadb.Index name
  | .Class, name => faunadb.Class name
  | .Collection, name => faunadb.Collection name
  | .Function, name => faunadb.Function name
  | .Role, name => faunadb.Role name

/-- The call of the scoped constructor. -/
def ScopedRef.scoped : ScopedRef → Host → Host → Expr
  | .Database, name, scope => faunadb.ScopedDatabase name scope
  | .Index, name, scope => faunadb.ScopedIndex name scope
  | .Class, name, scope => faunadb.ScopedClass name scope
  | .Collection, name, scope => faunadb.ScopedCollection name scope
  | .Function, name, scope => faunadb.ScopedFunction name scope
  | .Role, name, scope => faunadb.ScopedRole name scope

/-- The nine native sets of query.go, each with a constructor without arguments and a scoped
one. -/
inductive NativeSet where
  | Classes | Collections | Indexes | Databases | Functions | Roles | Keys | Tokens | Credentials

/-- The name of the constructor without arguments; the scoped one has the prefix `Scoped`. -/
def NativeSet.name : NativeSet → String
  | .Classes => "Classes"
  | .Collections => "Collections"
  | .Indexes => "Indexes"
  | .Databases => "Databases"
  | .Functions => "Functions"
  | .Roles => "Roles"
  | .Keys => "Keys"
  | .Tokens => "Tokens"
  | .Credentials => "Credentials"

/-- The struct type of the native set; it has a single field. -/
def NativeSet.kind : NativeSet → FnKind
  | .Classes => .classesFn
  | .Collections => .collectionsFn
  | .Indexes => .indexesFn
  | .Databases => .databasesFn
  | .Functions => .functionsFn
  | .Roles => .rolesFn
  | .Keys => .keysFn
  | .Tokens => .tokensFn
  | .Credentials => .credentialsFn

/-- The call of the constructor without arguments. -/
def NativeSet.native : NativeSet → Expr
  | .Classes => faunadb.Classes
  | .Collections => faunadb.Collections
  | .Indexes => faunadb.Indexes
  | .Databases => faunadb.Databases
  | .Functions => faunadb.Functions
  | .Roles => faunadb.Roles
  | .Keys => faunadb.Keys
  | .Tokens => faunadb.Tokens
  | .Credentials => faunadb.Credentials

/-- The call of the scoped constructor. -/
def NativeSet.scoped : NativeSet → Host → Expr
  | .Classes, scope => faunadb.ScopedClasses scope
  | .Collections, scope => faunadb.ScopedCollections scope
  | .Indexes, scope => faunadb.ScopedIndexes scope
  | .Databases, scope => faunadb.ScopedDatabases scope
  | .Functions, scope => faunadb.ScopedFunctions scope
  | .Roles, scope => faunadb.ScopedRoles scope
  | .Keys, scope => faunadb.ScopedKeys scope
  | .Tokens, scope => faunadb.ScopedTokens scope
  | .Credentials, scope => faunadb.ScopedCredentials scope

/-- The twenty functions of query.go whose only parameter is variadic. -/
inductive Variadic where
  | Union | Intersection | Difference | Equals | Add | BitAnd | BitOr | BitXor | Divide | Max
  | Min | Modulo | Multiply | Subtract | LT | LTE | GT | GTE | And | Or

/-- The name of the function. -/
def Variadic.name : Variadic → String
  | .Union => "Union"
  | .Intersection => "Intersection"
  | .Difference => "Difference"
  | .Equals => "Equals"
  | .Add => "Add"
  | .BitAnd => "BitAnd"
  | .BitOr => "BitOr"
  | .BitXor => "BitXor"
  | .Divide => "Divide"
  | .Max => "Max"
  | .Min => "Min"
  | .Modulo => "Modulo"
  | .Multiply => "Multiply"
  | .Subtract => "Subtract"
  | .LT => "LT"
  | .LTE => "LTE"
  | .GT => "GT"
  | .GTE => "GTE"
  | .And => "And"
  | .Or => "Or"

/-- The call of the function. -/
def Variadic.build : Variadic → List Host → Expr
  | .Union, args => faunadb.Union args
  | .Intersection, args => faunadb.Intersection args
  | .Difference, args => faunadb.Difference args
  | .Equals, args => faunadb.Equals args
  | .Add, args => faunadb.Add args
  | .BitAnd, args => faunadb.BitAnd args
  | .BitOr, args => faunadb.BitOr args
  | .BitXor, args => faunadb.BitXor args
  | .Divide, args => faunadb.Divide args
  | .Max, args => faunadb.Max args
  | .Min, args => faunadb.Min args
  | .Modulo, args => faunadb.Modulo args
  | .Multiply, args => faunadb.Multiply args
  | .Subtract, args => faunadb.Subtract args
  | .LT, args => faunadb.LT args
  | .LTE, args => faunadb.LTE args
  | .GT, args => faunadb.GT args
  | .GTE, args => faunadb.GTE args
  | .And, args => faunadb.And args
  | .Or, args => faunadb.Or args

/-- The name of the function of an `OptCall`. -/
def OptCall.name : OptCall → String
  | .Get _ => "Get"
  | .Exists _ => "Exists"
  | .Paginate _ => "Paginate"
  | .Concat _ => "Concat"
  | .Casefold _ => "Casefold"
  | .FindStr _ _ => "FindStr"
  | .ReplaceStrRegex _ _ _ => "ReplaceStrRegex"
  | .SubString _ _ => "SubString"
  | .Merge _ _ => "Merge"
  | .Round _ => "Round"
  | .Trunc _ => "Trunc"
  | .Select _ _ => "Select"

/-- The required arguments of an `OptCall`, wrapped, in the order of the parameters. -/
def OptCall.required : OptCall → List Expr
  | .Get ref => [wrap ref]
  | .Exists ref => [wrap ref]
  | .Paginate set => [wrap set]
  | .Concat terms => [wrap terms]
  | .Casefold str => [wrap str]
  | .FindStr str find => [wrap str, wrap find]
  | .ReplaceStrRegex value pattern replace => [wrap value, wrap pattern, wrap replace]
  | .SubString str start => [wrap str, wrap start]
  | .Merge merge with_ => [wrap merge, wrap with_]
  | .Round value => [wrap value]
  | .Trunc value => [wrap value]
  | .Select path value => [wrap path, wrap value]

/-! ## A second iteration order -/

/-- A runtime whose `range` loops visit the entries of every map from the last to the first. -/
def Runtime.inReverse (valueString : Value → String) (quote : String → String)
    (implementsArrType : Except Panic Bool) : Runtime :=
  { valueString := valueString, quote := quote, rangeOrder := fun n => (List.range n).reverse,
    implementsArrType := implementsArrType }

/-! ## The host shortcut Obj (expr.go) -/

/-- The method `Obj.MarshalJSON` (expr.go, line 95): `json.Marshal(wrap(obj))`. -/
def Obj.MarshalJSON (obj : List (String × Host)) : Except GoError Json :=
  Marshal (wrap (.map obj))

/-! ## The size of an expression -/

mutual
/-- A measure of an expression for the length of its rendering: three thousand for every value of
type `Expr` in it (nil included), the length of the rendering of every literal, and the length of
every key of an `unescapedObj`, plain and quoted. -/
def sizeBound (rt : Runtime) : Expr → Nat
  | .nil => 3000
  | .value v => 3000 + (rt.valueString v).length
  | .invalidExpr _ => 3000
  | .unescapedArr arr => 3000 + sizeBoundList rt arr
  | .unescapedObj obj => 3000 + sizeBoundEntries rt obj
  | .fn _ vals => 3000 + sizeBoundList rt vals
/-- The measure `sizeBound`, summed over a list. -/
def sizeBoundList (rt : Runtime) : List Expr → Nat
  | [] => 0
  | e :: es => sizeBound rt e + sizeBoundList rt es
/-- The measure `sizeBound`, summed over the entries of a map, with the keys. -/
def sizeBoundEntries (rt : Runtime) : List (String × Expr) → Nat
  | [] => 0
  | (k, e) :: es => k.length + (rt.quote k).length + sizeBound rt e + sizeBoundEntries rt es
end

/-- The outcome of `e.String()` is short: a string with three hundred characters fewer than
`sizeBound rt e` at least, or a panic whose text has a hundred characters at most. -/
def Short (rt : Runtime) (e : Expr) : Prop :=
  match Expr.String rt e with
  | .ok s => s.length + 300 ≤ sizeBound rt e
  | .error p => p.text.length ≤ 100

/-- The measure of a field value as an operand of the method of its struct: a nil field counts
for nothing. -/
def fieldCost (rt : Runtime) (e : Expr) : Nat :=
  if e.isNil then 0 else sizeBound rt e

/-! ## The String methods of strconv.go, as data -/

/-- The body of a `String` method of strconv.go: the helper that it calls, the name that it
passes and the Go names of the fields that it passes, in order (with `printFnWithOpts`, the pairs
of a format and a field of the mapping). -/
inductive Shape where
  | fn (name : String) (args : List String)
  | withOpts (name : String) (mapping : List (String × String)) (args : List String)
  | noArgs (name : String)
  | scopedFn (name : String) (arg1 scope : String)
  | keyScopedFn (name : String) (expr : String)
  | letFn
  | matchFn

/-- The call that a `Shape` stands for; `fn F` is the field `fn.F`. -/
def Shape.run (rt : Runtime) (fn : String → Arg) : Shape → Except Panic String
  | .fn name args => printFn rt name (args.map fn)
  | .withOpts name mapping args =>
      printFnWithOpts rt name (mapping.map fun kv => (kv.1, fn kv.2)) (args.map fn)
  | .noArgs name => printNoArgsFn rt name
  | .scopedFn name arg1 scope => printScopedFn rt name (fn arg1) (fn scope)
  | .keyScopedFn name expr => printKeyScopedFn rt name (fn expr)
  | .letFn => letFn.String rt (fn "Let") (fn "In")
  | .matchFn => matchFn.String rt (fn "Match") (fn "Terms")

/-- The fields that a `Shape` passes. -/
def Shape.printed : Shape → List String
  | .fn _ args => args
  | .withOpts _ mapping args => args ++ mapping.map Prod.snd
  | .noArgs _ => []
  | .scopedFn _ arg1 scope => [arg1, scope]
  | .keyScopedFn _ expr => [expr]
  | .letFn => ["Let", "In"]
  | .matchFn => ["Match", "Terms"]

/-- What the methods of strconv.go have in common: a name of at most twenty characters, at most
seven fields, no field passed twice, and with `printFnWithOpts` a mapping that is not empty and
whose formats have at most twenty characters. -/
def Shape.small (s : Shape) : Bool :=
  decide s.printed.Nodup && decide (s.printed.length ≤ 7) &&
    match s with
    | .fn name _ => decide (name.length ≤ 20)
    | .withOpts name mapping _ =>
        decide (name.length ≤ 20) && !mapping.isEmpty &&
          mapping.all fun kv => decide (kv.1.length ≤ 20)
    | .noArgs name => decide (name.length ≤ 20)
    | .scopedFn name _ _ => decide (name.length ≤ 20)
    | .keyScopedFn name _ => decide (name.length ≤ 20)
    | .letFn => true
    | .matchFn => true

/-- The body of the `String` method of each struct type of functions.go (strconv.go), read off
`FnKind.String`. -/
def FnKind.shape : FnKind → Shape
  | .letFn => .letFn
  | .matchFn => .matchFn
  | .legacyRefFn => .fn "Ref" ["Ref"]
  | .refFn => .fn "RefCollection" ["Ref", "ID"]
  | .abortFn => .fn "Abort" ["Abort"]
  | .doFn => .fn "Do" ["Do"]
  | .ifFn => .fn "If" ["If", "Then", "Else"]
  | .lambdaFn => .fn "Lambda" ["Lambda", "Expression"]
  | .atFn => .fn "At" ["At", "Expression"]
  | .varFn => .fn "Var" ["Var"]
  | .callFn => .fn "Call" ["Call", "Params"]
  | .queryFn => .fn "Query" ["Query"]
  | .mapFn => .fn "Map" ["Map"]
  | .foreachFn => .fn "Foreach" ["Foreach", "Collection"]
  | .filterFn => .fn "Filter" ["Filter", "Collection"]
  | .takeFn => .fn "Take" ["Take"]
  | .dropFn => .fn "Drop" ["Drop"]
  | .prependFn => .fn "Prepend" ["Prepend", "Collection"]
  | .appendFn => .fn "Append" ["Append", "Collection"]
  | .isEmptyFn => .fn "IsEmpty" ["IsEmpty"]
  | .isNonEmptyFn => .fn "IsNonEmpty" ["IsNonEmpty"]
  | .getFn => .withOpts "Get" [("TS(%s)", "TS")] ["Get"]
  | .keyFromSecretFn => .fn "KeyFromSecret" ["KeyFromSecret"]
  | .existsFn => .withOpts "Exists" [("TS(%s)", "TS")] ["Exists"]
  | .paginateFn => .withOpts "Paginate"
      [("After(%s)", "After"), ("Before(%s)", "Before"), ("Events(%s)", "Events"),
        ("Size(%s)", "Size"), ("Sources(%s)", "Sources"), ("TS(%s)", "TS")] ["Paginate"]
  | .createFn => .fn "Create" ["Create"]
  | .createClassFn => .fn "CreateClass" ["CreateClass"]
  | .createCollectionFn => .fn "CreateCollection" ["CreateCollection"]
  | .createDatabaseFn => .fn "CreateDatabase" ["CreateDatabase"]
  | .createIndexFn => .fn "CreateIndex" ["CreateIndex"]
  | .createKeyFn => .fn "CreateKey" ["CreateKey"]
  | .createFunctionFn => .fn "CreateFunction" ["CreateFunction"]
  | .createRoleFn => .fn "CreateRole" ["CreateRole"]
  | .moveDatabaseFn => .fn "MoveDatabase" ["MoveDatabase", "To"]
  | .updateFn => .fn "Update" ["Update"]
  | .replaceFn => .fn "Replace" ["Replace"]
  | .deleteFn => .fn "Delete" ["Delete"]
  | .insertFn => .fn "Insert" ["Insert", "Ts", "Action", "Params"]
  | .removeFn => .fn "Remove" ["Remove", "Ts", "Action"]
  | .formatFn => .fn "Format" ["Format", "Values"]
  | .concatFn => .withOpts "Concat" [("Separator(%s)", "Separator")] ["Concat"]
  | .casefoldFn => .withOpts "Casefold" [("%s", "Normalizer")] ["Casefold"]
  | .startsWithFn => .fn "StartsWith" ["StartsWith", "Search"]
  | .endsWithFn => .fn "EndsWith" ["EndsWith", "Search"]
  | .containsStrFn => .fn "ContainsStr" ["ContainsStr", "Search"]
  | .containsStrRegexFn => .fn "ContainsStrRegex" ["ContainsStrRegex", "Pattern"]
  | .regexEscapeFn => .fn "RegexEscape" ["RegexEscape"]
  | .findStrFn => .withOpts "FindStr" [("Start", "Start")] ["FindStr", "Find"]
  | .findStrRegexFn => .fn "FindStrRegex" ["FindStrRegex", "Pattern"]
  | .lengthFn => .fn "Length" ["Length"]
  | .lowercaseFn => .fn "LowerCase" ["Lowercase"]
  | .lTrimFn => .fn "LTrim" ["LTrim"]
  | .repeatFn => .fn "Repeat" ["Repeat"]
  | .replaceStrFn => .fn "ReplaceStr" ["ReplaceStr", "Find", "Replace"]
  | .replaceStrRegexFn => .withOpts "ReplaceStrRegex" [("OnlyFirst()", "First")]
      ["ReplaceStrRegex", "Pattern", "Replace"]
  | .rTrimFn => .fn "RTrim" ["RTrim"]
  | .spaceFn => .fn "Space" ["Space"]
  | .subStringFn => .withOpts "SubString" [("Length(%s)", "Length")] ["SubString", "Start"]
  | .titleCaseFn => .fn "TitleCase" ["Titlecase"]
  | .trimFn => .fn "Trim" ["Trim"]
  | .upperCaseFn => .fn "UpperCase" ["UpperCase"]
  | .timeFn => .fn "Time" ["Time"]
  | .timeAddFn => .fn "TimeAdd" ["TimeAdd", "Offset", "Unit"]
  | .timeSubtractFn => .fn "TimeSubtract" ["TimeSubtract", "Offset", "Unit"]
  | .timeDiffFn => .fn "TimeDiff" ["TimeDiff", "Other", "Unit"]
  | .dateFn => .fn "Date" ["Date"]
  | .epochFn => .fn "Epoch" ["Epoch"]
  | .nowFn => .noArgs "Now"
  | .singletonFn => .fn "Singleton" ["Singleton"]
  | .eventsFn => .fn "Events" ["Events"]
  | .unionFn => .fn "Union" ["Union"]
  | .mergeFn => .withOpts "Merge" [("ConflictResolver(%s)", "Lambda")] ["Merge", "With"]
  | .reduceFn => .fn "Reduce" ["Reduce", "Initial", "Collection"]
  | .intersectionFn => .fn "Intersection" ["Intersection"]
  | .differenceFn => .fn "Difference" ["Difference"]
  | .distinctFn => .fn "Distinct" ["Distinct"]
  | .joinFn => .fn "Join" ["Join"]
  | .rangeFn => .fn "Range" ["Range", "From", "To"]
  | .loginFn => .fn "Login" ["Login", "Params"]
  | .logoutFn => .fn "Logout" ["Logout"]
  | .identifyFn => .fn "Identify" ["Identify", "Password"]
  | .identityFn => .noArgs "Identity"
  | .hasIdentityFn => .noArgs "HasIdentity"
  | .nextIdFn => .noArgs "NextID"
  | .newIdFn => .noArgs "NewId"
  | .databaseFn => .scopedFn "Database" "Database" "Scope"
  | .indexFn => .scopedFn "Index" "Index" "Scope"
  | .classFn => .scopedFn "Class" "Class" "Scope"
  | .collectionFn => .scopedFn "Collection" "Collection" "Scope"
  | .documentsFn => .fn "Documents" ["Documents"]
  | .functionFn => .scopedFn "Function" "Function" "Scope"
  | .roleFn => .scopedFn "Role" "Role" "Scope"
  | .classesFn => .keyScopedFn "Classes" "Classes"
  | .collectionsFn => .keyScopedFn "Collections" "Collections"
  | .indexesFn => .keyScopedFn "Indexes" "Indexes"
  | .databasesFn => .keyScopedFn "Databases" "Databases"
  | .functionsFn => .keyScopedFn "Functions" "Functions"
  | .rolesFn => .keyScopedFn "Roles" "Roles"
  | .keysFn => .keyScopedFn "Keys" "Keys"
  | .tokensFn => .keyScopedFn "Tokens" "Tokens"
  | .credentialsFn => .keyScopedFn "Credentials" "Credentials"
  | .equalsFn => .fn "Equals" ["Equals"]
  | .containsFn => .fn "Contains" ["Contains", "Value"]
  | .absFn => .fn "Abs" ["Abs"]
  | .acosFn => .fn "Acos" ["Acos"]
  | .asinFn => .fn "Asin" ["Asin"]
  | .atanFn => .fn "Atan" ["Atan"]
  | .addFn => .fn "Add" ["Add"]
  | .bitAndFn => .fn "BitAnd" ["BitAnd"]
  | .bitNotFn => .fn "BitNot" ["BitNot"]
  | .bitOrFn => .fn "BitOr" ["BitOr"]
  | .bitXorFn => .fn "BitXor" ["BitXor"]
  | .ceilFn => .fn "Ceil" ["Ceil"]
  | .cosFn => .fn "Cos" ["Cos"]
  | .coshFn => .fn "Cosh" ["Cosh"]
  | .degreesFn => .fn "Degrees" ["Degrees"]
  | .divideFn => .fn "Divide" ["Divide"]
  | .expFn => .fn "Exp" ["Exp"]
  | .floorFn => .fn "Floor" ["Floor"]
  | .hypotFn => .fn "Hypot" ["Hypot"]
  | .lnFn => .fn "Ln" ["Ln"]
  | .logFn => .fn "Log" ["Log"]
  | .maxFn => .fn "Max" ["Max"]
  | .minFn => .fn "Min" ["Min"]
  | .moduloFn => .fn "Modulo" ["Modulo"]
  | .multiplyFn => .fn "Multiply" ["Multiply"]
  | .powFn => .fn "Pow" ["Pow"]
  | .radiansFn => .fn "Radians" ["Radians"]
  | .roundFn => .withOpts "Round" [("Precision(%s)", "Precision")] ["Round"]
  | .signFn => .fn "Sign" ["Sign"]
  | .sinFn => .fn "Sin" ["Sin"]
  | .sinhFn => .fn "Sinh" ["Sinh"]
  | .sqrtFn => .fn "Sqrt" ["Sqrt"]
  | .subtractFn => .fn "Subtract" ["Subtract"]
  | .tanFn => .fn "Tan" ["Tan"]
  | .tanhFn => .fn "Tanh" ["Tanh"]
  | .truncFn => .withOpts "Trunc" [("Precision(%s)", "Precision")] ["Trunc"]
  | .anyFn => .fn "Any" ["Any"]
  | .allFn => .fn "All" ["All"]
  | .countFn => .fn "Count" ["Count"]
  | .sumFn => .fn "Sum" ["Sum"]
  | .meanFn => .fn "Mean" ["Mean"]
  | .ltFn => .fn "LT" ["LT"]
  | .lteFn => .fn "LTE" ["LTE"]
  | .gtFn => .fn "GT" ["GT"]
  | .gteFn => .fn "GTE" ["GTE"]
  | .andFn => .fn "And" ["And"]
  | .orFn => .fn "Or" ["Or"]
  | .notFn => .fn "Not" ["Not"]
  | .selectFn => .withOpts "Select" [("Default(%s)", "Default")] ["Select", "From"]
  | .selectAllFn => .withOpts "SelectAll" [("SelectAll(%s)", "Default")] ["SelectAll", "From"]
  | .toStringFn => .fn "ToString" ["ToString"]
  | .toNumberFn => .fn "ToNumber" ["ToNumber"]
  | .toTimeFn => .fn "ToTime" ["ToTime"]
  | .toSecondsFn => .fn "ToSeconds" ["ToSeconds"]
  | .toMillisFn => .fn "ToMillis" ["ToMillis"]
  | .toMicrosFn => .fn "ToMicros" ["ToMicros"]
  | .yearFn => .fn "Year" ["Year"]
  | .monthFn => .fn "Month" ["Month"]
  | .hourFn => .fn "Hour" ["Hour"]
  | .minuteFn => .fn "Minute" ["Minute"]
  | .secondFn => .fn "Second" ["Second"]
  | .dayOfMonthFn => .fn "DayOfMonth" ["DayOfMonth"]
  | .dayOfWeekFn => .fn "DayOfWeek" ["DayOfWeek"]
  | .dayOfYearFn => .fn "DayOfYear" ["DayOfYear"]
  | .toDateFn => .fn "ToDate" ["ToDate"]
  | .isNumberFn => .fn "IsNumber" ["IsNumber"]
  | .isDoubleFn => .fn "IsDouble" ["IsDouble"]
  | .isIntegerFn => .fn "IsInteger" ["IsInteger"]
  | .isBooleanFn => .fn "IsBoolean" ["IsBoolean"]
  | .isNullFn => .fn "IsNull" ["IsNull"]
  | .isBytesFn => .fn "IsBytes" ["IsBytes"]
  | .isTimestampFn => .fn "IsTimestamp" ["IsTimestamp"]
  | .isDateFn => .fn "IsDate" ["IsDate"]
  | .isStringFn => .fn "IsString" ["IsString"]
  | .isArrayFn => .fn "IsArray" ["IsArray"]
  | .isObjectFn => .fn "IsObject" ["IsObject"]
  | .isRefFn => .fn "IsRef" ["IsRef"]
  | .isSetFn => .fn "IsSet" ["IsSet"]
  | .isDocFn => .fn "IsDoc" ["IsDoc"]
  | .isLambdaFn => .fn "IsLambda" ["IsLambda"]
  | .isCollectionFn => .fn "IsCollection" ["IsCollection"]
  | .isDatabaseFn => .fn "IsDatabase" ["IsDatabase"]
  | .isIndexFn => .fn "IsIndex" ["IsIndex"]
  | .isFunctionFn => .fn "IsFunction" ["IsFunction"]
  | .isKeyFn => .fn "IsKey" ["IsKey"]
  | .isTokenFn => .fn "IsToken" ["IsToken"]
  | .isCredentialsFn => .fn "IsCredentials" ["IsCredentials"]
  | .isRoleFn => .fn "IsRole" ["IsRole"]

/-! ## Building a let node -/

/-- The call chain `Let().Bind(k1, v1). ... .Bind(kn, vn).In(b)`. -/
def letChain (bindings : List (String × Host)) (b : Expr) : Expr :=
  (bindings.foldl (fun lb kv => lb.Bind kv.1 kv.2) Let).In b

/-! ## The panics of the String methods -/

/-- The panics that the `String` methods of strconv.go raise on an expression: a call of
`String` on a nil operand, and the two panics of `letFn.String`, a failed assertion of an element
of the bindings to `unescapedObj` and bindings that are not an `unescapedArr`. -/
def catalogPanic (p : Panic) : Prop :=
  p = .nilDereference ∨
    (∃ found, p = .interfaceConversion "faunadb.Expr" found "faunadb.unescapedObj") ∨
    ∃ typ, p = .message ("Let bindings should be an unescapedArr, " ++ typ ++ " instead")

/-! ## Unfolding lemmas -/

theorem Marshal_fn (k : FnKind) (vals : List Expr) :
    Marshal (.fn k vals) = (match marshalFields k.fields vals with
      | .ok members => .ok (.obj members)
      | .error err => .error err) := rfl

theorem marshalFields_cons (f : Field) (decl : List Field) (v : Expr) (vals : List Expr) :
    marshalFields (f :: decl) (v :: vals) =
      if f.omitempty && v.isNil then marshalFields decl vals
      else
        match Marshal v with
        | .error err => .error err
        | .ok j =>
            match marshalFields decl vals with
            | .error err => .error err
            | .ok members => .ok ((f.json, j) :: members) := rfl

theorem OptCall.build_eq (c : OptCall) (options : List OptionalParameter) :
    c.build options = applyOptionals c.mappings options c.init := by
  cases c <;> rfl

theorem Modifier.option_eq (m : Modifier) :
    m.option = fun mp => updateField mp m.target m.newValue := by
  cases m <;> rfl

/-- The spec-modelled `wrap` never returns the nil interface. -/
theorem wrap_isNil : ∀ h : Host, (wrap h).isNil = false
  | .nil => rfl
  | .bool _ => rfl
  | .int _ => rfl
  | .str _ => rfl
  | .bytes _ => rfl
  | .time _ => rfl
  | .expr e => by cases e <;> rfl
  | .slice _ => rfl
  | .unsupported _ => rfl
  | .map [] => rfl
  | .map [(k, v)] => by
      have ih := wrap_isNil v
      rw [wrap]
      split
      · exact ih
      · rfl
  | .map (_ :: _ :: _) => rfl

theorem Marshal_getFn (get ts : Expr) :
    Marshal (.fn .getFn [get, ts]) =
      (match Marshal get with
        | .error err => .error err
        | .ok jg =>
            if ts.isNil then .ok (.obj [("get", jg)])
            else
              match Marshal ts with
              | .error err => .error err
              | .ok jt => .ok (.obj [("get", jg), ("ts", jt)])) := by
  rw [Marshal_fn]
  show (match marshalFields [⟨"Get", "get", false⟩, ⟨"TS", "ts", true⟩] [get, ts] with
      | .ok members => Except.ok (Json.obj members)
      | .error err => .error err) = _
  rw [marshalFields_cons, marshalFields_cons]
  cases hg : Marshal get with
  | error err => rfl
  | ok jg =>
      cases hn : ts.isNil with
      | true => rfl
      | false =>
          cases ht : Marshal ts with
          | error err => simp [marshalFields]
          | ok jt => simp [marshalFields]

/-! ### Writing a field -/

theorem setField_setField_same (F : String) (a b : Expr) :
    ∀ (decl : List Field) (vals : List Expr),
      setField decl (setField decl vals F a) F b = setField decl vals F b
  | [], _ => by simp [setField]
  | _ :: _, [] => by simp [setField]
  | f :: decl, v :: vals => by
      by_cases h : f.name = F
      · simp [setField, h]
      · simp [setField, h, setField_setField_same F a b decl vals]

theorem setField_comm (F G : String) (a b : Expr) (hFG : F ≠ G) :
    ∀ (decl : List Field) (vals : List Expr),
      setField decl (setField decl vals F a) G b = setField decl (setField decl vals G b) F a
  | [], _ => by simp [setField]
  | _ :: _, [] => by simp [setField]
  | f :: decl, v :: vals => by
      by_cases hF : f.name = F
      · subst hF
        simp [setField, hFG]
      · by_cases hG : f.name = G
        · subst hG
          simp [setField, hF]
        · simp [setField, hF, hG, setField_comm F G a b hFG decl vals]

theorem getField_setField (F : String) (a : Expr) :
    ∀ (decl : List Field) (vals : List Expr), vals.length = decl.length →
      F ∈ decl.map Field.name → getField decl (setField decl vals F a) F = a
  | [], _, _, hmem => by simp at hmem
  | _ :: _, [], hlen, _ => by simp at hlen
  | f :: decl, v :: vals, hlen, hmem => by
      by_cases h : f.name = F
      · simp [setField, getField, h]
      · have hmem' : F ∈ decl.map Field.name := by
          simp only [List.map_cons, List.mem_cons] at hmem
          rcases hmem with hm | hm
          · exact absurd hm.symm h
          · exact hm
        have hlen' : vals.length = decl.length := by simpa using hlen
        simp [setField, getField, h, getField_setField F a decl vals hlen' hmem']

theorem set_set_same (fn : Expr) (F : String) (a b : Expr) :
    (fn.set F a).set F b = fn.set F b := by
  cases fn <;> simp [Expr.set, setField_setField_same]

theorem set_comm (fn : Expr) (F G : String) (a b : Expr) (hFG : F ≠ G) :
    (fn.set F a).set G b = (fn.set G b).set F a := by
  cases fn <;> simp [Expr.set, setField_comm F G a b hFG]

/-! ### Looking up an option name -/

theorem lookup_mem (k : String) (p : FieldPtr) :
    ∀ m : optionalKeysMapping, m.lookup k = some p → (k, p) ∈ m
  | [], h => by simp [List.lookup] at h
  | (k', p') :: m, h => by
      by_cases hk : k = k'
      · subst hk
        simp [List.lookup] at h
        simp [h]
      · have hb : (k == k') = false := by simpa using hk
        simp only [List.lookup, hb] at h
        exact List.mem_cons_of_mem _ (lookup_mem k p m h)

theorem lookup_declared (k : String) :
    ∀ m : optionalKeysMapping, k ∈ m.map Prod.fst → ∃ p, m.lookup k = some p
  | [], h => by simp at h
  | (k', p') :: m, h => by
      by_cases hk : k = k'
      · subst hk
        exact ⟨p', by simp [List.lookup]⟩
      · have hb : (k == k') = false := by simpa using hk
        have hm : k ∈ m.map Prod.fst := by
          simp only [List.map_cons, List.mem_cons] at h
          rcases h with h | h
          · exact absurd h hk
          · exact h
        obtain ⟨p, hp⟩ := lookup_declared k m hm
        exact ⟨p, by simp only [List.lookup, hb]; exact hp⟩

theorem lookup_undeclared (k : String) :
    ∀ m : optionalKeysMapping, k ∉ m.map Prod.fst → m.lookup k = none
  | [], _ => rfl
  | (k', p') :: m, h => by
      have hk : ¬ k = k' := fun e => h (by simp [e])
      have hb : (k == k') = false := by simpa using hk
      have hm : k ∉ m.map Prod.fst := fun e => h (by simp [e])
      simp only [List.lookup, hb]
      exact lookup_undeclared k m hm

/-- In each of the twelve functions the mapping sends different option names to different
fields. -/
theorem OptCall.mappings_pointers_nodup (c : OptCall) : (c.mappings.map Prod.snd).Nodup := by
  cases c <;> simp [OptCall.mappings]

/-- In each of the twelve functions the struct under construction has one value per field, and
every pointer of the mapping addresses one of its fields. -/
theorem OptCall.init_shape (c : OptCall) :
    ∃ k vals, c.init = .fn k vals ∧ vals.length = k.fields.length ∧
      ∀ p ∈ c.mappings.map Prod.snd, p ∈ k.fields.map Field.name := by
  have h : ∃ k vals, c.init = .fn k vals ∧ vals.length = k.fields.length ∧
      (c.mappings.map Prod.snd).all (fun p => (k.fields.map Field.name).contains p) = true := by
    cases c <;> exact ⟨_, _, rfl, rfl, rfl⟩
  obtain ⟨k, vals, h1, h2, h3⟩ := h
  refine ⟨k, vals, h1, h2, fun p hp => ?_⟩
  have := List.all_eq_true.mp h3 p hp
  simpa using this

/-! ### Applying options -/

theorem applyOptionals_nil (m : optionalKeysMapping) (fn : Expr) :
    applyOptionals m [] fn = .ok fn := rfl

theorem applyOptionals_cons (m : optionalKeysMapping) (o : OptionalParameter)
    (os : List OptionalParameter) (fn : Expr) :
    applyOptionals m (o :: os) fn =
      (match o m fn with
        | .error p => .error p
        | .ok fn => applyOptionals m os fn) := rfl

/-- One modifier whose target the mapping declares: the write goes through. -/
theorem option_declared (m : optionalKeysMapping) (x : Modifier) (p : FieldPtr)
    (h : m.lookup x.target = some p) (fn : Expr) :
    x.option m fn = .ok (fn.set p x.newValue) := by
  rw [Modifier.option_eq]
  simp [updateField, h]

/-- One modifier whose target the mapping lacks: the write through the nil pointer panics. -/
theorem option_undeclared (m : optionalKeysMapping) (x : Modifier)
    (h : x.target ∉ m.map Prod.fst) (fn : Expr) :
    x.option m fn = .error .nilDereference := by
  rw [Modifier.option_eq]
  simp [updateField, lookup_undeclared _ _ h]

/-- A list of modifiers whose targets are all declared: every write goes through, in order. -/
theorem applyOptionals_declared (m : optionalKeysMapping) :
    ∀ (ms : List Modifier) (fn : Expr), (∀ x ∈ ms, x.target ∈ m.map Prod.fst) →
      applyOptionals m (ms.map Modifier.option) fn =
        .ok (ms.foldl (fun fn x => fn.set ((m.lookup x.target).getD "") x.newValue) fn)
  | [], fn, _ => rfl
  | x :: ms, fn, h => by
      obtain ⟨p, hp⟩ := lookup_declared x.target m (h x (List.mem_cons_self _ _))
      have ih := applyOptionals_declared m ms (fn.set p x.newValue)
        (fun y hy => h y (List.mem_cons_of_mem _ hy))
      simp only [List.map_cons, applyOptionals_cons, option_declared m x p hp, List.foldl_cons,
        hp, Option.getD_some]
      exact ih

/-- A list of modifiers one of which has an undeclared target: the call panics. -/
theorem applyOptionals_undeclared (m : optionalKeysMapping) :
    ∀ (ms : List Modifier) (fn : Expr), (∃ x ∈ ms, x.target ∉ m.map Prod.fst) →
      applyOptionals m (ms.map Modifier.option) fn = .error .nilDereference
  | [], _, h => by simp at h
  | x :: ms, fn, h => by
      by_cases hx : x.target ∈ m.map Prod.fst
      · obtain ⟨p, hp⟩ := lookup_declared x.target m hx
        have h' : ∃ y ∈ ms, y.target ∉ m.map Prod.fst := by
          obtain ⟨y, hy, hyt⟩ := h
          simp only [List.mem_cons] at hy
          rcases hy with hy | hy
          · subst hy; exact absurd hx hyt
          · exact ⟨y, hy, hyt⟩
        simp only [List.map_cons, applyOptionals_cons, option_declared m x p hp]
        exact applyOptionals_undeclared m ms _ h'
      · simp only [List.map_cons, applyOptionals_cons, option_undeclared m x hx]

/-- The twelve functions that apply their options fail on every option list that holds a
modifier with an undeclared target, wherever it stands. -/
theorem OptCall.build_undeclared (c : OptCall) (ms : List Modifier)
    (h : ∃ x ∈ ms, x.target ∉ c.declared) :
    c.build (ms.map Modifier.option) = .error .nilDereference := by
  rw [OptCall.build_eq]
  exact applyOptionals_undeclared c.mappings ms c.init h

/-- A write to a field is lost when a later write in the list goes to the same field. -/
theorem foldl_set_overwritten (m : optionalKeysMapping) (p : FieldPtr) (a b : Expr) :
    ∀ (l : List Modifier) (s : Expr),
      (l.foldl (fun fn x => fn.set ((m.lookup x.target).getD "") x.newValue) (s.set p a)).set p b
        = (l.foldl (fun fn x => fn.set ((m.lookup x.target).getD "") x.newValue) s).set p b
  | [], s => by simp [set_set_same]
  | y :: l, s => by
      simp only [List.foldl_cons]
      by_cases hq : (m.lookup y.target).getD "" = p
      · rw [hq, set_set_same]
      · rw [set_comm s p _ a y.newValue (fun h => hq h.symm)]
        exact foldl_set_overwritten m p a b l _


/-! ### The struct encoder -/

theorem expectedKeys_cons (f : Field) (decl : List Field) (v : Expr) (vals : List Expr) :
    expectedKeys (f :: decl) (v :: vals) =
      if !f.omitempty || !v.isNil then f.json :: expectedKeys decl vals
      else expectedKeys decl vals := rfl

/-- The members that the struct encoder writes are named by `expectedKeys`, in order. -/
theorem marshalFields_keys :
    ∀ (decl : List Field) (vals : List Expr) (members : List (String × Json)),
      marshalFields decl vals = .ok members → members.map Prod.fst = expectedKeys decl vals
  | [], _, members, h => by
      simp only [marshalFields] at h
      cases h
      simp [expectedKeys]
  | _ :: _, [], members, h => by
      simp only [marshalFields] at h
      cases h
      simp [expectedKeys]
  | f :: decl, v :: vals, members, h => by
      rw [marshalFields_cons] at h
      rw [expectedKeys_cons]
      cases ho : f.omitempty <;> cases hn : v.isNil <;> simp only [ho, hn] at h ⊢ <;>
        simp only [Bool.and_true, Bool.and_false, Bool.false_and, Bool.not_true, Bool.not_false,
          Bool.or_true, Bool.or_false, Bool.true_or, Bool.false_eq_true, if_true, if_false] at h ⊢
      all_goals first
        | exact marshalFields_keys decl vals members h
        | (cases hv : Marshal v with
            | error err => rw [hv] at h; cases h
            | ok j =>
                rw [hv] at h
                cases hr : marshalFields decl vals with
                | error err => rw [hr] at h; cases h
                | ok ms =>
                    rw [hr] at h
                    cases h
                    simp [marshalFields_keys decl vals ms hr])

/-- No struct of functions.go has two fields with the same wire name. -/
theorem FnKind.json_names_nodup (k : FnKind) : (k.fields.map Field.json).Nodup := by
  cases k <;> decide

theorem expectedKeys_subset :
    ∀ (decl : List Field) (vals : List Expr), ∀ n ∈ expectedKeys decl vals, n ∈ decl.map Field.json
  | [], _, n, h => by simp [expectedKeys] at h
  | _ :: _, [], n, h => by simp [expectedKeys] at h
  | f :: decl, v :: vals, n, h => by
      rw [expectedKeys_cons] at h
      split at h
      · simp only [List.mem_cons] at h
        rcases h with h | h
        · simp [h]
        · simp [expectedKeys_subset decl vals n h]
      · simp [expectedKeys_subset decl vals n h]

/-- A wire name is written exactly when its field is required or holds a value. -/
theorem mem_expectedKeys :
    ∀ (decl : List Field) (vals : List Expr), (decl.map Field.json).Nodup →
      ∀ (i : Nat) (f : Field) (v : Expr), decl[i]? = some f → vals[i]? = some v →
        (f.json ∈ expectedKeys decl vals ↔ (f.omitempty = false ∨ v.isNil = false))
  | [], _, _, i, f, v, hf, _ => by simp at hf
  | _ :: _, [], _, i, f, v, _, hv => by simp at hv
  | g :: decl, w :: vals, hnd, 0, f, v, hf, hv => by
      simp only [List.getElem?_cons_zero, Option.some.injEq] at hf hv
      subst hf hv
      have hnot : g.json ∉ decl.map Field.json := (List.nodup_cons.mp hnd).1
      rw [expectedKeys_cons]
      cases ho : g.omitempty <;> cases hn : w.isNil <;> simp
      intro h
      exact hnot (expectedKeys_subset decl vals _ h)
  | g :: decl, w :: vals, hnd, i + 1, f, v, hf, hv => by
      simp only [List.getElem?_cons_succ] at hf hv
      have hnd' : (decl.map Field.json).Nodup := (List.nodup_cons.mp hnd).2
      have hnot : g.json ∉ decl.map Field.json := (List.nodup_cons.mp hnd).1
      have hfmem : f.json ∈ decl.map Field.json :=
        List.mem_map.mpr ⟨f, List.getElem?_mem hf, rfl⟩
      have hne : f.json ≠ g.json := fun h => hnot (h ▸ hfmem)
      rw [expectedKeys_cons]
      have ih := mem_expectedKeys decl vals hnd' i f v hf hv
      split
      · simp only [List.mem_cons, hne, false_or]
        exact ih
      · exact ih

/-! ### Error sentinels under json.Marshal -/

theorem GoError.wraps_refl (e : GoError) : e.wraps e = true := by
  cases e <;> simp [GoError.wraps]

theorem GoError.wraps_MarshalerError (typ : String) (err s : GoError) (h : err.wraps s = true) :
    (GoError.MarshalerError typ err).wraps s = true := by
  simp [GoError.wraps, h]

theorem Marshal_unescapedArr (arr : List Expr) :
    Marshal (.unescapedArr arr) = (match marshalList arr with
      | .ok js => .ok (.arr js)
      | .error err => .error err) := rfl

theorem Marshal_unescapedObj (obj : List (String × Expr)) :
    Marshal (.unescapedObj obj) =
      marshalerEncoder "faunadb.unescapedObj" (unescapedObj.MarshalJSON (marshalEntries obj)) :=
  rfl

theorem marshalList_cons (e : Expr) (es : List Expr) :
    marshalList (e :: es) = (match Marshal e with
      | .error err => .error err
      | .ok j =>
          match marshalList es with
          | .error err => .error err
          | .ok js => .ok (j :: js)) := rfl

theorem marshalEntries_cons (k : String) (e : Expr) (es : List (String × Expr)) :
    marshalEntries ((k, e) :: es) = (match Marshal e with
      | .error err => .error err
      | .ok j =>
          match marshalEntries es with
          | .error err => .error err
          | .ok js => .ok ((k, j) :: js)) := rfl

mutual
/-- An error of `json.Marshal` is, or wraps, the captured error of a sentinel in the tree. -/
theorem Marshal_error_wraps :
    ∀ (e : Expr) (err : GoError), Marshal e = .error err →
      ∃ s ∈ sentinels e, err.wraps s = true
  | .nil, err, h => by cases h
  | .value _, err, h => by cases h
  | .invalidExpr e0, err, h => by
      cases h
      exact ⟨e0, by simp [sentinels], GoError.wraps_MarshalerError _ _ _ (GoError.wraps_refl e0)⟩
  | .unescapedArr arr, err, h => by
      rw [Marshal_unescapedArr] at h
      cases hm : marshalList arr with
      | ok js => rw [hm] at h; cases h
      | error err' =>
          rw [hm] at h
          cases h
          exact marshalList_error_wraps arr err hm
  | .unescapedObj obj, err, h => by
      rw [Marshal_unescapedObj] at h
      cases hm : marshalEntries obj with
      | ok ms => rw [hm] at h; cases h
      | error err' =>
          rw [hm] at h
          cases h
          obtain ⟨s, hs, hw⟩ := marshalEntries_error_wraps obj err' hm
          exact ⟨s, hs, GoError.wraps_MarshalerError _ _ _ hw⟩
  | .fn k vals, err, h => by
      rw [Marshal_fn] at h
      cases hm : marshalFields k.fields vals with
      | ok ms => rw [hm] at h; cases h
      | error err' =>
          rw [hm] at h
          cases h
          exact marshalFields_error_wraps k.fields vals err hm
/-- See `Marshal_error_wraps`. -/
theorem marshalList_error_wraps :
    ∀ (es : List Expr) (err : GoError), marshalList es = .error err →
      ∃ s ∈ sentinelsList es, err.wraps s = true
  | [], err, h => by cases h
  | e :: es, err, h => by
      rw [marshalList_cons] at h
      cases he : Marshal e with
      | error err' =>
          rw [he] at h
          cases h
          obtain ⟨s, hs, hw⟩ := Marshal_error_wraps e err he
          exact ⟨s, by simp [sentinelsList, hs], hw⟩
      | ok j =>
          rw [he] at h
          cases hr : marshalList es with
          | ok js => rw [hr] at h; cases h
          | error err' =>
              rw [hr] at h
              cases h
              obtain ⟨s, hs, hw⟩ := marshalList_error_wraps es err hr
              exact ⟨s, by simp [sentinelsList, hs], hw⟩
/-- See `Marshal_error_wraps`. -/
theorem marshalEntries_error_wraps :
    ∀ (es : List (String × Expr)) (err : GoError), marshalEntries es = .error err →
      ∃ s ∈ sentinelsEntries es, err.wraps s = true
  | [], err, h => by cases h
  | (k, e) :: es, err, h => by
      rw [marshalEntries_cons] at h
      cases he : Marshal e with
      | error err' =>
          rw [he] at h
          cases h
          obtain ⟨s, hs, hw⟩ := Marshal_error_wraps e err he
          exact ⟨s, by simp [sentinelsEntries, hs], hw⟩
      | ok j =>
          rw [he] at h
          cases hr : marshalEntries es with
          | ok js => rw [hr] at h; cases h
          | error err' =>
              rw [hr] at h
              cases h
              obtain ⟨s, hs, hw⟩ := marshalEntries_error_wraps es err hr
              exact ⟨s, by simp [sentinelsEntries, hs], hw⟩
/-- See `Marshal_error_wraps`. -/
theorem marshalFields_error_wraps :
    ∀ (decl : List Field) (vals : List Expr) (err : GoError),
      marshalFields decl vals = .error err → ∃ s ∈ sentinelsList vals, err.wraps s = true
  | [], _, err, h => by simp only [marshalFields] at h; cases h
  | _ :: _, [], err, h => by simp only [marshalFields] at h; cases h
  | f :: decl, v :: vals, err, h => by
      rw [marshalFields_cons] at h
      split at h
      · obtain ⟨s, hs, hw⟩ := marshalFields_error_wraps decl vals err h
        exact ⟨s, by simp [sentinelsList, hs], hw⟩
      · cases he : Marshal v with
        | error err' =>
            rw [he] at h
            cases h
            obtain ⟨s, hs, hw⟩ := Marshal_error_wraps v err he
            exact ⟨s, by simp [sentinelsList, hs], hw⟩
        | ok j =>
            rw [he] at h
            cases hr : marshalFields decl vals with
            | ok ms => rw [hr] at h; cases h
            | error err' =>
                rw [hr] at h
                cases h
                obtain ⟨s, hs, hw⟩ := marshalFields_error_wraps decl vals err hr
                exact ⟨s, by simp [sentinelsList, hs], hw⟩
end

mutual
/-- When `json.Marshal` succeeds on a well-formed tree, the tree holds no sentinel. -/
theorem Marshal_ok_sentinels :
    ∀ (e : Expr) (j : Json), wf e = true → Marshal e = .ok j → sentinels e = []
  | .nil, _, _, _ => rfl
  | .value _, _, _, _ => rfl
  | .invalidExpr _, _, _, h => by cases h
  | .unescapedArr arr, j, hwf, h => by
      rw [Marshal_unescapedArr] at h
      cases hm : marshalList arr with
      | error err => rw [hm] at h; cases h
      | ok js => exact marshalList_ok_sentinels arr js hwf hm
  | .unescapedObj obj, j, hwf, h => by
      rw [Marshal_unescapedObj] at h
      cases hm : marshalEntries obj with
      | error err => rw [hm] at h; cases h
      | ok ms => exact marshalEntries_ok_sentinels obj ms hwf hm
  | .fn k vals, j, hwf, h => by
      rw [Marshal_fn] at h
      have hwf' : vals.length = k.fields.length ∧ wfList vals = true := by
        simpa [wf] using hwf
      cases hm : marshalFields k.fields vals with
      | error err => rw [hm] at h; cases h
      | ok ms => exact marshalFields_ok_sentinels k.fields vals ms (Nat.le_of_eq hwf'.1) hwf'.2 hm
/-- See `Marshal_ok_sentinels`. -/
theorem marshalList_ok_sentinels :
    ∀ (es : List Expr) (js : List Json), wfList es = true → marshalList es = .ok js →
      sentinelsList es = []
  | [], _, _, _ => rfl
  | e :: es, js, hwf, h => by
      rw [marshalList_cons] at h
      have hwf' : wf e = true ∧ wfList es = true := by simpa [wfList] using hwf
      cases he : Marshal e with
      | error err => rw [he] at h; cases h
      | ok j =>
          rw [he] at h
          cases hr : marshalList es with
          | error err => rw [hr] at h; cases h
          | ok js' =>
              simp [sentinelsList, Marshal_ok_sentinels e j hwf'.1 he,
                marshalList_ok_sentinels es js' hwf'.2 hr]
/-- See `Marshal_ok_sentinels`. -/
theorem marshalEntries_ok_sentinels :
    ∀ (es : List (String × Expr)) (ms : List (String × Json)), wfEntries es = true →
      marshalEntries es = .ok ms → sentinelsEntries es = []
  | [], _, _, _ => rfl
  | (k, e) :: es, ms, hwf, h => by
      rw [marshalEntries_cons] at h
      have hwf' : wf e = true ∧ wfEntries es = true := by simpa [wfEntries] using hwf
      cases he : Marshal e with
      | error err => rw [he] at h; cases h
      | ok j =>
          rw [he] at h
          cases hr : marshalEntries es with
          | error err => rw [hr] at h; cases h
          | ok ms' =>
              simp [sentinelsEntries, Marshal_ok_sentinels e j hwf'.1 he,
                marshalEntries_ok_sentinels es ms' hwf'.2 hr]
/-- See `Marshal_ok_sentinels`. -/
theorem marshalFields_ok_sentinels :
    ∀ (decl : List Field) (vals : List Expr) (ms : List (String × Json)),
      vals.length ≤ decl.length → wfList vals = true → marshalFields decl vals = .ok ms →
      sentinelsList vals = []
  | _, [], _, _, _, _ => rfl
  | [], _ :: _, _, hlen, _, _ => by simp at hlen
  | f :: decl, v :: vals, ms, hlen, hwf, h => by
      rw [marshalFields_cons] at h
      have hwf' : wf v = true ∧ wfList vals = true := by simpa [wfList] using hwf
      have hlen' : vals.length ≤ decl.length := by simpa using hlen
      split at h
      · rename_i hc
        have hv : v = .nil := by
          cases v <;> simp [Expr.isNil] at hc
          rfl
        subst hv
        simp [sentinelsList, sentinels, marshalFields_ok_sentinels decl vals ms hlen' hwf'.2 h]
      · cases he : Marshal v with
        | error err => rw [he] at h; cases h
        | ok j =>
            rw [he] at h
            cases hr : marshalFields decl vals with
            | error err => rw [hr] at h; cases h
            | ok ms' =>
                simp [sentinelsList, Marshal_ok_sentinels v j hwf'.1 he,
                  marshalFields_ok_sentinels decl vals ms' hlen' hwf'.2 hr]
end

/-! ### The debug serializer -/

theorem String_invalidExpr (rt : Runtime) (err : GoError) :
    Expr.String rt (.invalidExpr err) = .ok invalidExpr.String := rfl

theorem String_unescapedArr (rt : Runtime) (arr : List Expr) :
    Expr.String rt (.unescapedArr arr) = .ok (unescapedArr.String (Expr.args rt arr)) := rfl

theorem args_cons (rt : Runtime) (e : Expr) (es : List Expr) :
    Expr.args rt (e :: es) = Expr.arg rt e :: Expr.args rt es := rfl

theorem args_append (rt : Runtime) :
    ∀ (pre post : List Expr), Expr.args rt (pre ++ post) = Expr.args rt pre ++ Expr.args rt post
  | [], _ => rfl
  | e :: pre, post => by
      rw [List.cons_append, args_cons, args_cons, args_append rt pre post, List.cons_append]

theorem callStrings_cons (a : Arg) (rest : List Arg) :
    callStrings (a :: rest) = (match a.str with
      | .error p => .error p
      | .ok s =>
          match callStrings rest with
          | .error p => .error p
          | .ok ss => .ok (s :: ss)) := rfl

theorem callStrings_append :
    ∀ (as bs : List Arg), callStrings (as ++ bs) = (match callStrings as with
      | .error p => .error p
      | .ok ps =>
          match callStrings bs with
          | .error p => .error p
          | .ok qs => .ok (ps ++ qs))
  | [], bs => by
      show callStrings bs = _
      cases callStrings bs <;> rfl
  | a :: as, bs => by
      rw [List.cons_append, callStrings_cons, callStrings_cons, callStrings_append as bs]
      cases a.str with
      | error p => rfl
      | ok s =>
          cases callStrings as with
          | error p => rfl
          | ok ps => cases callStrings bs <;> rfl

/-! ## Claims -/

/-- C1, the code at the input where it departs from the claim.  `FindStrRegex` never applies
its options: called with the modifier `TS`, whose target `"ts"` it does not declare, it returns a
node all the same, whereas its sibling `FindStr` panics on the same option list (as do all twelve
functions that apply their options, `OptCall.build_undeclared`). -/
theorem FindStrRegex_returns_node_on_undeclared_option :
    FindStrRegex (.str "abc") (.str "b+") [TS (.int 1)]
        = .fn .findStrRegexFn [.value (.StringV "abc"), .value (.StringV "b+")]
      ∧ FindStr (.str "abc") (.str "b+") [TS (.int 1)] = .error .nilDereference :=
  ⟨rfl, rfl⟩

/-- C2.  For every ref, `Get(ref)` without options returns a node, and `json.Marshal` of the
node is the object whose only member is `"get"`, holding the encoding of the wrapped ref (and it
fails exactly when that encoding fails); there is no `"ts"` member. -/
theorem Get_wire_without_options (ref : Host) :
    ∃ fn, Get ref [] = .ok fn ∧
      Marshal fn = (match Marshal (wrap ref) with
        | .ok j => .ok (.obj [("get", j)])
        | .error err => .error err) ∧
      ∀ j, Marshal fn = .ok j → j.keys = ["get"] ∧ j.member "ts" = none := by
  refine ⟨.fn .getFn [wrap ref, .nil], rfl, ?_, ?_⟩
  · rw [Marshal_getFn]
    cases Marshal (wrap ref) <;> rfl
  · intro j hj
    rw [Marshal_getFn] at hj
    cases hr : Marshal (wrap ref) with
    | error err => rw [hr] at hj; cases hj
    | ok jr =>
        rw [hr] at hj
        cases hj
        exact ⟨rfl, rfl⟩

/-- C3.  For every ref and timestamp whose wrapped nodes encode to `jr` and `jt`, the wire
object of `Get(ref, TS(t))` is that of `Get(ref)`, `{"get": jr}`, with the one further member
`"ts"`, holding `jt`. -/
theorem Get_TS_adds_one_key (ref t : Host) (jr jt : Json)
    (hr : Marshal (wrap ref) = .ok jr) (ht : Marshal (wrap t) = .ok jt) :
    ∃ fn0 fn1, Get ref [] = .ok fn0 ∧ Get ref [TS t] = .ok fn1 ∧
      Marshal fn0 = .ok (.obj [("get", jr)]) ∧
      Marshal fn1 = .ok (.obj ([("get", jr)] ++ [("ts", jt)])) := by
  refine ⟨.fn .getFn [wrap ref, .nil], .fn .getFn [wrap ref, wrap t], rfl, rfl, ?_, ?_⟩
  · rw [Marshal_getFn, hr]; rfl
  · rw [Marshal_getFn, hr, ht, wrap_isNil]; rfl

theorem Get_TS_adds_one_key_witness :
    ∃ fn0 fn1, Get (.str "users/1") [] = .ok fn0 ∧ Get (.str "users/1") [TS (.int 5)] = .ok fn1 ∧
      Marshal fn0 = .ok (.obj [("get", .lit (.StringV "users/1"))]) ∧
      Marshal fn1 = .ok (.obj ([("get", .lit (.StringV "users/1"))] ++ [("ts", .lit (.LongV 5))])) :=
  Get_TS_adds_one_key (.str "users/1") (.int 5) _ _ rfl rfl

/-- C4.  For every struct of functions.go whose encoding succeeds,
the keys of the wire object are, in order, the wire names of the required fields and of the
optional (`omitempty`) fields that hold a value: a wire name is a key exactly when its field is
required or populated, so an unset optional field gives no key.  The embedded `fnApply` is not
among the fields and gives no key. -/
theorem struct_wire_keys (k : FnKind) (vals : List Expr) (j : Json)
    (h : Marshal (.fn k vals) = .ok j) :
    j.keys = expectedKeys k.fields vals ∧
      ∀ (i : Nat) (f : Field) (v : Expr), k.fields[i]? = some f → vals[i]? = some v →
        (f.json ∈ j.keys ↔ (f.omitempty = false ∨ v.isNil = false)) := by
  rw [Marshal_fn] at h
  cases hm : marshalFields k.fields vals with
  | error err => rw [hm] at h; cases h
  | ok members =>
      rw [hm] at h
      cases h
      have hk : (Json.obj members).keys = expectedKeys k.fields vals :=
        marshalFields_keys k.fields vals members hm
      refine ⟨hk, fun i f v hf hv => ?_⟩
      rw [hk]
      exact mem_expectedKeys k.fields vals k.json_names_nodup i f v hf hv

theorem struct_wire_keys_witness :
    (Json.obj [("after", .lit (.LongV 1)), ("paginate", .lit (.StringV "idx")),
        ("size", .lit (.LongV 2))]).keys
      = expectedKeys FnKind.paginateFn.fields
          [.value (.LongV 1), .nil, .nil, .value (.StringV "idx"), .value (.LongV 2), .nil, .nil] ∧
      ∀ (i : Nat) (f : Field) (v : Expr), FnKind.paginateFn.fields[i]? = some f →
        [Expr.value (.LongV 1), .nil, .nil, .value (.StringV "idx"), .value (.LongV 2), .nil,
          .nil][i]? = some v →
        (f.json ∈ (Json.obj [("after", .lit (.LongV 1)), ("paginate", .lit (.StringV "idx")),
            ("size", .lit (.LongV 2))]).keys ↔ (f.omitempty = false ∨ v.isNil = false)) :=
  struct_wire_keys .paginateFn
    [.value (.LongV 1), .nil, .nil, .value (.StringV "idx"), .value (.LongV 2), .nil, .nil]
    _ rfl

/-- The wire keys of a `paginateFn`: whichever of the six optional fields are populated, the
keys are `"paginate"` and the wire names of the populated ones, in declaration order. -/
theorem Paginate_wire_keys (after before events paginate size sources ts : Expr) (j : Json)
    (h : Marshal (.fn .paginateFn [after, before, events, paginate, size, sources, ts]) = .ok j) :
    j.keys = (if after.isNil then [] else ["after"]) ++ (if before.isNil then [] else ["before"])
      ++ (if events.isNil then [] else ["events"]) ++ ["paginate"]
      ++ (if size.isNil then [] else ["size"]) ++ (if sources.isNil then [] else ["sources"])
      ++ (if ts.isNil then [] else ["ts"]) := by
  rw [Marshal_fn] at h
  cases hm : marshalFields FnKind.paginateFn.fields
      [after, before, events, paginate, size, sources, ts] with
  | error err => rw [hm] at h; cases h
  | ok members =>
      rw [hm] at h
      cases h
      have hk := marshalFields_keys _ _ members hm
      show members.map Prod.fst = _
      rw [hk]
      show expectedKeys [⟨"After", "after", true⟩, ⟨"Before", "before", true⟩,
        ⟨"Events", "events", true⟩, ⟨"Paginate", "paginate", false⟩, ⟨"Size", "size", true⟩,
        ⟨"Sources", "sources", true⟩, ⟨"TS", "ts", true⟩] _ = _
      simp only [expectedKeys_cons, expectedKeys]
      cases after.isNil <;> cases before.isNil <;> cases events.isNil <;> cases size.isNil <;>
        cases sources.isNil <;> cases ts.isNil <;> rfl

/-- C5.  For each of the twelve functions that apply their options, and every list of modifiers
that target pairwise different declared option names, every permutation of the list builds the
same node (and the construction succeeds). -/
theorem options_order_irrelevant (c : OptCall) (ms ms' : List Modifier) (hperm : ms.Perm ms')
    (hnodup : (ms.map Modifier.target).Nodup) (hdecl : ∀ x ∈ ms, x.target ∈ c.declared) :
    c.build (ms.map Modifier.option) = c.build (ms'.map Modifier.option) ∧
      ∃ fn, c.build (ms.map Modifier.option) = .ok fn := by
  have hdecl' : ∀ x ∈ ms', x.target ∈ c.declared := fun x hx => hdecl x (hperm.mem_iff.mpr hx)
  rw [OptCall.build_eq, OptCall.build_eq, applyOptionals_declared c.mappings ms c.init hdecl,
    applyOptionals_declared c.mappings ms' c.init hdecl']
  refine ⟨congrArg Except.ok (hperm.foldl_eq' ?_ c.init), _, rfl⟩
  intro x hx y hy z
  by_cases hxy : x.target = y.target
  · have : x = y := List.inj_on_of_nodup_map hnodup hx hy hxy
    subst this
    rfl
  · obtain ⟨p, hp⟩ := lookup_declared x.target c.mappings (hdecl x hx)
    obtain ⟨q, hq⟩ := lookup_declared y.target c.mappings (hdecl y hy)
    have hpq : p ≠ q := by
      intro h
      have := List.inj_on_of_nodup_map c.mappings_pointers_nodup
        (lookup_mem _ _ _ hp) (lookup_mem _ _ _ hq) h
      exact hxy (congrArg Prod.fst this)
    simp only [hp, hq, Option.getD_some]
    exact set_comm z p q _ _ hpq

theorem options_order_irrelevant_witness :
    Paginate (.str "idx") [After (.int 1), Size (.int 2)]
        = Paginate (.str "idx") [Size (.int 2), After (.int 1)] ∧
      ∃ fn, Paginate (.str "idx") [After (.int 1), Size (.int 2)] = .ok fn :=
  options_order_irrelevant (.Paginate (.str "idx")) [.After (.int 1), .Size (.int 2)]
    [.Size (.int 2), .After (.int 1)] (List.Perm.swap _ _ _) (by decide)
    (by intro x hx; simp at hx; rcases hx with rfl | rfl <;> decide)

/-- The example of two options of `Paginate` in either order, for every set, cursor and size. -/
theorem Paginate_After_Size_comm (s a n : Host) :
    Paginate s [After a, Size n] = Paginate s [Size n, After a] :=
  rfl

/-- C6.  When an earlier and a later modifier of the option list target the same declared option
name, construction succeeds and the node is the one built without the earlier modifier: the
field holds the value of the later one. -/
theorem later_modifier_wins (c : OptCall) (l1 l2 l3 : List Modifier) (m1 m2 : Modifier)
    (ht : m1.target = m2.target)
    (hdecl : ∀ x ∈ l1 ++ m1 :: (l2 ++ m2 :: l3), x.target ∈ c.declared) :
    c.build ((l1 ++ m1 :: (l2 ++ m2 :: l3)).map Modifier.option)
        = c.build ((l1 ++ (l2 ++ m2 :: l3)).map Modifier.option) ∧
      ∃ fn, c.build ((l1 ++ m1 :: (l2 ++ m2 :: l3)).map Modifier.option) = .ok fn := by
  have hdecl' : ∀ x ∈ l1 ++ (l2 ++ m2 :: l3), x.target ∈ c.declared := by
    intro x hx
    apply hdecl
    simp only [List.mem_append, List.mem_cons] at hx ⊢
    tauto
  rw [OptCall.build_eq, OptCall.build_eq, applyOptionals_declared c.mappings _ c.init hdecl,
    applyOptionals_declared c.mappings _ c.init hdecl']
  refine ⟨congrArg Except.ok ?_, _, rfl⟩
  simp only [List.foldl_append, List.foldl_cons, ht]
  rw [foldl_set_overwritten]

theorem later_modifier_wins_witness :
    Get (.str "users/1") [TS (.int 1), TS (.int 2)] = Get (.str "users/1") [TS (.int 2)] ∧
      ∃ fn, Get (.str "users/1") [TS (.int 1), TS (.int 2)] = .ok fn :=
  later_modifier_wins (.Get (.str "users/1")) [] [] [] (.TS (.int 1)) (.TS (.int 2)) rfl
    (by intro x hx; simp at hx; rcases hx with rfl | rfl <;> decide)

/-- Two `TS` modifiers on `Get`: the node is the one built from the second alone. -/
theorem Get_TS_TS (ref a b : Host) :
    Get ref [TS a, TS b] = Get ref [TS b] ∧
      Get ref [TS a, TS b] = .ok (structLit .getFn [("Get", wrap ref), ("TS", wrap b)]) :=
  ⟨rfl, rfl⟩

/-- C7.  `Paginate(s1, After(a))` and `Paginate(s2, Size(n))` each build the node that holds
their own arguments only: the first has `Size` nil, the second has `After` nil, and building
them one after the other, in either order, gives the same two nodes. -/
theorem Paginate_nodes_isolated (s1 s2 a n : Host) :
    ∃ fn1 fn2,
      Paginate s1 [After a] = .ok fn1 ∧ Paginate s2 [Size n] = .ok fn2 ∧
      fn1 = structLit .paginateFn [("Paginate", wrap s1), ("After", wrap a)] ∧
      fn2 = structLit .paginateFn [("Paginate", wrap s2), ("Size", wrap n)] ∧
      fn1.get "Size" = .nil ∧ fn2.get "After" = .nil ∧
      fn1.get "After" = wrap a ∧ fn2.get "Size" = wrap n ∧
      (Paginate s1 [After a] >>= fun x => Paginate s2 [Size n] >>= fun y => pure (x, y))
        = .ok (fn1, fn2) ∧
      (Paginate s2 [Size n] >>= fun y => Paginate s1 [After a] >>= fun x => pure (x, y))
        = .ok (fn1, fn2) :=
  ⟨_, _, rfl, rfl, rfl, rfl, rfl, rfl, rfl, rfl, rfl, rfl⟩

/-- C8.  For every error `e`, the method `MarshalJSON` of the sentinel `invalidExpr{e}` returns
no bytes and exactly the error `e`; `json.Marshal` of the sentinel fails with the
`MarshalerError` whose `Unwrap` is `e`. -/
theorem invalidExpr_MarshalJSON_returns_err (e : GoError) :
    invalidExpr.MarshalJSON e = .error e ∧
      Marshal (.invalidExpr e) = .error (.MarshalerError "faunadb.invalidExpr" e) ∧
      (GoError.MarshalerError "faunadb.invalidExpr" e).Unwrap = some e :=
  ⟨rfl, rfl, rfl⟩

/-- C9.  For every well-formed AST that holds an error sentinel (as a field of a struct, an
element of an `unescapedArr` or a value of an `unescapedObj`, at any depth), `json.Marshal`
returns no JSON but an error, and that error is or wraps (`MarshalerError`) the captured error of
a sentinel in the AST. -/
theorem sentinel_fails_Marshal (e : Expr) (hwf : wf e = true) (hs : sentinels e ≠ []) :
    ∃ err s, Marshal e = .error err ∧ s ∈ sentinels e ∧ err.wraps s = true := by
  cases hm : Marshal e with
  | ok j => exact absurd (Marshal_ok_sentinels e j hwf hm) hs
  | error err =>
      obtain ⟨s, hsm, hw⟩ := Marshal_error_wraps e err hm
      exact ⟨err, s, rfl, hsm, hw⟩

theorem sentinel_fails_Marshal_witness :
    ∃ err s,
      Marshal (.fn .getFn [.unescapedArr [.value .NullV,
          .unescapedObj [("a", .invalidExpr (.errorString "bad"))]], .nil]) = .error err ∧
      s ∈ sentinels (.fn .getFn [.unescapedArr [.value .NullV,
          .unescapedObj [("a", .invalidExpr (.errorString "bad"))]], .nil]) ∧
      err.wraps s = true :=
  sentinel_fails_Marshal _ rfl (by simp [sentinels, sentinelsList, sentinelsEntries])

/-- C10.  For every error `e` the `String` method of `invalidExpr{e}` returns the fixed string
`"invalidExpr"` and does not panic.  The same text stands for the sentinel where it is an element
of an `unescapedArr`, where it is an argument of `printFn` (whose call fails only if the `String`
method of another argument panics) and where `fmt` prints it under `%s`; for instance `Abort` and
`Get` of a sentinel render as `Abort(invalidExpr)` and `Get(invalidExpr)`. -/
theorem sentinel_String_fixed (rt : Runtime) (e : GoError) :
    Expr.String rt (.invalidExpr e) = .ok "invalidExpr" ∧
      (∀ pre post : List Expr,
        Expr.String rt (.unescapedArr (pre ++ .invalidExpr e :: post)) =
          .ok ("Arr\x7b" ++ strings.Join ((Expr.args rt pre).map (fmtVerb "s")
            ++ "invalidExpr" :: (Expr.args rt post).map (fmtVerb "s")) ", " ++ "\x7d")) ∧
      (∀ (name : String) (pre post : List Expr),
        printFn rt name (Expr.args rt (pre ++ .invalidExpr e :: post)) =
          (match callStrings (Expr.args rt pre) with
            | .error p => .error p
            | .ok ps =>
                match callStrings (Expr.args rt post) with
                | .error p => .error p
                | .ok qs =>
                    .ok (name ++ "(" ++ strings.Join (ps ++ "invalidExpr" :: qs) ", " ++ ")"))) ∧
      fmtVerb "s" (Expr.arg rt (.invalidExpr e)) = "invalidExpr" ∧
      Sprintf1 "TS(%s)" (Expr.arg rt (.invalidExpr e)) = "TS(invalidExpr)" ∧
      Expr.String rt (Abort (.expr (.invalidExpr e))) = .ok "Abort(invalidExpr)" ∧
      (Get (.expr (.invalidExpr e)) []).map (Expr.String rt) = .ok (.ok "Get(invalidExpr)") := by
  refine ⟨rfl, fun pre post => ?_, fun name pre post => ?_, rfl, rfl, rfl, ?_⟩
  · rw [String_unescapedArr, args_append, args_cons]
    simp only [unescapedArr.String, List.map_append, List.map_cons]
    rfl
  · rw [args_append, args_cons]
    show fnCallBasic name _ = _
    unfold fnCallBasic
    rw [callStrings_append, callStrings_cons]
    cases callStrings (Expr.args rt pre) with
    | error p => rfl
    | ok ps =>
        cases callStrings (Expr.args rt post) with
        | error p => rfl
        | ok qs => rfl
  · show Except.ok (Expr.String rt (.fn .getFn [.invalidExpr e, .nil])) = _
    congr 1
    show printFnWithOpts rt "Get" [("TS(%s)", Arg.nil)] [Expr.arg rt (.invalidExpr e)] = _
    show (Except.ok ("Get" ++ "(" ++ strings.Join (["invalidExpr"] ++
      (rt.range [("TS(%s)", Arg.nil)]).filterMap fun kv =>
        if kv.2.val.isNil then none else some (Sprintf1 kv.1 kv.2)) ", " ++ ")")
        : Except Panic String) = _
    have hnone : ((rt.range [("TS(%s)", Arg.nil)]).filterMap fun kv =>
        if kv.2.val.isNil then none else some (Sprintf1 kv.1 kv.2)) = [] := by
      rw [List.filterMap_eq_nil_iff]
      intro kv hkv
      simp only [Runtime.range, List.mem_filterMap] at hkv
      obtain ⟨i, _, hi⟩ := hkv
      have hmem : kv ∈ [("TS(%s)", Arg.nil)] := List.getElem?_mem hi
      simp only [List.mem_singleton] at hmem
      subst hmem
      rfl
    rw [hnone]
    rfl

/-! ### Calls of printFn -/

theorem arg_val (rt : Runtime) (e : Expr) : (Expr.arg rt e).val = e := by
  cases e <;> rfl

theorem arg_str (rt : Runtime) (e : Expr) : (Expr.arg rt e).str = Expr.String rt e := rfl

theorem isNull_iff (v : Expr) : v.isNull = true ↔ v = .value .NullV := by
  constructor
  · intro h
    cases v with
    | value w => cases w <;> simp [Expr.isNull] at h ⊢
    | _ => simp [Expr.isNull] at h
  · intro h
    subst h
    rfl

/-- The calls `v.String()` succeed together when each succeeds. -/
theorem callStrings_ok (rt : Runtime) :
    ∀ (es : List Expr) (strs : List String),
      List.Forall₂ (fun e s => Expr.String rt e = .ok s) es strs →
      callStrings (Expr.args rt es) = .ok strs
  | [], _, h => by cases h; rfl
  | e :: es, _, h => by
      cases h with
      | cons he hes =>
          rw [args_cons, callStrings_cons, arg_str, he, callStrings_ok rt es _ hes]

theorem printFn_eq (rt : Runtime) (name : String) (args : List Arg) :
    printFn rt name args = (match callStrings args with
      | .error p => .error p
      | .ok strArgs => .ok (name ++ "(" ++ strings.Join strArgs ", " ++ ")")) := rfl

theorem printFn_one (rt : Runtime) (name : String) (e : Expr) (s : String)
    (h : Expr.String rt e = .ok s) :
    printFn rt name [Expr.arg rt e] = .ok (name ++ "(" ++ s ++ ")") := by
  rw [printFn_eq, callStrings_cons, arg_str, h]
  rfl

theorem printFn_two (rt : Runtime) (name : String) (e1 e2 : Expr) (s1 s2 : String)
    (h1 : Expr.String rt e1 = .ok s1) (h2 : Expr.String rt e2 = .ok s2) :
    printFn rt name [Expr.arg rt e1, Expr.arg rt e2]
      = .ok (name ++ "(" ++ s1 ++ ", " ++ s2 ++ ")") := by
  rw [printFn_eq, callStrings_cons, callStrings_cons, arg_str, arg_str, h1, h2]
  show Except.ok (name ++ "(" ++ strings.Join [s1, s2] ", " ++ ")") = _
  simp [strings.Join, String.intercalate, String.intercalate.go, String.append_assoc]

theorem printScopedFn_unscoped (rt : Runtime) (name : String) (arg1 : Arg) :
    printScopedFn rt name arg1 Arg.nil = printFn rt name [arg1] := rfl

theorem printScopedFn_scoped (rt : Runtime) (name : String) (arg1 : Arg) (scope : Host) :
    printScopedFn rt name arg1 (Expr.arg rt (wrap scope))
      = printFn rt ("Scoped" ++ name) [arg1, Expr.arg rt (wrap scope)] := by
  unfold printScopedFn
  rw [arg_val, wrap_isNil]
  rfl

/-! ## Claims: the debug serializer -/

/-- C11.  When the debug renderings of the wrapped ref and terms are `r'` and `t'`, the node
`Match(r)`, whose terms field is unset, renders as `Match(r')`, and the node `MatchTerm(r, t)`,
whose terms field is set, renders as `MatchTerms(r', t')`. -/
theorem Match_String (rt : Runtime) (r t : Host) (r' t' : String)
    (hr : Expr.String rt (wrap r) = .ok r') (ht : Expr.String rt (wrap t) = .ok t') :
    (Match r).get "Terms" = .nil ∧
      Expr.String rt (Match r) = .ok ("Match(" ++ r' ++ ")") ∧
      (MatchTerm r t).get "Terms" = wrap t ∧
      Expr.String rt (MatchTerm r t) = .ok ("MatchTerms(" ++ r' ++ ", " ++ t' ++ ")") := by
  refine ⟨rfl, ?_, rfl, ?_⟩
  · show printFn rt "Match" [Expr.arg rt (wrap r)] = _
    exact printFn_one rt "Match" (wrap r) r' hr
  · show matchFn.String rt (Expr.arg rt (wrap r)) (Expr.arg rt (wrap t)) = _
    unfold matchFn.String
    rw [arg_val, wrap_isNil]
    exact printFn_two rt "MatchTerms" (wrap r) (wrap t) r' t' hr ht

theorem Match_String_witness :
    (Match (.expr Classes)).get "Terms" = .nil ∧
      Expr.String (Runtime.inOrder (fun _ => "") id (.ok false)) (Match (.expr Classes))
        = .ok ("Match(" ++ "Classes()" ++ ")") ∧
      (MatchTerm (.expr Classes) (.expr Now)).get "Terms" = wrap (.expr Now) ∧
      Expr.String (Runtime.inOrder (fun _ => "") id (.ok false))
          (MatchTerm (.expr Classes) (.expr Now))
        = .ok ("MatchTerms(" ++ "Classes()" ++ ", " ++ "Now()" ++ ")") :=
  Match_String _ (.expr Classes) (.expr Now) "Classes()" "Now()" rfl rfl

/-- C12.  For each of the six pairs (Database, Index, Class, Collection, Function, Role), when
the debug renderings of the wrapped name and scope are `n'` and `s'`, the unscoped constructor
renders as `Name(n')` and the scoped one as `ScopedName(n', s')`. -/
theorem scoped_ref_String (rt : Runtime) (c : ScopedRef) (n s : Host) (n' s' : String)
    (hn : Expr.String rt (wrap n) = .ok n') (hs : Expr.String rt (wrap s) = .ok s') :
    Expr.String rt (c.unscoped n) = .ok (c.name ++ "(" ++ n' ++ ")") ∧
      Expr.String rt (c.scoped n s) = .ok ("Scoped" ++ c.name ++ "(" ++ n' ++ ", " ++ s' ++ ")") := by
  cases c <;> exact
    ⟨(printScopedFn_unscoped rt _ _).trans (printFn_one rt _ (wrap n) n' hn),
     (printScopedFn_scoped rt _ _ s).trans (printFn_two rt _ (wrap n) (wrap s) n' s' hn hs)⟩

theorem scoped_ref_String_witness :
    Expr.String (Runtime.inOrder (fun _ => "") id (.ok false)) (Database (.expr Now))
        = .ok ("Database" ++ "(" ++ "Now()" ++ ")") ∧
      Expr.String (Runtime.inOrder (fun _ => "") id (.ok false))
          (ScopedDatabase (.expr Now) (.expr Identity))
        = .ok ("Scoped" ++ "Database" ++ "(" ++ "Now()" ++ ", " ++ "Identity()" ++ ")") :=
  scoped_ref_String _ .Database (.expr Now) (.expr Identity) "Now()" "Identity()" rfl rfl

theorem printKeyScopedFn_eq (rt : Runtime) (name : String) (v : Expr) :
    printKeyScopedFn rt name (Expr.arg rt v) =
      (if v.isNull then .ok (name ++ "()")
       else
        match Expr.String rt v with
        | .ok s => .ok ("Scoped" ++ name ++ "(" ++ s ++ ")")
        | .error p => .error p) := by
  unfold printKeyScopedFn
  rw [arg_val]
  cases hv : v.isNull with
  | true =>
      show Except.ok (name ++ "(" ++ "" ++ ")") = Except.ok (name ++ "()")
      simp [String.append_assoc]
  | false =>
      show printFn rt ("Scoped" ++ name) [Expr.arg rt v] = _
      cases hs : Expr.String rt v with
      | error p =>
          rw [printFn_eq, callStrings_cons, arg_str, hs]
          rfl
      | ok s =>
          rw [printFn_one rt _ v s hs]
          rfl

theorem Runtime.range_nil {α : Type} (rt : Runtime) : rt.range ([] : List α) = [] := by
  simp [Runtime.range]

theorem String_unescapedObj_nil (rt : Runtime) :
    Expr.String rt (.unescapedObj []) = .ok "Obj\x7b\x7d" := by
  show Except.ok (unescapedObj.String rt []) = _
  unfold unescapedObj.String
  rw [Runtime.range_nil]
  rfl

theorem scoped_ne_plain (name s : String) : "Scoped" ++ name ++ "(" ++ s ++ ")" ≠ name ++ "()" := by
  intro h
  have hl := congrArg String.length h
  simp only [String.length_append] at hl
  have h6 : "Scoped".length = 6 := rfl
  have h1 : "(".length = 1 := rfl
  have h1' : ")".length = 1 := rfl
  have h2 : "()".length = 2 := rfl
  omega

/-- C13.  For each of the nine native sets, the node with field value `v` renders as `Name()`
when `v` is the null node and as `ScopedName(v')` otherwise, `v'` being the rendering of `v`: it
renders as `Name()` if and only if the field is exactly the null node.  The constructor without
arguments stores the null node, the scoped one the wrapped scope; an empty array and an empty
object give `ScopedName(Arr{})` and `ScopedName(Obj{})`. -/
theorem native_set_String (rt : Runtime) (c : NativeSet) (v : Expr) :
    Expr.String rt (.fn c.kind [v]) =
        (if v.isNull then .ok (c.name ++ "()")
         else
          match Expr.String rt v with
          | .ok s => .ok ("Scoped" ++ c.name ++ "(" ++ s ++ ")")
          | .error p => .error p) ∧
      (Expr.String rt (.fn c.kind [v]) = .ok (c.name ++ "()") ↔ v = .value .NullV) ∧
      c.native = .fn c.kind [.value .NullV] ∧
      Expr.String rt c.native = .ok (c.name ++ "()") ∧
      (∀ scope : Host, c.scoped scope = .fn c.kind [wrap scope]) ∧
      Expr.String rt (c.scoped (.slice [])) = .ok ("Scoped" ++ c.name ++ "(Arr\x7b\x7d)") ∧
      Expr.String rt (c.scoped (.map [])) = .ok ("Scoped" ++ c.name ++ "(Obj\x7b\x7d)") := by
  have hmain : Expr.String rt (.fn c.kind [v]) =
      (if v.isNull then .ok (c.name ++ "()")
       else
        match Expr.String rt v with
        | .ok s => .ok ("Scoped" ++ c.name ++ "(" ++ s ++ ")")
        | .error p => .error p) := by
    cases c <;> exact printKeyScopedFn_eq rt _ v
  refine ⟨hmain, ?_, ?_, ?_, ?_, ?_, ?_⟩
  · rw [hmain, ← isNull_iff]
    cases hv : v.isNull with
    | true => simp
    | false =>
        simp only [Bool.false_eq_true, if_false, iff_false]
        cases Expr.String rt v with
        | error p => simp
        | ok s =>
            intro h
            exact scoped_ne_plain c.name s (Except.ok.inj h)
  · cases c <;> rfl
  · cases c <;> rfl
  · intro scope
    cases c <;> rfl
  · cases c <;> rfl
  · have h := printKeyScopedFn_eq rt c.name (.unescapedObj [])
    rw [String_unescapedObj_nil] at h
    cases c <;> exact h

/-- C14.  For every name and every list of arguments whose `String` methods return
`s1, ..., sn`, `printFn(name, a1, ..., an)` is `name(s1, ..., sn)`, the renderings joined by
`", "` in order; without arguments it is `name()`, which is also what `printNoArgsFn(name)`
returns. -/
theorem printFn_renders (rt : Runtime) (name : String) (args : List Expr) (strs : List String)
    (h : List.Forall₂ (fun a s => Expr.String rt a = .ok s) args strs) :
    printFn rt name (Expr.args rt args) = .ok (name ++ "(" ++ ", ".intercalate strs ++ ")") ∧
      printFn rt name [] = .ok (name ++ "()") ∧
      printNoArgsFn rt name = .ok (name ++ "()") := by
  refine ⟨?_, ?_, ?_⟩
  · rw [printFn_eq, callStrings_ok rt args strs h]
    rfl
  · show Except.ok (name ++ "(" ++ "" ++ ")") = Except.ok (name ++ "()")
    simp [String.append_assoc]
  · show Except.ok (name ++ "(" ++ "" ++ ")") = Except.ok (name ++ "()")
    simp [String.append_assoc]

theorem printFn_renders_witness :
    printFn (Runtime.inOrder (fun _ => "") id (.ok false)) "If"
        (Expr.args (Runtime.inOrder (fun _ => "") id (.ok false)) [Now, Identity, Classes])
        = .ok ("If" ++ "(" ++ ", ".intercalate ["Now()", "Identity()", "Classes()"] ++ ")") ∧
      printFn (Runtime.inOrder (fun _ => "") id (.ok false)) "If" [] = .ok ("If" ++ "()") ∧
      printNoArgsFn (Runtime.inOrder (fun _ => "") id (.ok false)) "If" = .ok ("If" ++ "()") :=
  printFn_renders _ "If" [Now, Identity, Classes] ["Now()", "Identity()", "Classes()"]
    (.cons rfl (.cons rfl (.cons rfl .nil)))

/-- C15, the code where it departs from the claim.  The `String` methods of `mapFn`, `takeFn`,
`dropFn`, `createFn`, `updateFn`, `replaceFn`, `repeatFn`, `epochFn`, `hypotFn`, `powFn` and
`joinFn` hand a single field to `printFn`, so the rendering has one argument and the other
argument of the constructor is absent from it: `Map(Databases(), Identity())` renders as
`Map(Identity())`. -/
theorem two_parameters_one_rendered (rt : Runtime) (x y : Host) :
    Expr.String rt (Map x y) = printFn rt "Map" [Expr.arg rt (wrap y)] ∧
      Expr.String rt (Take x y) = printFn rt "Take" [Expr.arg rt (wrap x)] ∧
      Expr.String rt (Drop x y) = printFn rt "Drop" [Expr.arg rt (wrap x)] ∧
      Expr.String rt (Create x y) = printFn rt "Create" [Expr.arg rt (wrap x)] ∧
      Expr.String rt (Update x y) = printFn rt "Update" [Expr.arg rt (wrap x)] ∧
      Expr.String rt (Replace x y) = printFn rt "Replace" [Expr.arg rt (wrap x)] ∧
      Expr.String rt (Repeat x y) = printFn rt "Repeat" [Expr.arg rt (wrap x)] ∧
      Expr.String rt (Epoch x y) = printFn rt "Epoch" [Expr.arg rt (wrap x)] ∧
      Expr.String rt (Hypot x y) = printFn rt "Hypot" [Expr.arg rt (wrap x)] ∧
      Expr.String rt (Pow x y) = printFn rt "Pow" [Expr.arg rt (wrap x)] ∧
      Expr.String rt (Join x y) = printFn rt "Join" [Expr.arg rt (wrap x)] ∧
      Expr.String rt (Map (.expr Databases) (.expr Identity)) = .ok "Map(Identity())" ∧
      Expr.String rt (Map (.expr Databases) (.expr Identity))
        ≠ .ok "Map(Databases(), Identity())" :=
  ⟨rfl, rfl, rfl, rfl, rfl, rfl, rfl, rfl, rfl, rfl, rfl, rfl, by
    show Except.ok "Map(Identity())" ≠ Except.ok "Map(Databases(), Identity())"
    exact fun h => absurd (Except.ok.inj h) (by decide)⟩

/-- C16, the code where it departs from the claim.  `Foreach(coll, lambda)` and
`Filter(coll, lambda)` store the lambda in the field named after the function, and the `String`
methods print that field first: the rendering has the lambda before the collection, the reverse
of the order of the parameters. -/
theorem Foreach_Filter_arguments_swapped (rt : Runtime) (coll lambda : Host) :
    Expr.String rt (Foreach coll lambda)
        = printFn rt "Foreach" [Expr.arg rt (wrap lambda), Expr.arg rt (wrap coll)] ∧
      Expr.String rt (Filter coll lambda)
        = printFn rt "Filter" [Expr.arg rt (wrap lambda), Expr.arg rt (wrap coll)] ∧
      Expr.String rt (Foreach (.expr Databases) (.expr Identity))
        = .ok "Foreach(Identity(), Databases())" ∧
      Expr.String rt (Foreach (.expr Databases) (.expr Identity))
        ≠ .ok "Foreach(Databases(), Identity())" ∧
      Expr.String rt (Filter (.expr Databases) (.expr Identity))
        = .ok "Filter(Identity(), Databases())" ∧
      Expr.String rt (Filter (.expr Databases) (.expr Identity))
        ≠ .ok "Filter(Databases(), Identity())" :=
  ⟨rfl, rfl, rfl, by
    show Except.ok "Foreach(Identity(), Databases())" ≠ Except.ok "Foreach(Databases(), Identity())"
    exact fun h => absurd (Except.ok.inj h) (by decide), rfl, by
    show Except.ok "Filter(Identity(), Databases())" ≠ Except.ok "Filter(Databases(), Identity())"
    exact fun h => absurd (Except.ok.inj h) (by decide)⟩

/-! ### Calls of printFnWithOpts -/

/-- An entry that a `range` loop visits is an entry of the map. -/
theorem Runtime.mem_of_mem_range {α : Type} (rt : Runtime) (l : List α) (x : α)
    (h : x ∈ rt.range l) : x ∈ l := by
  simp only [Runtime.range, List.mem_filterMap] at h
  obtain ⟨i, _, hi⟩ := h
  exact List.getElem?_mem hi

/-- The case `optArgs` of `_fnCall` on a mapping that is not empty: the required arguments, then
one token for each entry whose value is not nil. -/
theorem printFnWithOpts_eq (rt : Runtime) (name : String) (mapping : List (String × Arg))
    (args : List Arg) (hne : mapping.isEmpty = false) :
    printFnWithOpts rt name mapping args =
      match callStrings args with
      | .error p => .error p
      | .ok strArgs =>
          .ok (name ++ "(" ++ strings.Join (strArgs ++ (rt.range mapping).filterMap fun kv =>
            if kv.2.val.isNil then none else some (Sprintf1 kv.1 kv.2)) ", " ++ ")") := by
  cases mapping with
  | nil => cases hne
  | cons kv rest => rfl

/-- With every optional field nil, `printFnWithOpts` is `printFn` on the required arguments. -/
theorem printFnWithOpts_unset (rt : Runtime) (name : String) (mapping : List (String × Arg))
    (args : List Arg) (hne : mapping.isEmpty = false)
    (hnil : mapping.all (fun kv => kv.2.val.isNil) = true) :
    printFnWithOpts rt name mapping args = printFn rt name args := by
  have hnone : ((rt.range mapping).filterMap fun kv =>
      if kv.2.val.isNil then none else some (Sprintf1 kv.1 kv.2)) = [] := by
    rw [List.filterMap_eq_nil_iff]
    intro kv hkv
    have h := List.all_eq_true.mp hnil kv (rt.mem_of_mem_range _ _ hkv)
    simp only [h, if_true]
  rw [printFnWithOpts_eq rt name mapping args hne, hnone, printFn_eq]
  cases callStrings args with
  | error p => rfl
  | ok strArgs => simp only [List.append_nil]

/-- C17.  With no option, each of the twelve functions that take options builds a node whose
rendering is `printFn` of the function's name and its required arguments, in the order of the
parameters; the same holds for `SelectAll`, whose `Default` field no function sets.  So
`Get(r)` renders as `Get(<r>)` and `Paginate(s)` as `Paginate(<s>)` when the argument renders,
and a panic of the argument is the outcome otherwise. -/
theorem no_option_no_suffix (rt : Runtime) (c : OptCall) (path value r : Host) :
    stringOf rt (c.build []) = printFn rt c.name (Expr.args rt c.required) ∧
      Expr.String rt (SelectAll path value)
        = printFn rt "SelectAll" (Expr.args rt [wrap path, wrap value]) ∧
      stringOf rt (Get r []) =
        (match Expr.String rt (wrap r) with
          | .ok s => .ok ("Get(" ++ s ++ ")")
          | .error p => .error p) ∧
      stringOf rt (Paginate r []) =
        (match Expr.String rt (wrap r) with
          | .ok s => .ok ("Paginate(" ++ s ++ ")")
          | .error p => .error p) := by
  refine ⟨?_, ?_, ?_, ?_⟩
  · cases c with
    | Get ref =>
        exact printFnWithOpts_unset rt "Get" [("TS(%s)", Arg.nil)] [Expr.arg rt (wrap ref)]
          rfl rfl
    | Exists ref =>
        exact printFnWithOpts_unset rt "Exists" [("TS(%s)", Arg.nil)] [Expr.arg rt (wrap ref)]
          rfl rfl
    | Paginate set =>
        exact printFnWithOpts_unset rt "Paginate"
          [("After(%s)", Arg.nil), ("Before(%s)", Arg.nil), ("Events(%s)", Arg.nil),
            ("Size(%s)", Arg.nil), ("Sources(%s)", Arg.nil), ("TS(%s)", Arg.nil)]
          [Expr.arg rt (wrap set)] rfl rfl
    | Concat terms =>
        exact printFnWithOpts_unset rt "Concat" [("Separator(%s)", Arg.nil)]
          [Expr.arg rt (wrap terms)] rfl rfl
    | Casefold str =>
        exact printFnWithOpts_unset rt "Casefold" [("%s", Arg.nil)] [Expr.arg rt (wrap str)]
          rfl rfl
    | FindStr str find =>
        exact printFnWithOpts_unset rt "FindStr" [("Start", Arg.nil)]
          [Expr.arg rt (wrap str), Expr.arg rt (wrap find)] rfl rfl
    | ReplaceStrRegex value pattern replace =>
        exact printFnWithOpts_unset rt "ReplaceStrRegex" [("OnlyFirst()", Arg.nil)]
          [Expr.arg rt (wrap value), Expr.arg rt (wrap pattern), Expr.arg rt (wrap replace)]
          rfl rfl
    | SubString str start =>
        exact printFnWithOpts_unset rt "SubString" [("Length(%s)", Arg.nil)]
          [Expr.arg rt (wrap str), Expr.arg rt (wrap start)] rfl rfl
    | Merge merge with_ =>
        exact printFnWithOpts_unset rt "Merge" [("ConflictResolver(%s)", Arg.nil)]
          [Expr.arg rt (wrap merge), Expr.arg rt (wrap with_)] rfl rfl
    | Round value =>
        exact printFnWithOpts_unset rt "Round" [("Precision(%s)", Arg.nil)]
          [Expr.arg rt (wrap value)] rfl rfl
    | Trunc value =>
        exact printFnWithOpts_unset rt "Trunc" [("Precision(%s)", Arg.nil)]
          [Expr.arg rt (wrap value)] rfl rfl
    | Select path value =>
        exact printFnWithOpts_unset rt "Select" [("Default(%s)", Arg.nil)]
          [Expr.arg rt (wrap path), Expr.arg rt (wrap value)] rfl rfl
  · exact printFnWithOpts_unset rt "SelectAll" [("SelectAll(%s)", Arg.nil)]
      [Expr.arg rt (wrap path), Expr.arg rt (wrap value)] rfl rfl
  · refine (printFnWithOpts_unset rt "Get" [("TS(%s)", Arg.nil)] [Expr.arg rt (wrap r)]
      rfl rfl).trans ?_
    rw [printFn_eq]
    show (match callStrings [Expr.arg rt (wrap r)] with
      | .error p => (Except.error p : Except Panic String)
      | .ok strArgs => Except.ok ("Get" ++ "(" ++ strings.Join strArgs ", " ++ ")")) = _
    rw [callStrings_cons, arg_str]
    cases Expr.String rt (wrap r) with
    | error p => rfl
    | ok s => rfl
  · refine (printFnWithOpts_unset rt "Paginate"
      [("After(%s)", Arg.nil), ("Before(%s)", Arg.nil), ("Events(%s)", Arg.nil),
        ("Size(%s)", Arg.nil), ("Sources(%s)", Arg.nil), ("TS(%s)", Arg.nil)]
      [Expr.arg rt (wrap r)] rfl rfl).trans ?_
    rw [printFn_eq]
    show (match callStrings [Expr.arg rt (wrap r)] with
      | .error p => (Except.error p : Except Panic String)
      | .ok strArgs => Except.ok ("Paginate" ++ "(" ++ strings.Join strArgs ", " ++ ")")) = _
    rw [callStrings_cons, arg_str]
    cases Expr.String rt (wrap r) with
    | error p => rfl
    | ok s => rfl

/-- A map with one entry is visited in one way. -/
theorem Runtime.range_singleton {α : Type} (rt : Runtime) (hl : rt.Legal) (x : α) :
    rt.range [x] = [x] := by
  have h : rt.rangeOrder 1 = [0] := List.perm_singleton.mp (hl 1)
  show (rt.rangeOrder 1).filterMap (fun i => [x][i]?) = [x]
  rw [h]
  rfl

/-- The order of the entries is a legal iteration order. -/
theorem Runtime.inOrder_Legal (valueString : Value → String) (quote : String → String)
    (implementsArrType : Except Panic Bool) :
    (Runtime.inOrder valueString quote implementsArrType).Legal :=
  fun _ => List.Perm.refl _

/-- An operand that renders is printed by `fmt` as its rendering. -/
theorem fmtVerb_ok (rt : Runtime) (verb : String) (e : Expr) (s : String)
    (h : Expr.String rt e = .ok s) : fmtVerb verb (Expr.arg rt e) = s := by
  cases e with
  | nil => cases h
  | value v => cases h; rfl
  | unescapedObj obj => cases h; rfl
  | unescapedArr arr => cases h; rfl
  | invalidExpr err => cases h; rfl
  | fn k vals =>
      show (match (Expr.arg rt (.fn k vals)).str with
        | .ok s => s
        | .error p => "%!" ++ verb ++ "(PANIC=String method: " ++ p.text ++ ")") = s
      rw [arg_str, h]

/-- The rendering with one option whose field is set, on a map visited in a legal order: the
required arguments, then the token of the option. -/
theorem printFnWithOpts_one (rt : Runtime) (hl : rt.Legal) (name format : String) (v : Expr)
    (args : List Arg) (strArgs : List String) (hv : v.isNil = false)
    (hargs : callStrings args = .ok strArgs) :
    printFnWithOpts rt name [(format, Expr.arg rt v)] args
      = .ok (name ++ "(" ++ strings.Join (strArgs ++ [Sprintf1 format (Expr.arg rt v)]) ", "
          ++ ")") := by
  have hf : List.filterMap (fun kv : String × Arg =>
      if kv.2.val.isNil then none else some (Sprintf1 kv.1 kv.2)) [(format, Expr.arg rt v)]
      = [Sprintf1 format (Expr.arg rt v)] := by
    simp [List.filterMap_cons, arg_val, hv]
  rw [printFnWithOpts_eq rt name [(format, Expr.arg rt v)] args rfl, hargs,
    Runtime.range_singleton rt hl, hf]

/-- One required argument and the token of the option. -/
theorem printFnWithOpts_token1 (rt : Runtime) (hl : rt.Legal) (name format token : String)
    (x v : Expr) (x' : String) (hx : Expr.String rt x = .ok x') (hv : v.isNil = false)
    (htoken : Sprintf1 format (Expr.arg rt v) = token) :
    printFnWithOpts rt name [(format, Expr.arg rt v)] [Expr.arg rt x]
      = .ok (name ++ "(" ++ x' ++ ", " ++ token ++ ")") := by
  rw [printFnWithOpts_one rt hl name format v [Expr.arg rt x] [x'] hv
    (by rw [callStrings_cons, arg_str, hx]; rfl), htoken]
  congr 1
  apply String.ext
  simp [strings.Join, String.intercalate, String.intercalate.go, String.data_append]

/-- Two required arguments and the token of the option. -/
theorem printFnWithOpts_token2 (rt : Runtime) (hl : rt.Legal) (name format token : String)
    (x y v : Expr) (x' y' : String) (hx : Expr.String rt x = .ok x')
    (hy : Expr.String rt y = .ok y') (hv : v.isNil = false)
    (htoken : Sprintf1 format (Expr.arg rt v) = token) :
    printFnWithOpts rt name [(format, Expr.arg rt v)] [Expr.arg rt x, Expr.arg rt y]
      = .ok (name ++ "(" ++ x' ++ ", " ++ y' ++ ", " ++ token ++ ")") := by
  rw [printFnWithOpts_one rt hl name format v [Expr.arg rt x, Expr.arg rt y] [x', y'] hv
    (by rw [callStrings_cons, arg_str, hx, callStrings_cons, arg_str, hy]; rfl), htoken]
  congr 1
  apply String.ext
  simp [strings.Join, String.intercalate, String.intercalate.go, String.data_append]

/-- C18.  On a map visited in a legal order, when the wrapped arguments `x`, `y` and the wrapped
argument `v` of the modifier render as `x'`, `y'` and `v'`: the node of Get, Exists, Concat,
Round, Trunc, Select or Merge built with its one modifier `M(v)` renders as the name, the
required arguments and then the token `M(v')`. -/
theorem one_option_token (rt : Runtime) (hl : rt.Legal) (x y v : Host) (x' y' v' : String)
    (hx : Expr.String rt (wrap x) = .ok x') (hy : Expr.String rt (wrap y) = .ok y')
    (hv : Expr.String rt (wrap v) = .ok v') :
    stringOf rt (Get x [TS v]) = .ok ("Get(" ++ x' ++ ", TS(" ++ v' ++ "))") ∧
      stringOf rt (Exists x [TS v]) = .ok ("Exists(" ++ x' ++ ", TS(" ++ v' ++ "))") ∧
      stringOf rt (Concat x [Separator v])
        = .ok ("Concat(" ++ x' ++ ", Separator(" ++ v' ++ "))") ∧
      stringOf rt (Round x [Precision v])
        = .ok ("Round(" ++ x' ++ ", Precision(" ++ v' ++ "))") ∧
      stringOf rt (Trunc x [Precision v])
        = .ok ("Trunc(" ++ x' ++ ", Precision(" ++ v' ++ "))") ∧
      stringOf rt (Select x y [Default v])
        = .ok ("Select(" ++ x' ++ ", " ++ y' ++ ", Default(" ++ v' ++ "))") ∧
      stringOf rt (Merge x y [ConflictResolver v])
        = .ok ("Merge(" ++ x' ++ ", " ++ y' ++ ", ConflictResolver(" ++ v' ++ "))") := by
  have hf : fmtVerb "s" (Expr.arg rt (wrap v)) = v' := fmtVerb_ok rt "s" (wrap v) v' hv
  have hTS : Sprintf1 "TS(%s)" (Expr.arg rt (wrap v)) = "TS(" ++ v' ++ ")" := by
    rw [← hf]; rfl
  have hSep : Sprintf1 "Separator(%s)" (Expr.arg rt (wrap v)) = "Separator(" ++ v' ++ ")" := by
    rw [← hf]; rfl
  have hPrec : Sprintf1 "Precision(%s)" (Expr.arg rt (wrap v)) = "Precision(" ++ v' ++ ")" := by
    rw [← hf]; rfl
  have hDef : Sprintf1 "Default(%s)" (Expr.arg rt (wrap v)) = "Default(" ++ v' ++ ")" := by
    rw [← hf]; rfl
  have hCR : Sprintf1 "ConflictResolver(%s)" (Expr.arg rt (wrap v))
      = "ConflictResolver(" ++ v' ++ ")" := by
    rw [← hf]; rfl
  refine ⟨?_, ?_, ?_, ?_, ?_, ?_, ?_⟩
  · refine (printFnWithOpts_token1 rt hl "Get" "TS(%s)" _ (wrap x) (wrap v) x' hx
      (wrap_isNil v) hTS).trans ?_
    congr 1
    apply String.ext
    simp [String.data_append]
  · refine (printFnWithOpts_token1 rt hl "Exists" "TS(%s)" _ (wrap x) (wrap v) x' hx
      (wrap_isNil v) hTS).trans ?_
    congr 1
    apply String.ext
    simp [String.data_append]
  · refine (printFnWithOpts_token1 rt hl "Concat" "Separator(%s)" _ (wrap x) (wrap v) x' hx
      (wrap_isNil v) hSep).trans ?_
    congr 1
    apply String.ext
    simp [String.data_append]
  · refine (printFnWithOpts_token1 rt hl "Round" "Precision(%s)" _ (wrap x) (wrap v) x' hx
      (wrap_isNil v) hPrec).trans ?_
    congr 1
    apply String.ext
    simp [String.data_append]
  · refine (printFnWithOpts_token1 rt hl "Trunc" "Precision(%s)" _ (wrap x) (wrap v) x' hx
      (wrap_isNil v) hPrec).trans ?_
    congr 1
    apply String.ext
    simp [String.data_append]
  · refine (printFnWithOpts_token2 rt hl "Select" "Default(%s)" _ (wrap x) (wrap y) (wrap v)
      x' y' hx hy (wrap_isNil v) hDef).trans ?_
    congr 1
    apply String.ext
    simp [String.data_append]
  · refine (printFnWithOpts_token2 rt hl "Merge" "ConflictResolver(%s)" _ (wrap x) (wrap y)
      (wrap v) x' y' hx hy (wrap_isNil v) hCR).trans ?_
    congr 1
    apply String.ext
    simp [String.data_append]

theorem one_option_token_witness :
    stringOf (Runtime.inOrder (fun _ => "") id (.ok false))
        (Get (.expr Classes) [TS (.expr Now)])
        = .ok ("Get(" ++ "Classes()" ++ ", TS(" ++ "Now()" ++ "))") ∧
      stringOf (Runtime.inOrder (fun _ => "") id (.ok false))
        (Exists (.expr Classes) [TS (.expr Now)])
        = .ok ("Exists(" ++ "Classes()" ++ ", TS(" ++ "Now()" ++ "))") ∧
      stringOf (Runtime.inOrder (fun _ => "") id (.ok false))
        (Concat (.expr Classes) [Separator (.expr Now)])
        = .ok ("Concat(" ++ "Classes()" ++ ", Separator(" ++ "Now()" ++ "))") ∧
      stringOf (Runtime.inOrder (fun _ => "") id (.ok false))
        (Round (.expr Classes) [Precision (.expr Now)])
        = .ok ("Round(" ++ "Classes()" ++ ", Precision(" ++ "Now()" ++ "))") ∧
      stringOf (Runtime.inOrder (fun _ => "") id (.ok false))
        (Trunc (.expr Classes) [Precision (.expr Now)])
        = .ok ("Trunc(" ++ "Classes()" ++ ", Precision(" ++ "Now()" ++ "))") ∧
      stringOf (Runtime.inOrder (fun _ => "") id (.ok false))
        (Select (.expr Classes) (.expr Identity) [Default (.expr Now)])
        = .ok ("Select(" ++ "Classes()" ++ ", " ++ "Identity()" ++ ", Default(" ++ "Now()"
            ++ "))") ∧
      stringOf (Runtime.inOrder (fun _ => "") id (.ok false))
        (Merge (.expr Classes) (.expr Identity) [ConflictResolver (.expr Now)])
        = .ok ("Merge(" ++ "Classes()" ++ ", " ++ "Identity()" ++ ", ConflictResolver("
            ++ "Now()" ++ "))") :=
  one_option_token _ (Runtime.inOrder_Legal _ _ _) (.expr Classes) (.expr Identity) (.expr Now)
    "Classes()" "Identity()" "Now()" rfl rfl rfl

/-- C19, the code where it departs from the claim.  The format strings of `findStrFn.String`
and `replaceStrRegexFn.String` are `"Start"` and `"OnlyFirst()"`: they hold no verb, so
`fmt.Sprintf` reports the operand that nothing consumes and the token ends in
`%!(EXTRA type=value)`.  Stated for string and integer arguments and for every rendering of the
literals; the mapping has one entry, which every iteration order visits alike. -/
theorem verbless_format_token (valueString : Value → String) (quote : String → String)
    (implementsArrType : Except Panic Bool) (s f v p r : String) (n : Int) :
    stringOf (Runtime.inOrder valueString quote implementsArrType)
        (FindStr (.str s) (.str f) [Start (.int n)])
        = .ok ("FindStr(" ++ valueString (.StringV s) ++ ", " ++ valueString (.StringV f)
            ++ ", Start%!(EXTRA faunadb.LongV=" ++ valueString (.LongV n) ++ "))") ∧
      stringOf (Runtime.inOrder valueString quote implementsArrType)
        (FindStr (.str s) (.str f) [Start (.int n)])
        ≠ .ok ("FindStr(" ++ valueString (.StringV s) ++ ", " ++ valueString (.StringV f)
            ++ ", Start(" ++ valueString (.LongV n) ++ "))") ∧
      stringOf (Runtime.inOrder valueString quote implementsArrType)
        (ReplaceStrRegex (.str v) (.str p) (.str r) [OnlyFirst])
        = .ok ("ReplaceStrRegex(" ++ valueString (.StringV v) ++ ", " ++ valueString (.StringV p)
            ++ ", " ++ valueString (.StringV r) ++ ", OnlyFirst()%!(EXTRA faunadb.BooleanV="
            ++ valueString (.BooleanV true) ++ "))") ∧
      stringOf (Runtime.inOrder valueString quote implementsArrType)
        (ReplaceStrRegex (.str v) (.str p) (.str r) [OnlyFirst])
        ≠ .ok ("ReplaceStrRegex(" ++ valueString (.StringV v) ++ ", " ++ valueString (.StringV p)
            ++ ", " ++ valueString (.StringV r) ++ ", OnlyFirst())") := by
  have hl := Runtime.inOrder_Legal valueString quote implementsArrType
  have h1 : stringOf (Runtime.inOrder valueString quote implementsArrType)
      (FindStr (.str s) (.str f) [Start (.int n)])
      = .ok ("FindStr(" ++ valueString (.StringV s) ++ ", " ++ valueString (.StringV f)
          ++ ", Start%!(EXTRA faunadb.LongV=" ++ valueString (.LongV n) ++ "))") := by
    refine (printFnWithOpts_one _ hl "FindStr" "Start" (.value (.LongV n))
      [Expr.arg (Runtime.inOrder valueString quote implementsArrType)
          (.value (.StringV s)), Expr.arg (Runtime.inOrder valueString quote implementsArrType)
          (.value (.StringV f))]
      [valueString (.StringV s), valueString (.StringV f)] rfl rfl).trans ?_
    show Except.ok ("FindStr" ++ "(" ++ strings.Join ([valueString (.StringV s),
      valueString (.StringV f)] ++ ["Start%!(EXTRA faunadb.LongV=" ++ valueString (.LongV n)
        ++ ")"]) ", " ++ ")") = _
    congr 1
    apply String.ext
    simp [strings.Join, String.intercalate, String.intercalate.go, String.data_append]
  have h2 : stringOf (Runtime.inOrder valueString quote implementsArrType)
      (ReplaceStrRegex (.str v) (.str p) (.str r) [OnlyFirst])
      = .ok ("ReplaceStrRegex(" ++ valueString (.StringV v) ++ ", " ++ valueString (.StringV p)
          ++ ", " ++ valueString (.StringV r) ++ ", OnlyFirst()%!(EXTRA faunadb.BooleanV="
          ++ valueString (.BooleanV true) ++ "))") := by
    refine (printFnWithOpts_one _ hl "ReplaceStrRegex" "OnlyFirst()" (.value (.BooleanV true))
      [Expr.arg (Runtime.inOrder valueString quote implementsArrType)
          (.value (.StringV v)), Expr.arg (Runtime.inOrder valueString quote implementsArrType)
          (.value (.StringV p)),
        Expr.arg (Runtime.inOrder valueString quote implementsArrType)
          (.value (.StringV r))]
      [valueString (.StringV v), valueString (.StringV p), valueString (.StringV r)]
      rfl rfl).trans ?_
    show Except.ok ("ReplaceStrRegex" ++ "(" ++ strings.Join ([valueString (.StringV v),
      valueString (.StringV p), valueString (.StringV r)]
        ++ ["OnlyFirst()%!(EXTRA faunadb.BooleanV=" ++ valueString (.BooleanV true) ++ ")"])
      ", " ++ ")") = _
    congr 1
    apply String.ext
    simp [strings.Join, String.intercalate, String.intercalate.go, String.data_append]
  refine ⟨h1, ?_, h2, ?_⟩
  · rw [h1]
    intro h
    have hd := congrArg String.data (Except.ok.inj h)
    simp [String.data_append] at hd
  · rw [h2]
    intro h
    have hd := congrArg String.data (Except.ok.inj h)
    simp [String.data_append] at hd

/-- The function `varargs` on two arguments or more: the slice of the arguments. -/
theorem varargs_two (a b : Host) (rest : List Host) :
    varargs (a :: b :: rest) = .slice (a :: b :: rest) := by
  simp [varargs]

/-- C20, the code where it departs from the claim.  The twenty variadic functions store
`wrap(varargs(args...))` in one field, and their `String` methods hand that field to `printFn`
(none of them calls `printVarArgFn`).  With two arguments or more the field holds one
`unescapedArr`, so the rendering is the name around the one token `Arr{...}`:
`Union(Databases(), Collections())` renders as `Union(Arr{Databases(), Collections()})`. -/
theorem variadic_renders_nested_array (rt : Runtime) (c : Variadic) (a b : Host)
    (rest : List Host) :
    Expr.String rt (c.build (a :: b :: rest))
        = .ok (c.name ++ "("
            ++ unescapedArr.String (Expr.args rt (wrapList (a :: b :: rest))) ++ ")") ∧
      Expr.String rt (Union [.expr Databases, .expr Collections])
        = .ok "Union(Arr\x7bDatabases(), Collections()\x7d)" ∧
      Expr.String rt (Union [.expr Databases, .expr Collections])
        ≠ .ok "Union(Databases(), Collections())" := by
  refine ⟨?_, rfl, ?_⟩
  · have h : ∀ k : FnKind, ∀ F : String,
        structLit k [(F, wrap (varargs (a :: b :: rest)))]
          = structLit k [(F, .unescapedArr (wrapList (a :: b :: rest)))] := by
      intro k F
      rw [varargs_two]
      rfl
    cases c <;> exact (congrArg (Expr.String rt) (h _ _)).trans rfl
  · show Except.ok "Union(Arr\x7bDatabases(), Collections()\x7d)"
      ≠ Except.ok "Union(Databases(), Collections())"
    exact fun h => absurd (Except.ok.inj h) (by decide)

/-! ## Claims: modifiers and constructors -/

/-- Reading a field other than the one written. -/
theorem getField_setField_ne (F G : String) (a : Expr) (hFG : F ≠ G) :
    ∀ (decl : List Field) (vals : List Expr),
      getField decl (setField decl vals G a) F = getField decl vals F
  | [], _ => by simp [setField, getField]
  | _ :: _, [] => by simp [setField, getField]
  | f :: decl, v :: vals => by
      by_cases hG : f.name = G
      · have hF : ¬ f.name = F := fun h => hFG (h.symm.trans hG)
        simp [setField, getField, hG, hF]
        subst hG
        simp [hF]
      · by_cases hF : f.name = F
        · subst hF
          simp [setField, getField, hG]
        · simp [setField, getField, hG, hF, getField_setField_ne F G a hFG decl vals]

/-- C22.  For each of the twelve functions that apply their options and every modifier whose
target the function's mapping sends to the field `p`: the call with that one modifier returns the
initial struct with `p` set to the modifier's value; reading `p` gives that value and reading any
other field gives what the initial struct holds.  For every `s` and `n`, `Paginate(s, Size(n))`
is the struct `paginateFn` with `Paginate = wrap(s)`, `Size = wrap(n)` and the other five fields
nil, and `Paginate(s)` is the same struct with `Size` nil as well. -/
theorem one_modifier_sets_one_slot (c : OptCall) (x : Modifier) (p : FieldPtr) (s n : Host)
    (h : c.mappings.lookup x.target = some p) :
    c.build [x.option] = .ok (c.init.set p x.newValue) ∧
      (c.init.set p x.newValue).get p = x.newValue ∧
      (∀ F, F ≠ p → (c.init.set p x.newValue).get F = c.init.get F) ∧
      Paginate s [] = .ok (structLit .paginateFn [("Paginate", wrap s)]) ∧
      Paginate s [Size n]
        = .ok (structLit .paginateFn [("Paginate", wrap s), ("Size", wrap n)]) ∧
      (structLit .paginateFn [("Paginate", wrap s), ("Size", wrap n)]).get "Size" = wrap n ∧
      (structLit .paginateFn [("Paginate", wrap s), ("Size", wrap n)]).get "Paginate" = wrap s ∧
      (structLit .paginateFn [("Paginate", wrap s), ("Size", wrap n)]).get "After" = .nil ∧
      (structLit .paginateFn [("Paginate", wrap s), ("Size", wrap n)]).get "Before" = .nil ∧
      (structLit .paginateFn [("Paginate", wrap s), ("Size", wrap n)]).get "Events" = .nil ∧
      (structLit .paginateFn [("Paginate", wrap s), ("Size", wrap n)]).get "Sources" = .nil ∧
      (structLit .paginateFn [("Paginate", wrap s), ("Size", wrap n)]).get "TS" = .nil := by
  refine ⟨?_, ?_, ?_, rfl, rfl, rfl, rfl, rfl, rfl, rfl, rfl, rfl⟩
  · rw [OptCall.build_eq, applyOptionals_cons, option_declared c.mappings x p h]
    rfl
  · obtain ⟨k, vals, hinit, hlen, hptr⟩ := c.init_shape
    have hp : p ∈ k.fields.map Field.name :=
      hptr p (List.mem_map.mpr ⟨(x.target, p), lookup_mem _ _ _ h, rfl⟩)
    rw [hinit]
    exact getField_setField p x.newValue k.fields vals hlen hp
  · intro F hF
    obtain ⟨k, vals, hinit, _, _⟩ := c.init_shape
    rw [hinit]
    exact getField_setField_ne F p x.newValue hF k.fields vals

theorem one_modifier_sets_one_slot_witness :
    (OptCall.Paginate (.expr Classes)).build [(Modifier.Size (.int 2)).option]
        = .ok ((OptCall.Paginate (.expr Classes)).init.set "Size"
            (Modifier.Size (.int 2)).newValue) ∧
      ((OptCall.Paginate (.expr Classes)).init.set "Size" (Modifier.Size (.int 2)).newValue).get
          "Size" = (Modifier.Size (.int 2)).newValue ∧
      (∀ F, F ≠ "Size" →
        ((OptCall.Paginate (.expr Classes)).init.set "Size"
          (Modifier.Size (.int 2)).newValue).get F
          = (OptCall.Paginate (.expr Classes)).init.get F) ∧
      Paginate (.expr Classes) []
        = .ok (structLit .paginateFn [("Paginate", wrap (.expr Classes))]) ∧
      Paginate (.expr Classes) [Size (.int 2)]
        = .ok (structLit .paginateFn
            [("Paginate", wrap (.expr Classes)), ("Size", wrap (.int 2))]) ∧
      (structLit .paginateFn [("Paginate", wrap (.expr Classes)), ("Size", wrap (.int 2))]).get
          "Size" = wrap (.int 2) ∧
      (structLit .paginateFn [("Paginate", wrap (.expr Classes)), ("Size", wrap (.int 2))]).get
          "Paginate" = wrap (.expr Classes) ∧
      (structLit .paginateFn [("Paginate", wrap (.expr Classes)), ("Size", wrap (.int 2))]).get
          "After" = .nil ∧
      (structLit .paginateFn [("Paginate", wrap (.expr Classes)), ("Size", wrap (.int 2))]).get
          "Before" = .nil ∧
      (structLit .paginateFn [("Paginate", wrap (.expr Classes)), ("Size", wrap (.int 2))]).get
          "Events" = .nil ∧
      (structLit .paginateFn [("Paginate", wrap (.expr Classes)), ("Size", wrap (.int 2))]).get
          "Sources" = .nil ∧
      (structLit .paginateFn [("Paginate", wrap (.expr Classes)), ("Size", wrap (.int 2))]).get
          "TS" = .nil :=
  one_modifier_sets_one_slot (.Paginate (.expr Classes)) (.Size (.int 2)) "Size" (.expr Classes)
    (.int 2) rfl

/-- C23, the code where it departs from the claim.  `FindStrRegex` never reads its options
and `findStrRegexFn` has no `Start` field: with `Start(n)` it returns the node it returns
without options, `findStrRegexFn` with the two fields `FindStrRegex` and `Pattern`, and the wire
object has the two members `"findstrregex"` and `"pattern"` and no `"start"`. -/
theorem FindStrRegex_drops_Start (str pattern n : Host) :
    FindStrRegex str pattern [Start n]
        = structLit .findStrRegexFn [("FindStrRegex", wrap str), ("Pattern", wrap pattern)] ∧
      FindStrRegex str pattern [Start n] = FindStrRegex str pattern [] ∧
      (FindStrRegex str pattern [Start n]).get "Start" = .nil ∧
      FnKind.findStrRegexFn.fields.map Field.json = ["findstrregex", "pattern"] ∧
      Marshal (FindStrRegex str pattern [Start n]) =
        (match Marshal (wrap str) with
          | .error err => .error err
          | .ok js =>
              match Marshal (wrap pattern) with
              | .error err => .error err
              | .ok jp => .ok (.obj [("findstrregex", js), ("pattern", jp)])) ∧
      Marshal (FindStrRegex (.str "abc") (.str "b+") [Start (.int 1)])
        = .ok (.obj [("findstrregex", .lit (.StringV "abc")),
            ("pattern", .lit (.StringV "b+"))]) := by
  refine ⟨rfl, rfl, rfl, rfl, ?_, rfl⟩
  show Marshal (.fn .findStrRegexFn [wrap str, wrap pattern]) = _
  rw [Marshal_fn]
  show (match marshalFields [⟨"FindStrRegex", "findstrregex", false⟩,
      ⟨"Pattern", "pattern", false⟩] [wrap str, wrap pattern] with
    | .ok members => Except.ok (Json.obj members)
    | .error err => .error err) = _
  rw [marshalFields_cons, marshalFields_cons]
  cases Marshal (wrap str) with
  | error err => rfl
  | ok js =>
      cases Marshal (wrap pattern) with
      | error err => rfl
      | ok jp => rfl

/-- C24, the code where it departs from the claim.  The mapping of `FindStr` declares `"start"`
only and `findStrFn` has no `Length` field: `FindStr(str, find, StrLength(n))` panics on the
write through the nil pointer.  `FindStrRegex` never reads its options and returns the node
without a length.  `SubString` is the one function whose mapping declares `"length"`. -/
theorem StrLength_not_accepted (str find n : Host) :
    FindStr str find [StrLength n] = .error .nilDereference ∧
      (OptCall.FindStr str find).declared = ["start"] ∧
      FnKind.findStrFn.fields.map Field.name = ["Find", "FindStr", "Start"] ∧
      FindStrRegex str find [StrLength n]
        = structLit .findStrRegexFn [("FindStrRegex", wrap str), ("Pattern", wrap find)] ∧
      (FindStrRegex str find [StrLength n]).get "Length" = .nil ∧
      FnKind.findStrRegexFn.fields.map Field.name = ["FindStrRegex", "Pattern"] ∧
      SubString str find [StrLength n]
        = .ok (structLit .subStringFn
            [("SubString", wrap str), ("Start", wrap find), ("Length", wrap n)]) :=
  ⟨rfl, rfl, rfl, rfl, rfl, rfl, rfl⟩

/-- The struct encoder on a required field whose value encodes. -/
theorem marshalFields_required (name json : String) (decl : List Field) (v : Expr)
    (vals : List Expr) (j : Json) (members : List (String × Json)) (hv : Marshal v = .ok j)
    (hrest : marshalFields decl vals = .ok members) :
    marshalFields (⟨name, json, false⟩ :: decl) (v :: vals) = .ok ((json, j) :: members) := by
  rw [marshalFields_cons, hv, hrest]
  rfl

/-- The struct encoder on an optional field that holds a value that encodes. -/
theorem marshalFields_set (name json : String) (decl : List Field) (v : Expr)
    (vals : List Expr) (j : Json) (members : List (String × Json)) (hnil : v.isNil = false)
    (hv : Marshal v = .ok j) (hrest : marshalFields decl vals = .ok members) :
    marshalFields (⟨name, json, true⟩ :: decl) (v :: vals) = .ok ((json, j) :: members) := by
  rw [marshalFields_cons, hv, hrest, hnil]
  rfl

/-- The struct encoder on an optional field that is nil. -/
theorem marshalFields_unset (name json : String) (decl : List Field) (vals : List Expr) :
    marshalFields (⟨name, json, true⟩ :: decl) (.nil :: vals) = marshalFields decl vals := by
  rw [marshalFields_cons]
  rfl

/-- C25.  For every argument and every timestamp `t`, `Get`, `Exists` and `Paginate` with the
one option `TS(t)` return the struct with the field `TS` set to `wrap(t)`.  `Insert` and `Remove`
take the timestamp as a parameter and store it in the field `Ts`, which is tagged `"ts"` without
`omitempty`: when the arguments encode, the wire object has the member `"ts"`, holding the
encoding of the wrapped timestamp. -/
theorem TS_accepted (r t ref ts action params : Host) (jr jts ja jp : Json)
    (hr : Marshal (wrap ref) = .ok jr) (hts : Marshal (wrap ts) = .ok jts)
    (ha : Marshal (wrap action) = .ok ja) (hp : Marshal (wrap params) = .ok jp) :
    Get r [TS t] = .ok (structLit .getFn [("Get", wrap r), ("TS", wrap t)]) ∧
      Exists r [TS t] = .ok (structLit .existsFn [("Exists", wrap r), ("TS", wrap t)]) ∧
      Paginate r [TS t] = .ok (structLit .paginateFn [("Paginate", wrap r), ("TS", wrap t)]) ∧
      (Insert ref ts action params).get "Ts" = wrap ts ∧
      (Remove ref ts action).get "Ts" = wrap ts ∧
      (⟨"Ts", "ts", false⟩ : Field) ∈ FnKind.insertFn.fields ∧
      (⟨"Ts", "ts", false⟩ : Field) ∈ FnKind.removeFn.fields ∧
      Marshal (Insert ref ts action params)
        = .ok (.obj [("action", ja), ("insert", jr), ("params", jp), ("ts", jts)]) ∧
      Marshal (Remove ref ts action)
        = .ok (.obj [("action", ja), ("remove", jr), ("ts", jts)]) := by
  refine ⟨rfl, rfl, rfl, rfl, rfl, ?_, ?_, ?_, ?_⟩
  · show (⟨"Ts", "ts", false⟩ : Field) ∈ [(⟨"Action", "action", false⟩ : Field),
      ⟨"Insert", "insert", false⟩, ⟨"Params", "params", false⟩, ⟨"Ts", "ts", false⟩]
    simp
  · show (⟨"Ts", "ts", false⟩ : Field) ∈ [(⟨"Action", "action", false⟩ : Field),
      ⟨"Remove", "remove", false⟩, ⟨"Ts", "ts", false⟩]
    simp
  · show Marshal (.fn .insertFn [wrap action, wrap ref, wrap params, wrap ts]) = _
    rw [Marshal_fn]
    show (match marshalFields [⟨"Action", "action", false⟩, ⟨"Insert", "insert", false⟩,
        ⟨"Params", "params", false⟩, ⟨"Ts", "ts", false⟩]
        [wrap action, wrap ref, wrap params, wrap ts] with
      | .ok members => Except.ok (Json.obj members)
      | .error err => .error err) = _
    rw [marshalFields_required _ _ _ _ _ _ _ ha (marshalFields_required _ _ _ _ _ _ _ hr
      (marshalFields_required _ _ _ _ _ _ _ hp
        (marshalFields_required "Ts" "ts" [] (wrap ts) [] jts [] hts rfl)))]
  · show Marshal (.fn .removeFn [wrap action, wrap ref, wrap ts]) = _
    rw [Marshal_fn]
    show (match marshalFields [⟨"Action", "action", false⟩, ⟨"Remove", "remove", false⟩,
        ⟨"Ts", "ts", false⟩] [wrap action, wrap ref, wrap ts] with
      | .ok members => Except.ok (Json.obj members)
      | .error err => .error err) = _
    rw [marshalFields_required _ _ _ _ _ _ _ ha (marshalFields_required _ _ _ _ _ _ _ hr
      (marshalFields_required "Ts" "ts" [] (wrap ts) [] jts [] hts rfl))]

theorem TS_accepted_witness :
    Get (.expr Classes) [TS (.int 5)]
        = .ok (structLit .getFn [("Get", wrap (.expr Classes)), ("TS", wrap (.int 5))]) ∧
      Exists (.expr Classes) [TS (.int 5)]
        = .ok (structLit .existsFn [("Exists", wrap (.expr Classes)), ("TS", wrap (.int 5))]) ∧
      Paginate (.expr Classes) [TS (.int 5)]
        = .ok (structLit .paginateFn
            [("Paginate", wrap (.expr Classes)), ("TS", wrap (.int 5))]) ∧
      (Insert (.str "users/1") (.int 7) (.str "create") (.str "data")).get "Ts"
        = wrap (.int 7) ∧
      (Remove (.str "users/1") (.int 7) (.str "create")).get "Ts" = wrap (.int 7) ∧
      (⟨"Ts", "ts", false⟩ : Field) ∈ FnKind.insertFn.fields ∧
      (⟨"Ts", "ts", false⟩ : Field) ∈ FnKind.removeFn.fields ∧
      Marshal (Insert (.str "users/1") (.int 7) (.str "create") (.str "data"))
        = .ok (.obj [("action", .lit (.StringV "create")), ("insert", .lit (.StringV "users/1")),
            ("params", .lit (.StringV "data")), ("ts", .lit (.LongV 7))]) ∧
      Marshal (Remove (.str "users/1") (.int 7) (.str "create"))
        = .ok (.obj [("action", .lit (.StringV "create")), ("remove", .lit (.StringV "users/1")),
            ("ts", .lit (.LongV 7))]) :=
  TS_accepted (.expr Classes) (.int 5) (.str "users/1") (.int 7) (.str "create") (.str "data")
    _ _ _ _ rfl rfl rfl rfl

/-- C26.  For every value, pattern and replacement, `ReplaceStrRegex` with the option
`OnlyFirst()` returns the struct with the field `First` set to the literal `BooleanV(true)`, and
without options the struct with `First` nil.  When the three arguments encode to `jv`, `jp` and
`jr`, the wire object of the first has the member `"first"`, holding the encoding of the literal,
after the three required members, and the wire object of the second has the three required
members only. -/
theorem OnlyFirst_sets_first (value pattern replace : Host) (jv jp jr : Json)
    (hv : Marshal (wrap value) = .ok jv) (hp : Marshal (wrap pattern) = .ok jp)
    (hr : Marshal (wrap replace) = .ok jr) :
    ReplaceStrRegex value pattern replace [OnlyFirst]
        = .ok (structLit .replaceStrRegexFn [("ReplaceStrRegex", wrap value),
            ("Pattern", wrap pattern), ("Replace", wrap replace),
            ("First", .value (.BooleanV true))]) ∧
      Marshal (structLit .replaceStrRegexFn [("ReplaceStrRegex", wrap value),
          ("Pattern", wrap pattern), ("Replace", wrap replace),
          ("First", .value (.BooleanV true))])
        = .ok (.obj [("pattern", jp), ("replace", jr), ("replacestrregex", jv),
            ("first", .lit (.BooleanV true))]) ∧
      ReplaceStrRegex value pattern replace []
        = .ok (structLit .replaceStrRegexFn [("ReplaceStrRegex", wrap value),
            ("Pattern", wrap pattern), ("Replace", wrap replace)]) ∧
      (structLit .replaceStrRegexFn [("ReplaceStrRegex", wrap value),
          ("Pattern", wrap pattern), ("Replace", wrap replace)]).get "First" = .nil ∧
      Marshal (structLit .replaceStrRegexFn [("ReplaceStrRegex", wrap value),
          ("Pattern", wrap pattern), ("Replace", wrap replace)])
        = .ok (.obj [("pattern", jp), ("replace", jr), ("replacestrregex", jv)]) := by
  refine ⟨rfl, ?_, rfl, rfl, ?_⟩
  · show Marshal (.fn .replaceStrRegexFn
      [wrap pattern, wrap replace, wrap value, .value (.BooleanV true)]) = _
    rw [Marshal_fn]
    show (match marshalFields [⟨"Pattern", "pattern", false⟩, ⟨"Replace", "replace", false⟩,
        ⟨"ReplaceStrRegex", "replacestrregex", false⟩, ⟨"First", "first", true⟩]
        [wrap pattern, wrap replace, wrap value, .value (.BooleanV true)] with
      | .ok members => Except.ok (Json.obj members)
      | .error err => .error err) = _
    rw [marshalFields_required _ _ _ _ _ _ _ hp (marshalFields_required _ _ _ _ _ _ _ hr
      (marshalFields_required _ _ _ _ _ _ _ hv
        (marshalFields_set "First" "first" [] (.value (.BooleanV true)) []
          (.lit (.BooleanV true)) [] rfl rfl rfl)))]
  · show Marshal (.fn .replaceStrRegexFn [wrap pattern, wrap replace, wrap value, .nil]) = _
    rw [Marshal_fn]
    show (match marshalFields [⟨"Pattern", "pattern", false⟩, ⟨"Replace", "replace", false⟩,
        ⟨"ReplaceStrRegex", "replacestrregex", false⟩, ⟨"First", "first", true⟩]
        [wrap pattern, wrap replace, wrap value, .nil] with
      | .ok members => Except.ok (Json.obj members)
      | .error err => .error err) = _
    rw [marshalFields_required _ _ _ _ _ _ _ hp (marshalFields_required _ _ _ _ _ _ _ hr
      (marshalFields_required "ReplaceStrRegex" "replacestrregex" [⟨"First", "first", true⟩]
        (wrap value) [.nil] jv [] hv rfl))]

theorem OnlyFirst_sets_first_witness :
    ReplaceStrRegex (.str "abc") (.str "b+") (.str "x") [OnlyFirst]
        = .ok (structLit .replaceStrRegexFn [("ReplaceStrRegex", wrap (.str "abc")),
            ("Pattern", wrap (.str "b+")), ("Replace", wrap (.str "x")),
            ("First", .value (.BooleanV true))]) ∧
      Marshal (structLit .replaceStrRegexFn [("ReplaceStrRegex", wrap (.str "abc")),
          ("Pattern", wrap (.str "b+")), ("Replace", wrap (.str "x")),
          ("First", .value (.BooleanV true))])
        = .ok (.obj [("pattern", .lit (.StringV "b+")), ("replace", .lit (.StringV "x")),
            ("replacestrregex", .lit (.StringV "abc")), ("first", .lit (.BooleanV true))]) ∧
      ReplaceStrRegex (.str "abc") (.str "b+") (.str "x") []
        = .ok (structLit .replaceStrRegexFn [("ReplaceStrRegex", wrap (.str "abc")),
            ("Pattern", wrap (.str "b+")), ("Replace", wrap (.str "x"))]) ∧
      (structLit .replaceStrRegexFn [("ReplaceStrRegex", wrap (.str "abc")),
          ("Pattern", wrap (.str "b+")), ("Replace", wrap (.str "x"))]).get "First" = .nil ∧
      Marshal (structLit .replaceStrRegexFn [("ReplaceStrRegex", wrap (.str "abc")),
          ("Pattern", wrap (.str "b+")), ("Replace", wrap (.str "x"))])
        = .ok (.obj [("pattern", .lit (.StringV "b+")), ("replace", .lit (.StringV "x")),
            ("replacestrregex", .lit (.StringV "abc"))]) :=
  OnlyFirst_sets_first (.str "abc") (.str "b+") (.str "x") _ _ _ rfl rfl rfl

/-- C27.  For every class ref and id, `RefClass` and `RefCollection` return the same node,
hence the same encoding and the same rendering.  When the two wrapped arguments encode to `jc`
and `ji` and render as `c'` and `i'`, the wire object has the members `"id"` and `"ref"` and the
rendering is `RefCollection(c', i')`. -/
theorem RefClass_eq_RefCollection (rt : Runtime) (classRef id : Host) (jc ji : Json)
    (c' i' : String) (hc : Marshal (wrap classRef) = .ok jc) (hi : Marshal (wrap id) = .ok ji)
    (hc' : Expr.String rt (wrap classRef) = .ok c') (hi' : Expr.String rt (wrap id) = .ok i') :
    RefClass classRef id = RefCollection classRef id ∧
      Marshal (RefClass classRef id) = Marshal (RefCollection classRef id) ∧
      Expr.String rt (RefClass classRef id) = Expr.String rt (RefCollection classRef id) ∧
      Marshal (RefCollection classRef id) = .ok (.obj [("id", ji), ("ref", jc)]) ∧
      Expr.String rt (RefCollection classRef id)
        = .ok ("RefCollection(" ++ c' ++ ", " ++ i' ++ ")") := by
  refine ⟨rfl, rfl, rfl, ?_, ?_⟩
  · show Marshal (.fn .refFn [wrap id, wrap classRef]) = _
    rw [Marshal_fn]
    show (match marshalFields [⟨"ID", "id", true⟩, ⟨"Ref", "ref", false⟩]
        [wrap id, wrap classRef] with
      | .ok members => Except.ok (Json.obj members)
      | .error err => .error err) = _
    rw [marshalFields_set _ _ _ _ _ _ _ (wrap_isNil id) hi
      (marshalFields_required "Ref" "ref" [] (wrap classRef) [] jc [] hc rfl)]
  · exact printFn_two rt "RefCollection" (wrap classRef) (wrap id) c' i' hc' hi'

theorem RefClass_eq_RefCollection_witness :
    RefClass (.expr Classes) (.int 1) = RefCollection (.expr Classes) (.int 1) ∧
      Marshal (RefClass (.expr Classes) (.int 1))
        = Marshal (RefCollection (.expr Classes) (.int 1)) ∧
      Expr.String (Runtime.inOrder (fun _ => "1") id (.ok false))
          (RefClass (.expr Classes) (.int 1))
        = Expr.String (Runtime.inOrder (fun _ => "1") id (.ok false))
          (RefCollection (.expr Classes) (.int 1)) ∧
      Marshal (RefCollection (.expr Classes) (.int 1))
        = .ok (.obj [("id", .lit (.LongV 1)), ("ref", .obj [("classes", .lit .NullV)])]) ∧
      Expr.String (Runtime.inOrder (fun _ => "1") id (.ok false))
          (RefCollection (.expr Classes) (.int 1))
        = .ok ("RefCollection(" ++ "Classes()" ++ ", " ++ "1" ++ ")") :=
  RefClass_eq_RefCollection _ (.expr Classes) (.int 1) _ _ "Classes()" "1" rfl rfl rfl rfl

/-- C28.  With `wrap` as the spec describes it: `wrap` returns a function node, an
`unescapedArr`, an `unescapedObj`, an `invalidExpr` and a literal unchanged, and for every host
value `x`, wrapping the node `wrap(x)` again gives `wrap(x)`. -/
theorem wrap_idempotent (x : Host) (k : FnKind) (vals arr : List Expr)
    (obj : List (String × Expr)) (err : GoError) (v : Value) :
    wrap (.expr (.fn k vals)) = .fn k vals ∧
      wrap (.expr (.unescapedArr arr)) = .unescapedArr arr ∧
      wrap (.expr (.unescapedObj obj)) = .unescapedObj obj ∧
      wrap (.expr (.invalidExpr err)) = .invalidExpr err ∧
      wrap (.expr (.value v)) = .value v ∧
      wrap (.expr (wrap x)) = wrap x := by
  refine ⟨rfl, rfl, rfl, rfl, rfl, ?_⟩
  have h := wrap_isNil x
  cases hw : wrap x with
  | nil => rw [hw] at h; cases h
  | value _ => rfl
  | unescapedObj _ => rfl
  | unescapedArr _ => rfl
  | invalidExpr _ => rfl
  | fn _ _ => rfl

/-- C29.  With `wrap` as the spec describes it: for every host value `V`, wrapping the mapping
whose one entry has the key `"object"` and the value `V` gives the node `wrap(V)`, so
`json.Marshal` of the two nodes has one outcome, and `Obj.MarshalJSON` on that mapping returns
what `json.Marshal` returns on `wrap(V)`: for `V` the mapping with the one entry `"a": 1`, the
object `{"object": {"a": 1}}` that escapes `V` once. -/
theorem object_tag_transparent (V : Host) :
    wrap (.map [("object", V)]) = wrap V ∧
      Marshal (wrap (.map [("object", V)])) = Marshal (wrap V) ∧
      Obj.MarshalJSON [("object", V)] = Marshal (wrap V) ∧
      Obj.MarshalJSON [("object", .map [("a", .int 1)])]
        = .ok (.obj [("object", .obj [("a", .lit (.LongV 1))])]) := by
  have h : wrap (.map [("object", V)]) = wrap V := by
    rw [wrap]
    simp
  exact ⟨h, congrArg Marshal h, congrArg Marshal h, rfl⟩

/-! ## Claims: the debug serializer and the iteration order of maps -/

/-- Visiting the entries from the last to the first is a legal iteration order. -/
theorem Runtime.inReverse_Legal (valueString : Value → String) (quote : String → String)
    (implementsArrType : Except Panic Bool) :
    (Runtime.inReverse valueString quote implementsArrType).Legal :=
  fun n => List.reverse_perm (List.range n)

/-- C21, the code where it departs from the claim.  `_fnCall` and `unescapedObj.String` build
their parts in a `range` loop over a map, whose order Go leaves open.  Two legal iteration
orders, with the same renderings of the literals and the same `strconv.Quote`, give two different
strings for the node `Paginate(Classes(), After(a), Size(n))` and for the `unescapedObj` with the
entries `"a": Now()` and `"b": Identity()`. -/
theorem rendering_depends_on_map_order (valueString : Value → String) (quote : String → String)
    (implementsArrType : Except Panic Bool) (a n : Int) :
    (Runtime.inOrder valueString quote implementsArrType).Legal ∧
      (Runtime.inReverse valueString quote implementsArrType).Legal ∧
      stringOf (Runtime.inOrder valueString quote implementsArrType)
          (Paginate (.expr Classes) [After (.int a), Size (.int n)])
        = .ok ("Paginate(Classes(), After(" ++ valueString (.LongV a) ++ "), Size("
            ++ valueString (.LongV n) ++ "))") ∧
      stringOf (Runtime.inReverse valueString quote implementsArrType)
          (Paginate (.expr Classes) [After (.int a), Size (.int n)])
        = .ok ("Paginate(Classes(), Size(" ++ valueString (.LongV n) ++ "), After("
            ++ valueString (.LongV a) ++ "))") ∧
      stringOf (Runtime.inOrder valueString quote implementsArrType)
          (Paginate (.expr Classes) [After (.int a), Size (.int n)])
        ≠ stringOf (Runtime.inReverse valueString quote implementsArrType)
          (Paginate (.expr Classes) [After (.int a), Size (.int n)]) ∧
      Expr.String (Runtime.inOrder valueString quote implementsArrType)
          (wrap (.map [("a", .expr Now), ("b", .expr Identity)]))
        = .ok ("Obj\x7b" ++ quote "a" ++ ": Now(), " ++ quote "b" ++ ": Identity()\x7d") ∧
      Expr.String (Runtime.inReverse valueString quote implementsArrType)
          (wrap (.map [("a", .expr Now), ("b", .expr Identity)]))
        = .ok ("Obj\x7b" ++ quote "b" ++ ": Identity(), " ++ quote "a" ++ ": Now()\x7d") ∧
      Expr.String (Runtime.inOrder valueString quote implementsArrType)
          (wrap (.map [("a", .expr Now), ("b", .expr Identity)]))
        ≠ Expr.String (Runtime.inReverse valueString quote implementsArrType)
          (wrap (.map [("a", .expr Now), ("b", .expr Identity)])) := by
  have h1 : stringOf (Runtime.inOrder valueString quote implementsArrType)
      (Paginate (.expr Classes) [After (.int a), Size (.int n)])
      = .ok ("Paginate(Classes(), After(" ++ valueString (.LongV a) ++ "), Size("
          ++ valueString (.LongV n) ++ "))") := by
    show Except.ok ("Paginate" ++ "(" ++ strings.Join (["Classes()"] ++
      ["After(" ++ valueString (.LongV a) ++ ")", "Size(" ++ valueString (.LongV n) ++ ")"])
      ", " ++ ")") = _
    congr 1
    apply String.ext
    simp [strings.Join, String.intercalate, String.intercalate.go, String.data_append]
  have h2 : stringOf (Runtime.inReverse valueString quote implementsArrType)
      (Paginate (.expr Classes) [After (.int a), Size (.int n)])
      = .ok ("Paginate(Classes(), Size(" ++ valueString (.LongV n) ++ "), After("
          ++ valueString (.LongV a) ++ "))") := by
    show Except.ok ("Paginate" ++ "(" ++ strings.Join (["Classes()"] ++
      ["Size(" ++ valueString (.LongV n) ++ ")", "After(" ++ valueString (.LongV a) ++ ")"])
      ", " ++ ")") = _
    congr 1
    apply String.ext
    simp [strings.Join, String.intercalate, String.intercalate.go, String.data_append]
  have h3 : Expr.String (Runtime.inOrder valueString quote implementsArrType)
      (wrap (.map [("a", .expr Now), ("b", .expr Identity)]))
      = .ok ("Obj\x7b" ++ quote "a" ++ ": Now(), " ++ quote "b" ++ ": Identity()\x7d") := by
    show Except.ok ("Obj\x7b" ++ strings.Join [quote "a" ++ ": " ++ "Now()",
      quote "b" ++ ": " ++ "Identity()"] ", " ++ "\x7d") = _
    congr 1
    apply String.ext
    simp [strings.Join, String.intercalate, String.intercalate.go, String.data_append]
  have h4 : Expr.String (Runtime.inReverse valueString quote implementsArrType)
      (wrap (.map [("a", .expr Now), ("b", .expr Identity)]))
      = .ok ("Obj\x7b" ++ quote "b" ++ ": Identity(), " ++ quote "a" ++ ": Now()\x7d") := by
    show Except.ok ("Obj\x7b" ++ strings.Join [quote "b" ++ ": " ++ "Identity()",
      quote "a" ++ ": " ++ "Now()"] ", " ++ "\x7d") = _
    congr 1
    apply String.ext
    simp [strings.Join, String.intercalate, String.intercalate.go, String.data_append]
  refine ⟨Runtime.inOrder_Legal _ _ _, Runtime.inReverse_Legal _ _ _, h1, h2, ?_, h3, h4, ?_⟩
  · rw [h1, h2]
    intro h
    have hd := congrArg String.data (Except.ok.inj h)
    simp [String.data_append] at hd
  · rw [h3, h4]
    intro h
    have hd := congrArg (fun s => s.data.reverse) (Except.ok.inj h)
    simp [String.data_append] at hd

/-! ## The length of a rendering -/

/-- Each `String` method is the call that its shape stands for. -/
theorem String_eq_run (rt : Runtime) (k : FnKind) (fn : String → Arg) :
    k.String rt fn = k.shape.run rt fn := by
  cases k <;> rfl

/-- Every `String` method of strconv.go is small. -/
theorem shape_small (k : FnKind) : k.shape.small = true := by
  cases k <;> rfl

/-! ### Lengths of joined strings -/

theorem intercalate_go_length (sep : String) :
    ∀ (l : List String) (acc : String),
      (String.intercalate.go acc sep l).length
        = acc.length + (l.map fun s => s.length + sep.length).sum
  | [], acc => by simp [String.intercalate.go]
  | s :: l, acc => by
      simp only [String.intercalate.go, List.map_cons, List.sum_cons]
      rw [intercalate_go_length sep l]
      simp only [String.length_append]
      omega

/-- The length of `strings.Join`: at most the parts, each with one separator. -/
theorem Join_length_le (strs : List String) (sep : String) :
    (strings.Join strs sep).length ≤ (strs.map fun s => s.length + sep.length).sum := by
  cases strs with
  | nil => simp [strings.Join, String.intercalate]
  | cons s l =>
      show (String.intercalate.go s sep l).length ≤ _
      rw [intercalate_go_length]
      simp only [List.map_cons, List.sum_cons]
      omega

/-- The entries that a `range` loop visits in a legal order are the entries of the map. -/
theorem getElem?_range_filterMap {α : Type} (l : List α) :
    (List.range l.length).filterMap (fun i => l[i]?) = l := by
  induction l using List.reverseRecOn with
  | nil => rfl
  | append_singleton l a ih =>
      rw [List.length_append, List.length_singleton, List.range_succ, List.filterMap_append]
      have h1 : (List.range l.length).filterMap (fun i => (l ++ [a])[i]?)
          = (List.range l.length).filterMap (fun i => l[i]?) := by
        apply List.filterMap_congr
        intro i hi
        rw [List.getElem?_append_left (List.mem_range.mp hi)]
      rw [h1, ih]
      simp

theorem Runtime.range_perm {α : Type} (rt : Runtime) (hl : rt.Legal) (l : List α) :
    (rt.range l).Perm l := by
  have h := (hl l.length).filterMap (fun i => l[i]?)
  rw [getElem?_range_filterMap] at h
  exact h

/-! ### Type names, panics and `fmt` -/

theorem goName_length (k : FnKind) : k.goName.length ≤ 18 := by
  cases k <;> decide

theorem typeString_length (e : Expr) : e.typeString.length ≤ 26 := by
  cases e with
  | nil => decide
  | value v => cases v <;> exact Nat.le_of_ble_eq_true rfl
  | unescapedObj _ => exact Nat.le_of_ble_eq_true rfl
  | unescapedArr _ => exact Nat.le_of_ble_eq_true rfl
  | invalidExpr _ => exact Nat.le_of_ble_eq_true rfl
  | fn k _ =>
      show ("faunadb." ++ k.goName).length ≤ 26
      rw [String.length_append]
      have h := goName_length k
      have h8 : ("faunadb." : String).length = 8 := by decide
      omega

theorem sizeBound_ge (rt : Runtime) (e : Expr) : 3000 ≤ sizeBound rt e := by
  cases e <;> simp [sizeBound]

/-- What `fmt` prints for an operand whose `String` method returns a string of bounded length or
panics with a short text. -/
theorem fmtVerb_length (rt : Runtime) (verb : String) (hverb : verb.length = 1) (e : Expr)
    (h : Short rt e) :
    (fmtVerb verb (Expr.arg rt e)).length + 300 ≤ sizeBound rt e := by
  have hge := sizeBound_ge rt e
  unfold Short at h
  unfold fmtVerb
  rw [arg_val, arg_str]
  cases e with
  | nil =>
      simp only [String.length_append, hverb]
      have h1 : ("%!" : String).length = 2 := by decide
      have h2 : ("(<nil>)" : String).length = 7 := by decide
      omega
  | value v => exact h
  | unescapedObj obj => exact h
  | unescapedArr arr => exact h
  | invalidExpr err => exact h
  | fn k vals =>
      cases hs : Expr.String rt (.fn k vals) with
      | ok s => rw [hs] at h; exact h
      | error p =>
          rw [hs] at h
          simp only [String.length_append, hverb]
          have h1 : ("%!" : String).length = 2 := by decide
          have h2 : ("(PANIC=String method: " : String).length = 22 := by decide
          have h3 : (")" : String).length = 1 := by decide
          have h' : p.text.length ≤ 100 := h
          omega

/-- The length of `fmt.Sprintf(format, v)`: twelve characters for each character of the format
at most, and the operand, printed once. -/
theorem sprintfScan_length (a : Arg) (V : Nat) (hs : (fmtVerb "s" a).length ≤ V)
    (hv : (fmtVerb "v" a).length ≤ V) (cs : List Char) (used : Bool) :
    (sprintfScan a cs used).length
      ≤ 12 * cs.length + (if used = true then 0 else 11 + a.val.typeString.length + V) := by
  induction cs, used using sprintfScan.induct a with
  | case1 rest used ih =>
      rw [sprintfScan.eq_1, String.length_append, List.length_cons, List.length_cons]
      have hm : ("%!s(MISSING)" : String).length = 12 := by decide
      simp only [if_true] at ih
      cases used
      · simp only [Bool.false_eq_true, if_false]
        omega
      · simp only [if_true]
        omega
  | case2 c rest used hc ih =>
      rw [sprintfScan.eq_2 a used c rest hc, String.length_append, List.length_cons]
      have h1 : c.toString.length = 1 := rfl
      omega
  | case3 =>
      rw [sprintfScan.eq_3]
      simp
  | case4 used hu =>
      have hu : used = false := by simpa using hu
      subst hu
      rw [sprintfScan.eq_3]
      simp only [Bool.false_eq_true, if_false, String.length_append, List.length_nil]
      have h1 : ("%!(EXTRA " : String).length = 9 := by decide
      have h2 : ("=" : String).length = 1 := by decide
      have h3 : (")" : String).length = 1 := by decide
      omega

theorem Sprintf1_length (rt : Runtime) (format : String) (hformat : format.length ≤ 20)
    (e : Expr)
    (h : Short rt e) :
    (Sprintf1 format (Expr.arg rt e)).length + 2 ≤ sizeBound rt e := by
  have hs := fmtVerb_length rt "s" rfl e h
  have hv := fmtVerb_length rt "v" rfl e h
  have ht := typeString_length e
  have hlen := sprintfScan_length (Expr.arg rt e) (sizeBound rt e - 300)
    (by omega) (by omega) format.toList false
  rw [arg_val] at hlen
  simp only [Bool.false_eq_true, if_false] at hlen
  have hl : format.toList.length = format.length := rfl
  unfold Sprintf1
  omega

/-! ### The fields of a struct as operands -/

theorem Short_nil (rt : Runtime) : Short rt .nil := by
  show Panic.nilDereference.text.length ≤ 100
  decide

theorem fieldCost_le (rt : Runtime) (e : Expr) : fieldCost rt e ≤ sizeBound rt e := by
  unfold fieldCost
  split <;> omega

theorem fieldCost_of_ok (rt : Runtime) (e : Expr) (s : String) (h : Expr.String rt e = .ok s) :
    fieldCost rt e = sizeBound rt e := by
  cases e with
  | nil => cases h
  | value _ => rfl
  | unescapedObj _ => rfl
  | unescapedArr _ => rfl
  | invalidExpr _ => rfl
  | fn _ _ => rfl

/-- The selector `fn.F` on the operands of a struct is the operand of the field value. -/
theorem index_fieldArgs (rt : Runtime) (F : String) :
    ∀ (decl : List Field) (vals : List Expr),
      Arg.index (fieldArgs decl (Expr.args rt vals)) F = Expr.arg rt (getField decl vals F)
  | [], _ => rfl
  | _ :: _, [] => rfl
  | f :: decl, v :: vals => by
      have ih := index_fieldArgs rt F decl vals
      show ((fieldArgs (f :: decl) (Expr.arg rt v :: Expr.args rt vals)).lookup F).getD Arg.nil = _
      simp only [fieldArgs, List.lookup, getField]
      by_cases h : f.name = F
      · subst h
        simp
      · have hb : (F == f.name) = false := by simpa using fun e => h e.symm
        simp only [hb, h, if_false]
        exact ih

theorem getField_nil_or_mem (F : String) :
    ∀ (decl : List Field) (vals : List Expr),
      getField decl vals F = .nil ∨ getField decl vals F ∈ vals
  | [], _ => Or.inl rfl
  | _ :: _, [] => Or.inl rfl
  | f :: decl, v :: vals => by
      simp only [getField]
      by_cases h : f.name = F
      · simp [h]
      · simp only [h, if_false]
        rcases getField_nil_or_mem F decl vals with h' | h'
        · exact Or.inl h'
        · exact Or.inr (List.mem_cons_of_mem _ h')

/-- Fields with different names are different values of the struct: their measures add up to the
measure of the field values at most. -/
theorem getField_cost_sum (rt : Runtime) :
    ∀ (decl : List Field) (vals : List Expr) (Fs : List String), Fs.Nodup →
      (Fs.map fun F => fieldCost rt (getField decl vals F)).sum ≤ sizeBoundList rt vals
  | [], vals, Fs, _ => by
      have h : (Fs.map fun F => fieldCost rt (getField [] vals F)) = Fs.map fun _ => 0 := by
        apply List.map_congr_left
        intro F _
        rfl
      rw [h]
      simp
  | _ :: _, [], Fs, _ => by
      have h : ∀ (f : Field) (decl : List Field),
          (Fs.map fun F => fieldCost rt (getField (f :: decl) [] F)) = Fs.map fun _ => 0 := by
        intro f decl
        apply List.map_congr_left
        intro F _
        rfl
      rw [h]
      simp
  | f :: decl, v :: vals, Fs, hnd => by
      by_cases hmem : f.name ∈ Fs
      · have hperm := List.perm_cons_erase hmem
        have hnd' : (Fs.erase f.name).Nodup := hnd.erase _
        have ih := getField_cost_sum rt decl vals (Fs.erase f.name) hnd'
        rw [(hperm.map _).sum_eq, List.map_cons, List.sum_cons]
        have h1 : fieldCost rt (getField (f :: decl) (v :: vals) f.name) ≤ sizeBound rt v := by
          simp only [getField, if_true]
          exact fieldCost_le rt v
        have h2 : ((Fs.erase f.name).map fun F => fieldCost rt (getField (f :: decl) (v :: vals) F))
            = (Fs.erase f.name).map fun F => fieldCost rt (getField decl vals F) := by
          apply List.map_congr_left
          intro F hF
          have hne : ¬ f.name = F := fun e => (hnd.mem_erase_iff.mp (e ▸ hF)).1 rfl
          simp only [getField, hne, if_false]
        rw [h2]
        show _ ≤ sizeBound rt v + sizeBoundList rt vals
        omega
      · have ih := getField_cost_sum rt decl vals Fs hnd
        have h2 : (Fs.map fun F => fieldCost rt (getField (f :: decl) (v :: vals) F))
            = Fs.map fun F => fieldCost rt (getField decl vals F) := by
          apply List.map_congr_left
          intro F hF
          have hne : ¬ f.name = F := fun e => hmem (e ▸ hF)
          simp only [getField, hne, if_false]
        rw [h2]
        show _ ≤ sizeBound rt v + sizeBoundList rt vals
        omega

/-- The calls of `String` on operands that are all short: the strings are short together, and a
panic is one of theirs. -/
theorem callStrings_short (rt : Runtime) :
    ∀ es : List Expr, (∀ e ∈ es, Short rt e) →
      match callStrings (Expr.args rt es) with
      | .ok strs =>
          (strs.map fun s => s.length + 2).sum + 298 * es.length ≤ (es.map (fieldCost rt)).sum
      | .error p => p.text.length ≤ 100
  | [], _ => by simp [Expr.args, callStrings]
  | e :: es, h => by
      have he : Short rt e := h e (List.mem_cons_self _ _)
      have ih := callStrings_short rt es (fun x hx => h x (List.mem_cons_of_mem _ hx))
      rw [args_cons, callStrings_cons, arg_str]
      unfold Short at he
      cases hs : Expr.String rt e with
      | error p => rw [hs] at he; exact he
      | ok s =>
          rw [hs] at he
          have hc := fieldCost_of_ok rt e s hs
          cases hr : callStrings (Expr.args rt es) with
          | error p => rw [hr] at ih; exact ih
          | ok ss =>
              rw [hr] at ih
              simp only [List.map_cons, List.sum_cons, List.length_cons] at ih ⊢
              have he' : s.length + 300 ≤ sizeBound rt e := he
              omega

/-! ### The printing helpers -/

theorem args_eq_map (rt : Runtime) : ∀ es : List Expr, Expr.args rt es = es.map (Expr.arg rt)
  | [] => rfl
  | e :: es => by rw [args_cons, args_eq_map rt es, List.map_cons]

/-- The length of the result of `printFn` on short operands. -/
theorem printFn_short (rt : Runtime) (name : String) (es : List Expr)
    (h : ∀ e ∈ es, Short rt e) :
    match printFn rt name (Expr.args rt es) with
    | .ok s => s.length ≤ name.length + 2 + (es.map (fieldCost rt)).sum
    | .error p => p.text.length ≤ 100 := by
  have hc := callStrings_short rt es h
  rw [printFn_eq]
  cases hs : callStrings (Expr.args rt es) with
  | error p => rw [hs] at hc; exact hc
  | ok strs =>
      rw [hs] at hc
      show (name ++ "(" ++ strings.Join strs ", " ++ ")").length ≤ _
      have hj := Join_length_le strs ", "
      have h1 : ("(" : String).length = 1 := by decide
      have h2 : (")" : String).length = 1 := by decide
      have h3 : (", " : String).length = 2 := by decide
      rw [h3] at hj
      simp only [String.length_append, h1, h2]
      have hc' : (strs.map fun s => s.length + 2).sum + 298 * es.length
          ≤ (es.map (fieldCost rt)).sum := hc
      omega

/-- The tokens of the populated options, on a map visited in a legal order: together they are
within the measures of the option values. -/
theorem optTokens_short (rt : Runtime) (hl : rt.Legal) (m : List (String × Expr))
    (hformat : ∀ kv ∈ m, kv.1.length ≤ 20) (h : ∀ kv ∈ m, Short rt kv.2) :
    (((rt.range (m.map fun kv => (kv.1, Expr.arg rt kv.2))).filterMap fun kv =>
        if kv.2.val.isNil then none else some (Sprintf1 kv.1 kv.2)).map
      fun s => s.length + 2).sum ≤ (m.map fun kv => fieldCost rt kv.2).sum := by
  rw [(((rt.range_perm hl _).filterMap _).map _).sum_eq]
  induction m with
  | nil => simp
  | cons kv m ih =>
      have ih' := ih (fun x hx => hformat x (List.mem_cons_of_mem _ hx))
        (fun x hx => h x (List.mem_cons_of_mem _ hx))
      have hk := Sprintf1_length rt kv.1 (hformat kv (List.mem_cons_self _ _)) kv.2
        (h kv (List.mem_cons_self _ _))
      simp only [List.map_cons, List.filterMap_cons, arg_val, List.sum_cons]
      cases hn : kv.2.isNil with
      | true =>
          simp only [if_true]
          omega
      | false =>
          simp only [Bool.false_eq_true, if_false, List.map_cons, List.sum_cons]
          have hc : fieldCost rt kv.2 = sizeBound rt kv.2 := by
            unfold fieldCost
            rw [hn]
            rfl
          omega

/-- The length of the result of `printFnWithOpts` on short operands. -/
theorem printFnWithOpts_short (rt : Runtime) (hl : rt.Legal) (name : String)
    (m : List (String × Expr)) (es : List Expr) (hne : m.isEmpty = false)
    (hformat : ∀ kv ∈ m, kv.1.length ≤ 20) (hm : ∀ kv ∈ m, Short rt kv.2)
    (h : ∀ e ∈ es, Short rt e) :
    match printFnWithOpts rt name (m.map fun kv => (kv.1, Expr.arg rt kv.2))
        (Expr.args rt es) with
    | .ok s =>
        s.length ≤ name.length + 2 + ((es.map (fieldCost rt)).sum
          + (m.map fun kv => fieldCost rt kv.2).sum)
    | .error p => p.text.length ≤ 100 := by
  have hc := callStrings_short rt es h
  have ho := optTokens_short rt hl m hformat hm
  rw [printFnWithOpts_eq rt name _ _ (by cases m with
    | nil => cases hne
    | cons _ _ => rfl)]
  cases hs : callStrings (Expr.args rt es) with
  | error p => rw [hs] at hc; exact hc
  | ok strs =>
      rw [hs] at hc
      have hj := Join_length_le (strs ++ (rt.range (m.map fun kv =>
        (kv.1, Expr.arg rt kv.2))).filterMap fun kv =>
          if kv.2.val.isNil then none else some (Sprintf1 kv.1 kv.2)) ", "
      have h1 : ("(" : String).length = 1 := by decide
      have h2 : (")" : String).length = 1 := by decide
      have h3 : (", " : String).length = 2 := by decide
      rw [h3, List.map_append, List.sum_append] at hj
      simp only [String.length_append, h1, h2]
      have hc' : (strs.map fun s => s.length + 2).sum + 298 * es.length
          ≤ (es.map (fieldCost rt)).sum := hc
      omega

/-! ### Arrays, objects and bindings -/

theorem fmtVerb_sum (rt : Runtime) :
    ∀ arr : List Expr, (∀ e ∈ arr, Short rt e) →
      (((Expr.args rt arr).map fun v => fmtVerb "s" v).map fun s => s.length + 2).sum
        ≤ sizeBoundList rt arr
  | [], _ => by simp [Expr.args, sizeBoundList]
  | e :: arr, h => by
      have ih := fmtVerb_sum rt arr (fun x hx => h x (List.mem_cons_of_mem _ hx))
      have he := fmtVerb_length rt "s" rfl e (h e (List.mem_cons_self _ _))
      simp only [args_cons, List.map_cons, List.sum_cons, sizeBoundList]
      omega

/-- An `unescapedArr` with short elements is short. -/
theorem unescapedArr_short (rt : Runtime) (arr : List Expr) (h : ∀ e ∈ arr, Short rt e) :
    Short rt (.unescapedArr arr) := by
  show ("Arr\x7b" ++ strings.Join ((Expr.args rt arr).map fun v => fmtVerb "s" v) ", "
    ++ "\x7d").length + 300 ≤ 3000 + sizeBoundList rt arr
  have hj := Join_length_le ((Expr.args rt arr).map fun v => fmtVerb "s" v) ", "
  have hs := fmtVerb_sum rt arr h
  have h1 : ("Arr\x7b" : String).length = 4 := by decide
  have h2 : ("\x7d" : String).length = 1 := by decide
  have h3 : (", " : String).length = 2 := by decide
  rw [h3] at hj
  simp only [String.length_append, h1, h2]
  omega

theorem mem_sizeBoundEntries (rt : Runtime) (k : String) (v : Expr) :
    ∀ obj : List (String × Expr), (k, v) ∈ obj → sizeBound rt v ≤ sizeBoundEntries rt obj
  | [], h => by simp at h
  | (k', v') :: obj, h => by
      simp only [List.mem_cons] at h
      simp only [sizeBoundEntries]
      rcases h with h | h
      · cases h
        omega
      · have := mem_sizeBoundEntries rt k v obj h
        omega

/-- The index expression `obj[key]` on the operands of an `unescapedObj`. -/
theorem index_entryArgs (rt : Runtime) (key : String) :
    ∀ obj : List (String × Expr),
      Arg.index (Expr.entryArgs rt obj) key = Arg.nil ∨
        ∃ v, (key, v) ∈ obj ∧ Arg.index (Expr.entryArgs rt obj) key = Expr.arg rt v
  | [] => Or.inl rfl
  | (k, v) :: obj => by
      by_cases h : key = k
      · subst h
        exact Or.inr ⟨v, List.mem_cons_self _ _, by
          simp [Arg.index, Expr.entryArgs, List.lookup]⟩
      · have hb : (key == k) = false := by simpa using h
        have hstep : Arg.index (Expr.entryArgs rt ((k, v) :: obj)) key
            = Arg.index (Expr.entryArgs rt obj) key := by
          simp [Arg.index, Expr.entryArgs, List.lookup, hb]
        rw [hstep]
        rcases index_entryArgs rt key obj with h' | ⟨w, hw, h'⟩
        · exact Or.inl h'
        · exact Or.inr ⟨w, List.mem_cons_of_mem _ hw, h'⟩

theorem entry_sum (rt : Runtime) :
    ∀ obj : List (String × Expr), (∀ kv ∈ obj, Short rt kv.2) →
      (((Expr.entryArgs rt obj).map fun kv => rt.quote kv.1 ++ ": " ++ fmtVerb "s" kv.2).map
        fun s => s.length + 2).sum ≤ sizeBoundEntries rt obj
  | [], _ => by simp [Expr.entryArgs, sizeBoundEntries]
  | (k, v) :: obj, h => by
      have ih := entry_sum rt obj (fun x hx => h x (List.mem_cons_of_mem _ hx))
      have he := fmtVerb_length rt "s" rfl v (h (k, v) (List.mem_cons_self _ _))
      have h1 : (": " : String).length = 2 := by decide
      simp only [Expr.entryArgs, List.map_cons, List.sum_cons, sizeBoundEntries,
        String.length_append, h1]
      omega

/-- An `unescapedObj` with short values is short, on a map visited in a legal order. -/
theorem unescapedObj_short (rt : Runtime) (hl : rt.Legal) (obj : List (String × Expr))
    (h : ∀ kv ∈ obj, Short rt kv.2) : Short rt (.unescapedObj obj) := by
  show (unescapedObj.String rt (Expr.entryArgs rt obj)).length + 300
    ≤ 3000 + sizeBoundEntries rt obj
  unfold unescapedObj.String
  split
  · rcases index_entryArgs rt "object" obj with h' | ⟨v, hv, h'⟩
    · rw [h']
      have : (fmtVerb "s" Arg.nil).length = 10 := by decide
      omega
    · rw [h']
      have he := fmtVerb_length rt "s" rfl v (h _ hv)
      have hm := mem_sizeBoundEntries rt "object" v obj hv
      omega
  · have hj := Join_length_le ((rt.range (Expr.entryArgs rt obj)).map fun kv =>
      rt.quote kv.1 ++ ": " ++ fmtVerb "s" kv.2) ", "
    have hs := entry_sum rt obj h
    have hp := ((rt.range_perm hl (Expr.entryArgs rt obj)).map fun kv =>
      rt.quote kv.1 ++ ": " ++ fmtVerb "s" kv.2).map fun s => s.length + 2
    have h1 : ("Obj\x7b" : String).length = 4 := by decide
    have h2 : ("\x7d" : String).length = 1 := by decide
    have h3 : (", " : String).length = 2 := by decide
    rw [h3, hp.sum_eq] at hj
    simp only [String.length_append, h1, h2]
    omega

theorem bind_sum (rt : Runtime) :
    ∀ obj : List (String × Expr), (∀ kv ∈ obj, Short rt kv.2) →
      (((Expr.entryArgs rt obj).map fun kv =>
          "Bind(" ++ kv.1 ++ ", " ++ fmtVerb "s" kv.2 ++ ")").map
        fun s => s.length + 1).sum ≤ sizeBoundEntries rt obj
  | [], _ => by simp [Expr.entryArgs, sizeBoundEntries]
  | (k, v) :: obj, h => by
      have ih := bind_sum rt obj (fun x hx => h x (List.mem_cons_of_mem _ hx))
      have he := fmtVerb_length rt "s" rfl v (h (k, v) (List.mem_cons_self _ _))
      have h1 : ("Bind(" : String).length = 5 := by decide
      have h2 : (", " : String).length = 2 := by decide
      have h3 : (")" : String).length = 1 := by decide
      simp only [Expr.entryArgs, List.map_cons, List.sum_cons, sizeBoundEntries,
        String.length_append, h1, h2, h3]
      omega

/-- The bindings of `letFn.String`: together they are within the measure of the elements, and
a failed type assertion has a short text. -/
theorem letBindings_short (rt : Runtime) (hl : rt.Legal) :
    ∀ arr : List Expr,
      (∀ x ∈ arr, ∀ obj, x = .unescapedObj obj → ∀ kv ∈ obj, Short rt kv.2) →
      match letBindings rt (Expr.args rt arr) with
      | .ok bs => (bs.map fun s => s.length + 1).sum ≤ sizeBoundList rt arr
      | .error p => p.text.length ≤ 100
  | [], _ => by simp [Expr.args, letBindings, sizeBoundList]
  | x :: arr, h => by
      have ih := letBindings_short rt hl arr (fun y hy => h y (List.mem_cons_of_mem _ hy))
      rw [args_cons]
      unfold letBindings
      rw [arg_val]
      have hconv : ∀ found : String, found.length ≤ 26 →
          (Panic.interfaceConversion "faunadb.Expr" found "faunadb.unescapedObj").text.length
            ≤ 100 := by
        intro found hf
        show ("interface conversion: " ++ "faunadb.Expr" ++ " is " ++ found ++ ", not "
          ++ "faunadb.unescapedObj").length ≤ 100
        have h1 : ("interface conversion: " : String).length = 22 := by decide
        have h2 : ("faunadb.Expr" : String).length = 12 := by decide
        have h3 : (" is " : String).length = 4 := by decide
        have h4 : (", not " : String).length = 6 := by decide
        have h5 : ("faunadb.unescapedObj" : String).length = 20 := by decide
        simp only [String.length_append, h1, h2, h3, h4, h5]
        omega
      cases x with
      | nil => exact hconv "nil" (by decide)
      | value v => exact hconv _ (typeString_length (.value v))
      | unescapedArr a => exact hconv _ (typeString_length (.unescapedArr a))
      | invalidExpr err => exact hconv _ (typeString_length (.invalidExpr err))
      | fn k vals => exact hconv _ (typeString_length (.fn k vals))
      | unescapedObj obj =>
          have hb := bind_sum rt obj (h _ (List.mem_cons_self _ _) obj rfl)
          have hp := (((rt.range_perm hl (Expr.entryArgs rt obj)).map fun kv =>
            "Bind(" ++ kv.1 ++ ", " ++ fmtVerb "s" kv.2 ++ ")").map fun s => s.length + 1).sum_eq
          show (match (match letBindings rt (Expr.args rt arr) with
              | .error p => (Except.error p : Except Panic (List String))
              | .ok bs => Except.ok (((rt.range (Expr.entryArgs rt obj)).map
                  fun (kv : String × Arg) =>
                    "Bind(" ++ kv.1 ++ ", " ++ fmtVerb "s" kv.2 ++ ")") ++ bs)) with
            | .ok bs =>
                (bs.map fun (s : String) => s.length + 1).sum
                  ≤ sizeBoundList rt (.unescapedObj obj :: arr)
            | .error p => p.text.length ≤ 100)
          cases hr : letBindings rt (Expr.args rt arr) with
          | error p => rw [hr] at ih; exact ih
          | ok bs =>
              rw [hr] at ih
              simp only [List.map_append, List.sum_append, sizeBoundList, sizeBound]
              rw [hp]
              have ih' : (bs.map fun s => s.length + 1).sum ≤ sizeBoundList rt arr := ih
              omega

/-! ### The String methods -/

theorem fmtVerb_le_cost (rt : Runtime) (e : Expr) (h : Short rt e) :
    (fmtVerb "s" (Expr.arg rt e)).length ≤ fieldCost rt e + 10 := by
  cases e with
  | nil => exact Nat.le_of_ble_eq_true rfl
  | value v =>
      have := fmtVerb_length rt "s" rfl _ h
      show _ ≤ sizeBound rt (.value v) + 10
      omega
  | unescapedObj obj =>
      have := fmtVerb_length rt "s" rfl _ h
      show _ ≤ sizeBound rt (.unescapedObj obj) + 10
      omega
  | unescapedArr arr =>
      have := fmtVerb_length rt "s" rfl _ h
      show _ ≤ sizeBound rt (.unescapedArr arr) + 10
      omega
  | invalidExpr err =>
      have := fmtVerb_length rt "s" rfl _ h
      show _ ≤ sizeBound rt (.invalidExpr err) + 10
      omega
  | fn k vals =>
      have := fmtVerb_length rt "s" rfl _ h
      show _ ≤ sizeBound rt (.fn k vals) + 10
      omega

/-- The method `letFn.String` on short operands. -/
theorem letFn_short (rt : Runtime) (hl : rt.Legal) (Let In : Expr) (hIn : Short rt In)
    (hLet : ∀ arr, Let = .unescapedArr arr →
      ∀ x ∈ arr, ∀ obj, x = .unescapedObj obj → ∀ kv ∈ obj, Short rt kv.2) :
    match letFn.String rt (Expr.arg rt Let) (Expr.arg rt In) with
    | .ok s => s.length + 2700 ≤ fieldCost rt Let + fieldCost rt In
    | .error p => p.text.length ≤ 100 := by
  have hmsg : ∀ e : Expr, (Panic.message
      ("Let bindings should be an unescapedArr, " ++ e.typeString ++ " instead")).text.length
        ≤ 100 := by
    intro e
    show ("Let bindings should be an unescapedArr, " ++ e.typeString ++ " instead").length ≤ 100
    have h1 : ("Let bindings should be an unescapedArr, " : String).length = 40 := by decide
    have h2 : (" instead" : String).length = 8 := by decide
    have h3 := typeString_length e
    simp only [String.length_append, h1, h2]
    omega
  cases Let with
  | nil => exact hmsg .nil
  | value v => exact hmsg (.value v)
  | unescapedObj obj => exact hmsg (.unescapedObj obj)
  | invalidExpr err => exact hmsg (.invalidExpr err)
  | fn k vals => exact hmsg (.fn k vals)
  | unescapedArr arr =>
      have hb := letBindings_short rt hl arr (hLet arr rfl)
      have helems : ((Expr.arg rt (.unescapedArr arr)).elems.map Prod.snd) = Expr.args rt arr := by
        show ((Expr.args rt arr).map fun a => ("", a)).map Prod.snd = _
        rw [List.map_map]
        exact List.map_id _
      show (match (match letBindings rt ((Expr.arg rt (.unescapedArr arr)).elems.map Prod.snd) with
          | .error p => (Except.error p : Except Panic String)
          | .ok bindings =>
              .ok ("Let()." ++ strings.Join bindings "." ++ ".In("
                ++ fmtVerb "s" (Expr.arg rt In) ++ ")")) with
        | .ok s => s.length + 2700 ≤ fieldCost rt (.unescapedArr arr) + fieldCost rt In
        | .error p => p.text.length ≤ 100)
      rw [helems]
      cases hr : letBindings rt (Expr.args rt arr) with
      | error p => rw [hr] at hb; exact hb
      | ok bs =>
          rw [hr] at hb
          have hj := Join_length_le bs "."
          have hf := fmtVerb_le_cost rt In hIn
          have h1 : ("Let()." : String).length = 6 := by decide
          have h2 : (".In(" : String).length = 4 := by decide
          have h3 : (")" : String).length = 1 := by decide
          have h4 : ("." : String).length = 1 := by decide
          rw [h4] at hj
          have hb' : (bs.map fun s => s.length + 1).sum ≤ sizeBoundList rt arr := hb
          show ("Let()." ++ strings.Join bs "." ++ ".In(" ++ fmtVerb "s" (Expr.arg rt In)
            ++ ")").length + 2700 ≤ (3000 + sizeBoundList rt arr) + fieldCost rt In
          simp only [String.length_append, h1, h2, h3]
          omega

/-- The call that a small shape stands for, on short fields that `g` selects: the result is
within the measures of the fields, and a panic has a short text. -/
theorem shape_short (rt : Runtime) (hl : rt.Legal) (sh : Shape) (hsmall : sh.small = true)
    (g : String → Expr) (hg : ∀ F, Short rt (g F))
    (hLet : ∀ arr, g "Let" = .unescapedArr arr →
      ∀ x ∈ arr, ∀ obj, x = .unescapedObj obj → ∀ kv ∈ obj, Short rt kv.2)
    (B : Nat)
    (hB : ∀ Fs : List String, Fs.Nodup → (Fs.map fun F => fieldCost rt (g F)).sum ≤ B) :
    match sh.run rt (fun F => Expr.arg rt (g F)) with
    | .ok s => s.length + 300 ≤ 3000 + B
    | .error p => p.text.length ≤ 100 := by
  have hmap : ∀ Fs : List String,
      (Fs.map fun F => Expr.arg rt (g F)) = Expr.args rt (Fs.map g) := by
    intro Fs
    rw [args_eq_map, List.map_map]
    rfl
  have hshort : ∀ Fs : List String, ∀ e ∈ Fs.map g, Short rt e := by
    intro Fs e he
    obtain ⟨F, _, rfl⟩ := List.mem_map.mp he
    exact hg F
  have hprint : ∀ (name : String) (Fs : List String), name.length ≤ 26 → Fs.Nodup →
      match printFn rt name (Fs.map fun F => Expr.arg rt (g F)) with
      | .ok s => s.length + 300 ≤ 3000 + B
      | .error p => p.text.length ≤ 100 := by
    intro name Fs hname hnd
    have h := printFn_short rt name (Fs.map g) (hshort Fs)
    have hb := hB Fs hnd
    rw [hmap]
    cases hr : printFn rt name (Expr.args rt (Fs.map g)) with
    | error p => rw [hr] at h; exact h
    | ok s =>
        rw [hr] at h
        have h' : s.length ≤ name.length + 2 + ((Fs.map g).map (fieldCost rt)).sum := h
        rw [List.map_map] at h'
        have hb' : (Fs.map (fieldCost rt ∘ g)).sum ≤ B := hb
        show s.length + 300 ≤ 3000 + B
        omega
  have hnoargs : ∀ name : String, name.length ≤ 26 →
      match printNoArgsFn rt name with
      | .ok s => s.length + 300 ≤ 3000 + B
      | .error p => p.text.length ≤ 100 := by
    intro name hname
    show (name ++ "(" ++ "" ++ ")").length + 300 ≤ 3000 + B
    have h1 : ("(" : String).length = 1 := by decide
    have h2 : (")" : String).length = 1 := by decide
    have h3 : ("" : String).length = 0 := by decide
    simp only [String.length_append, h1, h2, h3]
    omega
  have hscoped : ∀ name : String, name.length ≤ 20 → ("Scoped" ++ name).length ≤ 26 := by
    intro name hname
    have h1 : ("Scoped" : String).length = 6 := by decide
    rw [String.length_append, h1]
    omega
  cases sh with
  | fn name args =>
      simp only [Shape.small, Shape.printed, Bool.and_eq_true, decide_eq_true_eq] at hsmall
      exact hprint name args (by omega) hsmall.1.1
  | withOpts name mapping args =>
      simp only [Shape.small, Shape.printed, Bool.and_eq_true, decide_eq_true_eq,
        Bool.not_eq_true', List.all_eq_true] at hsmall
      obtain ⟨⟨hnd, _⟩, ⟨hname, hne⟩, hformat⟩ := hsmall
      have hmm : (mapping.map fun kv => (kv.1, Expr.arg rt (g kv.2)))
          = (mapping.map fun kv => (kv.1, g kv.2)).map fun kv => (kv.1, Expr.arg rt kv.2) := by
        rw [List.map_map]
        rfl
      have h := printFnWithOpts_short rt hl name (mapping.map fun kv => (kv.1, g kv.2))
        (args.map g) (by cases mapping with
          | nil => cases hne
          | cons _ _ => rfl)
        (by
          intro kv hkv
          obtain ⟨x, hx, rfl⟩ := List.mem_map.mp hkv
          exact hformat x hx)
        (by
          intro kv hkv
          obtain ⟨x, _, rfl⟩ := List.mem_map.mp hkv
          exact hg x.2)
        (hshort args)
      have hb := hB (args ++ mapping.map Prod.snd) hnd
      rw [List.map_append, List.sum_append, List.map_map] at hb
      show (match printFnWithOpts rt name (mapping.map fun kv => (kv.1, Expr.arg rt (g kv.2)))
          (args.map fun F => Expr.arg rt (g F)) with
        | .ok s => s.length + 300 ≤ 3000 + B
        | .error p => p.text.length ≤ 100)
      rw [hmm, hmap]
      cases hr : printFnWithOpts rt name
          ((mapping.map fun kv => (kv.1, g kv.2)).map fun kv => (kv.1, Expr.arg rt kv.2))
          (Expr.args rt (args.map g)) with
      | error p => rw [hr] at h; exact h
      | ok s =>
          rw [hr] at h
          have h' : s.length ≤ name.length + 2 + (((args.map g).map (fieldCost rt)).sum
            + ((mapping.map fun kv => (kv.1, g kv.2)).map fun kv => fieldCost rt kv.2).sum) := h
          rw [List.map_map, List.map_map] at h'
          show s.length + 300 ≤ 3000 + B
          have e1 : (args.map fun F => fieldCost rt (g F)).sum
              = (args.map (fieldCost rt ∘ g)).sum := rfl
          have e2 : (mapping.map ((fun F => fieldCost rt (g F)) ∘ Prod.snd)).sum
              = (mapping.map ((fun kv : String × Expr => fieldCost rt kv.2)
                  ∘ fun kv : String × String => (kv.1, g kv.2))).sum := rfl
          omega
  | noArgs name =>
      simp only [Shape.small, Shape.printed, Bool.and_eq_true, decide_eq_true_eq] at hsmall
      exact hnoargs name (by omega)
  | scopedFn name arg1 scope =>
      simp only [Shape.small, Shape.printed, Bool.and_eq_true, decide_eq_true_eq] at hsmall
      obtain ⟨⟨hnd, _⟩, hname⟩ := hsmall
      show (match printScopedFn rt name (Expr.arg rt (g arg1)) (Expr.arg rt (g scope)) with
        | .ok s => s.length + 300 ≤ 3000 + B
        | .error p => p.text.length ≤ 100)
      unfold printScopedFn
      by_cases hc : (!(Expr.arg rt (g scope)).val.isNil) = true
      · rw [if_pos hc]
        exact hprint ("Scoped" ++ name) [arg1, scope] (hscoped name hname) hnd
      · rw [if_neg hc]
        exact hprint name [arg1] (by omega) (List.nodup_singleton _)
  | keyScopedFn name expr =>
      simp only [Shape.small, Shape.printed, Bool.and_eq_true, decide_eq_true_eq] at hsmall
      obtain ⟨_, hname⟩ := hsmall
      show (match printKeyScopedFn rt name (Expr.arg rt (g expr)) with
        | .ok s => s.length + 300 ≤ 3000 + B
        | .error p => p.text.length ≤ 100)
      unfold printKeyScopedFn
      by_cases hc : (!(Expr.arg rt (g expr)).val.isNull) = true
      · rw [if_pos hc]
        exact hprint ("Scoped" ++ name) [expr] (hscoped name hname) (List.nodup_singleton _)
      · rw [if_neg hc]
        exact hnoargs name (by omega)
  | matchFn =>
      show (match matchFn.String rt (Expr.arg rt (g "Match")) (Expr.arg rt (g "Terms")) with
        | .ok s => s.length + 300 ≤ 3000 + B
        | .error p => p.text.length ≤ 100)
      unfold matchFn.String
      by_cases hc : (!(Expr.arg rt (g "Terms")).val.isNil) = true
      · rw [if_pos hc]
        exact hprint "MatchTerms" ["Match", "Terms"] (by decide) (by decide)
      · rw [if_neg hc]
        exact hprint "Match" ["Match"] (by decide) (List.nodup_singleton _)
  | letFn =>
      have h := letFn_short rt hl (g "Let") (g "In") (hg "In") hLet
      have hb := hB ["Let", "In"] (by decide)
      simp only [List.map_cons, List.map_nil, List.sum_cons, List.sum_nil] at hb
      show (match letFn.String rt (Expr.arg rt (g "Let")) (Expr.arg rt (g "In")) with
        | .ok s => s.length + 300 ≤ 3000 + B
        | .error p => p.text.length ≤ 100)
      cases hr : letFn.String rt (Expr.arg rt (g "Let")) (Expr.arg rt (g "In")) with
      | error p => rw [hr] at h; exact h
      | ok s =>
          rw [hr] at h
          have h' : s.length + 2700 ≤ fieldCost rt (g "Let") + fieldCost rt (g "In") := h
          show s.length + 300 ≤ 3000 + B
          omega

/-- On a map visited in a legal order every expression is short, by induction on its size. -/
theorem Short_all (rt : Runtime) (hl : rt.Legal) :
    ∀ (n : Nat) (e : Expr), sizeOf e < n → Short rt e := by
  intro n
  induction n with
  | zero => intro e he; omega
  | succ n ih =>
      intro e he
      cases e with
      | nil => exact Short_nil rt
      | value v =>
          show (rt.valueString v).length + 300 ≤ 3000 + (rt.valueString v).length
          omega
      | invalidExpr err =>
          show ("invalidExpr" : String).length + 300 ≤ 3000
          decide
      | unescapedArr arr =>
          apply unescapedArr_short
          intro x hx
          apply ih
          have h1 := List.sizeOf_lt_of_mem hx
          simp only [Expr.unescapedArr.sizeOf_spec] at he
          omega
      | unescapedObj obj =>
          apply unescapedObj_short rt hl
          intro kv hkv
          apply ih
          have h1 := List.sizeOf_lt_of_mem hkv
          have h2 : sizeOf kv.2 < sizeOf kv := by
            cases kv
            simp only [Prod.mk.sizeOf_spec]
            omega
          simp only [Expr.unescapedObj.sizeOf_spec] at he
          omega
      | fn k vals =>
          simp only [Expr.fn.sizeOf_spec] at he
          have hmem : ∀ F, getField k.fields vals F ≠ .nil →
              sizeOf (getField k.fields vals F) < sizeOf vals := by
            intro F hF
            rcases getField_nil_or_mem F k.fields vals with h | h
            · exact absurd h hF
            · exact List.sizeOf_lt_of_mem h
          have hg : ∀ F, Short rt (getField k.fields vals F) := by
            intro F
            by_cases hF : getField k.fields vals F = .nil
            · rw [hF]
              exact Short_nil rt
            · apply ih
              have := hmem F hF
              omega
          have hLet : ∀ arr, getField k.fields vals "Let" = .unescapedArr arr →
              ∀ x ∈ arr, ∀ obj, x = .unescapedObj obj → ∀ kv ∈ obj, Short rt kv.2 := by
            intro arr harr x hx obj hobj kv hkv
            apply ih
            have h0 := hmem "Let" (by rw [harr]; exact Expr.noConfusion)
            rw [harr] at h0
            simp only [Expr.unescapedArr.sizeOf_spec] at h0
            have h1 := List.sizeOf_lt_of_mem hx
            rw [hobj] at h1
            simp only [Expr.unescapedObj.sizeOf_spec] at h1
            have h2 := List.sizeOf_lt_of_mem hkv
            have h3 : sizeOf kv.2 < sizeOf kv := by
              cases kv
              simp only [Prod.mk.sizeOf_spec]
              omega
            omega
          have hfn : Arg.index (fieldArgs k.fields (Expr.args rt vals))
              = fun F => Expr.arg rt (getField k.fields vals F) :=
            funext fun F => index_fieldArgs rt F k.fields vals
          show (match k.String rt (Arg.index (fieldArgs k.fields (Expr.args rt vals))) with
            | .ok s => s.length + 300 ≤ 3000 + sizeBoundList rt vals
            | .error p => p.text.length ≤ 100)
          rw [hfn, String_eq_run]
          exact shape_short rt hl k.shape (shape_small k) (getField k.fields vals) hg hLet
            (sizeBoundList rt vals) (fun Fs hnd => getField_cost_sum rt k.fields vals Fs hnd)

/-- C30.  On a map visited in a legal order, for every expression `e`: the call `e.String()`
returns a string of at most `sizeBound rt e` characters, or it panics with a text of at most a
hundred characters.  `sizeBound` is a sum over the values of type `Expr` in `e`.  The calls are
by recursion on the structure: the result for an `unescapedArr`, an `unescapedObj` and a struct
is a function of the operands for the elements, the values and the field values. -/
theorem String_total_and_bounded (rt : Runtime) (hl : rt.Legal) (e : Expr) (arr : List Expr)
    (obj : List (String × Expr)) (k : FnKind) (vals : List Expr) :
    ((∃ s, Expr.String rt e = .ok s ∧ s.length ≤ sizeBound rt e) ∨
        (∃ p, Expr.String rt e = .error p ∧ p.text.length ≤ 100)) ∧
      Expr.String rt (.unescapedArr arr) = .ok (unescapedArr.String (Expr.args rt arr)) ∧
      Expr.String rt (.unescapedObj obj)
        = .ok (unescapedObj.String rt (Expr.entryArgs rt obj)) ∧
      Expr.String rt (.fn k vals)
        = k.String rt (fun F => Expr.arg rt (getField k.fields vals F)) := by
  refine ⟨?_, rfl, rfl, ?_⟩
  · have h := Short_all rt hl (sizeOf e + 1) e (Nat.lt_succ_self _)
    unfold Short at h
    cases hs : Expr.String rt e with
    | ok s =>
        rw [hs] at h
        have h' : s.length + 300 ≤ sizeBound rt e := h
        exact Or.inl ⟨s, rfl, by omega⟩
    | error p =>
        rw [hs] at h
        exact Or.inr ⟨p, rfl, h⟩
  · show k.String rt (Arg.index (fieldArgs k.fields (Expr.args rt vals))) = _
    rw [show Arg.index (fieldArgs k.fields (Expr.args rt vals))
        = fun F => Expr.arg rt (getField k.fields vals F) from
      funext fun F => index_fieldArgs rt F k.fields vals]

theorem String_total_and_bounded_witness :
    ((∃ s, Expr.String (Runtime.inOrder (fun _ => "") id (.ok false))
          (.fn .getFn [Classes, .nil]) = .ok s ∧
          s.length ≤ sizeBound (Runtime.inOrder (fun _ => "") id (.ok false))
            (.fn .getFn [Classes, .nil])) ∨
        (∃ p, Expr.String (Runtime.inOrder (fun _ => "") id (.ok false))
          (.fn .getFn [Classes, .nil]) = .error p ∧ p.text.length ≤ 100)) ∧
      Expr.String (Runtime.inOrder (fun _ => "") id (.ok false)) (.unescapedArr [Now])
        = .ok (unescapedArr.String
            (Expr.args (Runtime.inOrder (fun _ => "") id (.ok false)) [Now])) ∧
      Expr.String (Runtime.inOrder (fun _ => "") id (.ok false)) (.unescapedObj [("a", Now)])
        = .ok (unescapedObj.String (Runtime.inOrder (fun _ => "") id (.ok false))
            (Expr.entryArgs (Runtime.inOrder (fun _ => "") id (.ok false)) [("a", Now)])) ∧
      Expr.String (Runtime.inOrder (fun _ => "") id (.ok false)) (.fn .getFn [Classes, .nil])
        = FnKind.getFn.String (Runtime.inOrder (fun _ => "") id (.ok false))
            (fun F => Expr.arg (Runtime.inOrder (fun _ => "") id (.ok false))
              (getField FnKind.getFn.fields [Classes, .nil] F)) :=
  String_total_and_bounded _ (Runtime.inOrder_Legal _ _ _) (.fn .getFn [Classes, .nil]) [Now]
    [("a", Now)] .getFn [Classes, .nil]

/-! ## Claims: arrays, objects and let -/

/-- The `Obj` form of `unescapedObj.String`: the branch for an object that is not the
literal-data wrapper. -/
theorem String_unescapedObj_form (rt : Runtime) (obj : List (String × Expr))
    (h : (obj.length = 1 && !(Arg.index (Expr.entryArgs rt obj) "object").val.isNil) = false) :
    Expr.String rt (.unescapedObj obj)
      = .ok ("Obj\x7b" ++ strings.Join ((rt.range (Expr.entryArgs rt obj)).map fun kv =>
          rt.quote kv.1 ++ ": " ++ fmtVerb "s" kv.2) ", " ++ "\x7d") := by
  have hlen : ∀ l : List (String × Expr), (Expr.entryArgs rt l).length = l.length := by
    intro l
    induction l with
    | nil => rfl
    | cons kv l ih =>
        obtain ⟨k, v⟩ := kv
        simp [Expr.entryArgs, ih]
  show Except.ok (unescapedObj.String rt (Expr.entryArgs rt obj)) = _
  unfold unescapedObj.String
  rw [hlen, h]
  rfl

/-- An object with one entry whose key is not `"object"`, on a map visited in a legal order. -/
theorem String_unescapedObj_single (rt : Runtime) (hl : rt.Legal) (k : String) (v : Expr)
    (hk : k ≠ "object") :
    Expr.String rt (.unescapedObj [(k, v)])
      = .ok ("Obj\x7b" ++ rt.quote k ++ ": " ++ fmtVerb "s" (Expr.arg rt v) ++ "\x7d") := by
  have hidx : Arg.index (Expr.entryArgs rt [(k, v)]) "object" = Arg.nil := by
    have hb : ("object" == k) = false := by simpa using fun e => hk e.symm
    simp [Arg.index, Expr.entryArgs, List.lookup, hb]
  rw [String_unescapedObj_form rt [(k, v)] (by rw [hidx]; rfl)]
  show Except.ok ("Obj\x7b" ++ strings.Join ((rt.range [(k, Expr.arg rt v)]).map fun kv =>
    rt.quote kv.1 ++ ": " ++ fmtVerb "s" kv.2) ", " ++ "\x7d") = _
  rw [Runtime.range_singleton rt hl]
  rfl

/-- C31.  For every expression `X` whose `String` method returns `s`, the `unescapedObj` with
the one entry `"object": X` renders as `s`.  An object with one entry under another key, or with
two entries or more (also when one of the keys is `"object"`), renders in the form `Obj{...}`:
the entries in the order of the `range` loop, each as the quoted key, `": "` and what `fmt`
prints for the value.  (The wrapper prints `X` through `fmt`: when the `String` method of a
struct `X` panics, `fmt` recovers and the wrapper renders as the report of the panic.) -/
theorem object_wrapper_transparent (rt : Runtime) (hl : rt.Legal) (X : Expr) (s : String)
    (k : String) (v : Expr) (obj : List (String × Expr)) (kind : FnKind) (vals : List Expr)
    (hX : Expr.String rt X = .ok s) (hk : k ≠ "object") (hobj : 2 ≤ obj.length) :
    Expr.String rt (.unescapedObj [("object", X)]) = .ok s ∧
      Expr.String rt (.unescapedObj [("object", .fn kind vals)])
        = .ok (fmtVerb "s" (Expr.arg rt (.fn kind vals))) ∧
      Expr.String rt (.unescapedObj [(k, v)])
        = .ok ("Obj\x7b" ++ rt.quote k ++ ": " ++ fmtVerb "s" (Expr.arg rt v) ++ "\x7d") ∧
      Expr.String rt (.unescapedObj obj)
        = .ok ("Obj\x7b" ++ strings.Join ((rt.range (Expr.entryArgs rt obj)).map fun kv =>
            rt.quote kv.1 ++ ": " ++ fmtVerb "s" kv.2) ", " ++ "\x7d") := by
  refine ⟨?_, rfl, String_unescapedObj_single rt hl k v hk, ?_⟩
  · have hnil : X.isNil = false := by
      cases X with
      | nil => cases hX
      | _ => rfl
    show Except.ok (unescapedObj.String rt [("object", Expr.arg rt X)]) = _
    unfold unescapedObj.String
    have hidx : Arg.index [("object", Expr.arg rt X)] "object" = Expr.arg rt X := rfl
    rw [hidx, arg_val, hnil, fmtVerb_ok rt "s" X s hX]
    rfl
  · apply String_unescapedObj_form
    have h : decide (obj.length = 1) = false := by
      simp only [decide_eq_false_iff_not]
      omega
    rw [h]
    rfl

theorem object_wrapper_transparent_witness :
    Expr.String (Runtime.inOrder (fun _ => "") id (.ok false))
        (.unescapedObj [("object", Now)]) = .ok "Now()" ∧
      Expr.String (Runtime.inOrder (fun _ => "") id (.ok false))
          (.unescapedObj [("object", .fn .getFn [.nil, .nil])])
        = .ok (fmtVerb "s" (Expr.arg (Runtime.inOrder (fun _ => "") id (.ok false))
            (.fn .getFn [.nil, .nil]))) ∧
      Expr.String (Runtime.inOrder (fun _ => "") id (.ok false)) (.unescapedObj [("data", Now)])
        = .ok ("Obj\x7b" ++ (Runtime.inOrder (fun _ => "") id (.ok false)).quote "data" ++ ": "
            ++ fmtVerb "s" (Expr.arg (Runtime.inOrder (fun _ => "") id (.ok false)) Now)
            ++ "\x7d") ∧
      Expr.String (Runtime.inOrder (fun _ => "") id (.ok false))
          (.unescapedObj [("object", Now), ("data", Identity)])
        = .ok ("Obj\x7b" ++ strings.Join
            (((Runtime.inOrder (fun _ => "") id (.ok false)).range
              (Expr.entryArgs (Runtime.inOrder (fun _ => "") id (.ok false))
                [("object", Now), ("data", Identity)])).map fun kv =>
              (Runtime.inOrder (fun _ => "") id (.ok false)).quote kv.1 ++ ": "
                ++ fmtVerb "s" kv.2) ", " ++ "\x7d") :=
  object_wrapper_transparent _ (Runtime.inOrder_Legal _ _ _) Now "Now()" "data" Now
    [("object", Now), ("data", Identity)] .getFn [.nil, .nil] rfl (by decide) (by decide)

/-- What `fmt` prints for operands that render. -/
theorem fmtVerb_map_ok (rt : Runtime) :
    ∀ (es : List Expr) (strs : List String),
      List.Forall₂ (fun e s => Expr.String rt e = .ok s) es strs →
      (Expr.args rt es).map (fun v => fmtVerb "s" v) = strs
  | [], _, h => by cases h; rfl
  | e :: es, _, h => by
      cases h with
      | cons he hes =>
          rw [args_cons, List.map_cons, fmtVerb_ok rt "s" e _ he, fmtVerb_map_ok rt es _ hes]

/-- C32.  For every list of expressions whose `String` methods return `s1, ..., sn`, the
`unescapedArr` of the list renders as `Arr{s1, ..., sn}`, the renderings joined by `", "` in the
order of the elements; the empty array renders as `Arr{}`. -/
theorem unescapedArr_renders (rt : Runtime) (es : List Expr) (strs : List String)
    (h : List.Forall₂ (fun e s => Expr.String rt e = .ok s) es strs) :
    Expr.String rt (.unescapedArr es) = .ok ("Arr\x7b" ++ ", ".intercalate strs ++ "\x7d") ∧
      Expr.String rt (.unescapedArr []) = .ok "Arr\x7b\x7d" := by
  refine ⟨?_, rfl⟩
  rw [String_unescapedArr]
  unfold unescapedArr.String
  rw [fmtVerb_map_ok rt es strs h]
  rfl

theorem unescapedArr_renders_witness :
    Expr.String (Runtime.inOrder (fun _ => "") id (.ok false))
        (.unescapedArr [Now, Identity, Classes])
        = .ok ("Arr\x7b" ++ ", ".intercalate ["Now()", "Identity()", "Classes()"] ++ "\x7d") ∧
      Expr.String (Runtime.inOrder (fun _ => "") id (.ok false)) (.unescapedArr [])
        = .ok "Arr\x7b\x7d" :=
  unescapedArr_renders _ [Now, Identity, Classes] ["Now()", "Identity()", "Classes()"]
    (.cons rfl (.cons rfl (.cons rfl .nil)))

/-- C33.  On a map visited in a legal order, for every key `k` other than `"object"` and every
expression `v` whose `String` method returns `v'`, the `unescapedObj` with the one entry `k: v`
renders as `Obj{` followed by `strconv.Quote(k)`, `": "`, `v'` and `}`; the empty object
renders as `Obj{}`. -/
theorem single_entry_object_renders (rt : Runtime) (hl : rt.Legal) (k : String) (v : Expr)
    (v' : String) (hk : k ≠ "object") (hv : Expr.String rt v = .ok v') :
    Expr.String rt (.unescapedObj [(k, v)])
        = .ok ("Obj\x7b" ++ rt.quote k ++ ": " ++ v' ++ "\x7d") ∧
      Expr.String rt (.unescapedObj []) = .ok "Obj\x7b\x7d" := by
  refine ⟨?_, String_unescapedObj_nil rt⟩
  rw [String_unescapedObj_single rt hl k v hk, fmtVerb_ok rt "s" v v' hv]

theorem single_entry_object_renders_witness :
    Expr.String (Runtime.inOrder (fun _ => "") id (.ok false))
        (.unescapedObj [("data", Now)])
        = .ok ("Obj\x7b" ++ (Runtime.inOrder (fun _ => "") id
            (.ok false)).quote "data" ++ ": " ++ "Now()" ++ "\x7d") ∧
      Expr.String (Runtime.inOrder (fun _ => "") id (.ok false))
        (.unescapedObj []) = .ok "Obj\x7b\x7d" :=
  single_entry_object_renders _ (Runtime.inOrder_Legal _ _ _) "data" Now "Now()" (by decide) rfl

/-- C37.  `varargs` returns its one argument when it has one, and the slice of its arguments
when it has none or two or more.  So the field of `Union(x)` is `wrap(x)`, and the field of
`Union(x, y)` is the wrapped slice of the two, the `unescapedArr` of `wrap(x)` and `wrap(y)`. -/
theorem varargs_collapses_one (x y : Host) (rest : List Host) :
    varargs [x] = x ∧
      varargs [] = .slice [] ∧
      varargs (x :: y :: rest) = .slice (x :: y :: rest) ∧
      (Union [x]).get "Union" = wrap x ∧
      (Union [x, y]).get "Union" = wrap (.slice [x, y]) ∧
      (Union [x, y]).get "Union" = .unescapedArr [wrap x, wrap y] := by
  refine ⟨rfl, rfl, varargs_two x y rest, rfl, rfl, rfl⟩

/-! ### Let -/

theorem foldl_Bind_bindings :
    ∀ (kvs : List (String × Host)) (lb : LetBuilder),
      (kvs.foldl (fun lb kv => lb.Bind kv.1 kv.2) lb).bindings
        = lb.bindings ++ kvs.map fun kv => Expr.unescapedObj [(kv.1, wrap kv.2)]
  | [], lb => by simp
  | kv :: kvs, lb => by
      rw [List.foldl_cons, foldl_Bind_bindings kvs]
      simp [LetBuilder.Bind]

/-- The node that the call chain builds. -/
theorem letChain_eq (kvs : List (String × Host)) (b : Expr) :
    letChain kvs b = .fn .letFn
      [b, .unescapedArr (kvs.map fun kv => Expr.unescapedObj [(kv.1, wrap kv.2)])] := by
  have h := foldl_Bind_bindings kvs Let
  have h0 : Let.bindings = [] := rfl
  rw [h0, List.nil_append] at h
  show structLit .letFn [("Let", wrap (.expr (.unescapedArr
    (kvs.foldl (fun lb kv => lb.Bind kv.1 kv.2) Let).bindings))), ("In", b)] = _
  rw [h]
  rfl

/-- The method `letFn.String` on a let node whose bindings are an `unescapedArr`. -/
theorem String_letFn (rt : Runtime) (b : Expr) (arr : List Expr) :
    Expr.String rt (.fn .letFn [b, .unescapedArr arr])
      = (match letBindings rt (Expr.args rt arr) with
        | .error p => .error p
        | .ok bindings =>
            .ok ("Let()." ++ strings.Join bindings "." ++ ".In("
              ++ fmtVerb "s" (Expr.arg rt b) ++ ")")) := by
  have helems : ((Expr.arg rt (.unescapedArr arr)).elems.map Prod.snd) = Expr.args rt arr := by
    show ((Expr.args rt arr).map fun a => ("", a)).map Prod.snd = _
    rw [List.map_map]
    exact List.map_id _
  show (match letBindings rt ((Expr.arg rt (.unescapedArr arr)).elems.map Prod.snd) with
    | .error p => (Except.error p : Except Panic String)
    | .ok bindings =>
        .ok ("Let()." ++ strings.Join bindings "." ++ ".In("
          ++ fmtVerb "s" (Expr.arg rt b) ++ ")")) = _
  rw [helems]

/-- The loop of `letFn.String` over one-entry objects, on a map visited in a legal order: one
token for each, in order. -/
theorem letBindings_single (rt : Runtime) (hl : rt.Legal) :
    ∀ kvs : List (String × Expr),
      letBindings rt (Expr.args rt (kvs.map fun kv => Expr.unescapedObj [(kv.1, kv.2)]))
        = .ok (kvs.map fun kv =>
            "Bind(" ++ kv.1 ++ ", " ++ fmtVerb "s" (Expr.arg rt kv.2) ++ ")")
  | [] => rfl
  | (k, v) :: kvs => by
      have ih := letBindings_single rt hl kvs
      rw [List.map_cons, args_cons]
      unfold letBindings
      rw [arg_val]
      show (match letBindings rt (Expr.args rt
          (kvs.map fun kv => Expr.unescapedObj [(kv.1, kv.2)])) with
        | .error p => (Except.error p : Except Panic (List String))
        | .ok bs => .ok (((rt.range [(k, Expr.arg rt v)]).map fun (kv : String × Arg) =>
            "Bind(" ++ kv.1 ++ ", " ++ fmtVerb "s" kv.2 ++ ")") ++ bs)) = _
      rw [ih, Runtime.range_singleton rt hl]
      rfl

/-- The loop of `letFn.String` over objects returns, in whatever order the maps are visited. -/
theorem letBindings_objects (rt : Runtime) :
    ∀ objs : List (List (String × Expr)),
      ∃ bs, letBindings rt (Expr.args rt (objs.map Expr.unescapedObj)) = .ok bs
  | [] => ⟨[], rfl⟩
  | obj :: objs => by
      obtain ⟨bs, ih⟩ := letBindings_objects rt objs
      rw [List.map_cons, args_cons]
      unfold letBindings
      rw [arg_val]
      show ∃ bs', (match letBindings rt (Expr.args rt (objs.map Expr.unescapedObj)) with
        | .error p => (Except.error p : Except Panic (List String))
        | .ok bs => .ok (((rt.range (Expr.entryArgs rt obj)).map fun (kv : String × Arg) =>
            "Bind(" ++ kv.1 ++ ", " ++ fmtVerb "s" kv.2 ++ ")") ++ bs)) = .ok bs'
      rw [ih]
      exact ⟨_, rfl⟩

/-- C34.  On a map visited in a legal order, for every list of bindings `(k1, v1), ...,
(kn, vn)` whose wrapped values render as `s1, ..., sn` and every body `b` that renders as `b'`:
the call chain `Let().Bind(k1, v1). ... .Bind(kn, vn).In(b)` returns the `letFn` whose field
`Let` is the `unescapedArr` of the one-entry objects `{ki: wrap(vi)}` in the order of the calls
and whose field `In` is `b`, and the node renders as `Let().`, the tokens `Bind(ki, si)` joined
by `.`, then `.In(b')`; without a binding that is `Let()..In(b')`. -/
theorem Let_chain_renders (rt : Runtime) (hl : rt.Legal) (kvs : List (String × Host))
    (b : Expr) (strs : List String) (b' : String)
    (hkvs : List.Forall₂ (fun kv s => Expr.String rt (wrap kv.2) = .ok s) kvs strs)
    (hb : Expr.String rt b = .ok b') :
    letChain kvs b = structLit .letFn
        [("Let", .unescapedArr (kvs.map fun kv => Expr.unescapedObj [(kv.1, wrap kv.2)])),
          ("In", b)] ∧
      Expr.String rt (letChain kvs b)
        = .ok ("Let()." ++ ".".intercalate (List.zipWith
            (fun kv s => "Bind(" ++ kv.1 ++ ", " ++ s ++ ")") kvs strs)
            ++ ".In(" ++ b' ++ ")") ∧
      Expr.String rt (letChain [] b) = .ok ("Let()..In(" ++ b' ++ ")") := by
  have hfmt : ∀ (kvs : List (String × Host)) (strs : List String),
      List.Forall₂ (fun kv s => Expr.String rt (wrap kv.2) = .ok s) kvs strs →
      ((kvs.map fun kv => (kv.1, wrap kv.2)).map fun (kv : String × Expr) =>
          "Bind(" ++ kv.1 ++ ", " ++ fmtVerb "s" (Expr.arg rt kv.2) ++ ")")
        = List.zipWith (fun kv s => "Bind(" ++ kv.1 ++ ", " ++ s ++ ")") kvs strs := by
    intro kvs strs h
    induction h with
    | nil => rfl
    | cons h1 _ ih =>
        simp only [List.map_cons, List.zipWith_cons_cons, fmtVerb_ok rt "s" _ _ h1]
        rw [← ih]
  have hmap : (kvs.map fun kv => Expr.unescapedObj [(kv.1, wrap kv.2)])
      = (kvs.map fun kv => (kv.1, wrap kv.2)).map
          fun (kv : String × Expr) => Expr.unescapedObj [(kv.1, kv.2)] := by
    rw [List.map_map]
    rfl
  have hfb := fmtVerb_ok rt "s" b b' hb
  refine ⟨(letChain_eq kvs b).trans rfl, ?_, ?_⟩
  · rw [letChain_eq, String_letFn, hmap, letBindings_single rt hl, hfmt kvs strs hkvs, hfb]
    rfl
  · rw [letChain_eq, String_letFn]
    show Except.ok ("Let()." ++ strings.Join [] "." ++ ".In(" ++ fmtVerb "s" (Expr.arg rt b)
      ++ ")") = _
    rw [hfb]
    rfl

theorem Let_chain_renders_witness :
    letChain [("x", .expr Now), ("y", .expr Identity)] Classes = structLit .letFn
        [("Let", .unescapedArr ([("x", Host.expr Now), ("y", .expr Identity)].map
            fun kv => Expr.unescapedObj [(kv.1, wrap kv.2)])),
          ("In", Classes)] ∧
      Expr.String (Runtime.inOrder (fun _ => "") id (.ok false))
          (letChain [("x", .expr Now), ("y", .expr Identity)] Classes)
        = .ok ("Let()." ++ ".".intercalate (List.zipWith
            (fun kv s => "Bind(" ++ kv.1 ++ ", " ++ s ++ ")")
            [("x", Host.expr Now), ("y", .expr Identity)] ["Now()", "Identity()"])
            ++ ".In(" ++ "Classes()" ++ ")") ∧
      Expr.String (Runtime.inOrder (fun _ => "") id (.ok false)) (letChain [] Classes)
        = .ok ("Let()..In(" ++ "Classes()" ++ ")") :=
  Let_chain_renders _ (Runtime.inOrder_Legal _ _ _) [("x", .expr Now), ("y", .expr Identity)]
    Classes ["Now()", "Identity()"] "Classes()" (.cons rfl (.cons rfl .nil)) rfl

/-- C35.  For every list of bindings and every body, nil included, and in whatever order maps
are visited: the field `Let` of the node that the call chain returns is an `unescapedArr` whose
elements are `unescapedObj`s, so neither panic of `letFn.String` is raised and the call returns
a string. -/
theorem Let_chain_String_returns (rt : Runtime) (kvs : List (String × Host)) (b : Expr) :
    (letChain kvs b).get "Let"
        = .unescapedArr (kvs.map fun kv => Expr.unescapedObj [(kv.1, wrap kv.2)]) ∧
      (∃ bs, letBindings rt (Expr.args rt
          (kvs.map fun kv => Expr.unescapedObj [(kv.1, wrap kv.2)])) = .ok bs) ∧
      ∃ s, Expr.String rt (letChain kvs b) = .ok s := by
  have hmap : (kvs.map fun kv => Expr.unescapedObj [(kv.1, wrap kv.2)])
      = (kvs.map fun kv => [(kv.1, wrap kv.2)]).map Expr.unescapedObj := by
    rw [List.map_map]
    rfl
  obtain ⟨bs, hbs⟩ := letBindings_objects rt (kvs.map fun kv => [(kv.1, wrap kv.2)])
  refine ⟨?_, ⟨bs, by rw [hmap]; exact hbs⟩, ?_⟩
  · rw [letChain_eq]
    rfl
  · rw [letChain_eq, String_letFn, hmap, hbs]
    exact ⟨_, rfl⟩

/-! ### The panics of the String methods -/

theorem callStrings_panic (rt : Runtime) :
    ∀ es : List Expr, (∀ e ∈ es, ∀ p, Expr.String rt e = .error p → catalogPanic p) →
      ∀ p, callStrings (Expr.args rt es) = .error p → catalogPanic p
  | [], _, p, hp => by cases hp
  | e :: es, h, p, hp => by
      rw [args_cons, callStrings_cons, arg_str] at hp
      cases hs : Expr.String rt e with
      | error q =>
          rw [hs] at hp
          cases hp
          exact h e (List.mem_cons_self _ _) _ hs
      | ok s =>
          rw [hs] at hp
          cases hr : callStrings (Expr.args rt es) with
          | error q =>
              rw [hr] at hp
              cases hp
              exact callStrings_panic rt es (fun x hx => h x (List.mem_cons_of_mem _ hx)) _ hr
          | ok ss =>
              rw [hr] at hp
              cases hp

theorem printFn_panic (rt : Runtime) (name : String) (es : List Expr)
    (h : ∀ e ∈ es, ∀ p, Expr.String rt e = .error p → catalogPanic p) (p : Panic)
    (hp : printFn rt name (Expr.args rt es) = .error p) : catalogPanic p := by
  rw [printFn_eq] at hp
  cases hr : callStrings (Expr.args rt es) with
  | error q =>
      rw [hr] at hp
      cases hp
      exact callStrings_panic rt es h _ hr
  | ok ss =>
      rw [hr] at hp
      cases hp

/-- With a mapping that is not empty, `printFnWithOpts` panics only when an argument does. -/
theorem printFnWithOpts_panic (rt : Runtime) (name : String) (mapping : List (String × Arg))
    (hne : mapping.isEmpty = false) (es : List Expr)
    (h : ∀ e ∈ es, ∀ p, Expr.String rt e = .error p → catalogPanic p) (p : Panic)
    (hp : printFnWithOpts rt name mapping (Expr.args rt es) = .error p) : catalogPanic p := by
  rw [printFnWithOpts_eq rt name mapping _ hne] at hp
  cases hr : callStrings (Expr.args rt es) with
  | error q =>
      rw [hr] at hp
      cases hp
      exact callStrings_panic rt es h _ hr
  | ok ss =>
      rw [hr] at hp
      cases hp

theorem letBindings_panic (rt : Runtime) :
    ∀ (l : List Arg) (p : Panic), letBindings rt l = .error p → catalogPanic p
  | [], p, hp => by cases hp
  | elem :: rest, p, hp => by
      unfold letBindings at hp
      cases hv : elem.val with
      | unescapedObj obj =>
          rw [hv] at hp
          cases hr : letBindings rt rest with
          | error q =>
              rw [hr] at hp
              cases hp
              exact letBindings_panic rt rest _ hr
          | ok bs =>
              rw [hr] at hp
              cases hp
      | nil => rw [hv] at hp; cases hp; exact Or.inr (Or.inl ⟨_, rfl⟩)
      | value v => rw [hv] at hp; cases hp; exact Or.inr (Or.inl ⟨_, rfl⟩)
      | unescapedArr a => rw [hv] at hp; cases hp; exact Or.inr (Or.inl ⟨_, rfl⟩)
      | invalidExpr err => rw [hv] at hp; cases hp; exact Or.inr (Or.inl ⟨_, rfl⟩)
      | fn k vals => rw [hv] at hp; cases hp; exact Or.inr (Or.inl ⟨_, rfl⟩)

theorem letFn_panic (rt : Runtime) (Let In : Arg) (p : Panic)
    (hp : letFn.String rt Let In = .error p) : catalogPanic p := by
  unfold letFn.String at hp
  cases hv : Let.val with
  | unescapedArr arr =>
      rw [hv] at hp
      cases hr : letBindings rt (Let.elems.map Prod.snd) with
      | error q =>
          rw [hr] at hp
          cases hp
          exact letBindings_panic rt _ _ hr
      | ok bs =>
          rw [hr] at hp
          cases hp
  | nil => rw [hv] at hp; cases hp; exact Or.inr (Or.inr ⟨_, rfl⟩)
  | value v => rw [hv] at hp; cases hp; exact Or.inr (Or.inr ⟨_, rfl⟩)
  | unescapedObj obj => rw [hv] at hp; cases hp; exact Or.inr (Or.inr ⟨_, rfl⟩)
  | invalidExpr err => rw [hv] at hp; cases hp; exact Or.inr (Or.inr ⟨_, rfl⟩)
  | fn k vals => rw [hv] at hp; cases hp; exact Or.inr (Or.inr ⟨_, rfl⟩)

/-- The call that a small shape stands for panics only with a panic of the catalog, when the
fields that `g` selects do. -/
theorem shape_panic (rt : Runtime) (sh : Shape) (hsmall : sh.small = true) (g : String → Expr)
    (hg : ∀ F p, Expr.String rt (g F) = .error p → catalogPanic p) (p : Panic)
    (hp : sh.run rt (fun F => Expr.arg rt (g F)) = .error p) : catalogPanic p := by
  have hmap : ∀ Fs : List String,
      (Fs.map fun F => Expr.arg rt (g F)) = Expr.args rt (Fs.map g) := by
    intro Fs
    rw [args_eq_map, List.map_map]
    rfl
  have hall : ∀ Fs : List String, ∀ e ∈ Fs.map g, ∀ p, Expr.String rt e = .error p →
      catalogPanic p := by
    intro Fs e he
    obtain ⟨F, _, rfl⟩ := List.mem_map.mp he
    exact hg F
  have hprint : ∀ (name : String) (Fs : List String) (p : Panic),
      printFn rt name (Fs.map fun F => Expr.arg rt (g F)) = .error p → catalogPanic p := by
    intro name Fs p hp
    rw [hmap] at hp
    exact printFn_panic rt name (Fs.map g) (hall Fs) p hp
  cases sh with
  | fn name args => exact hprint name args p hp
  | withOpts name mapping args =>
      simp only [Shape.small, Shape.printed, Bool.and_eq_true, decide_eq_true_eq,
        Bool.not_eq_true', List.all_eq_true] at hsmall
      obtain ⟨_, ⟨_, hne⟩, _⟩ := hsmall
      have hp' : printFnWithOpts rt name (mapping.map fun kv => (kv.1, Expr.arg rt (g kv.2)))
          (args.map fun F => Expr.arg rt (g F)) = .error p := hp
      rw [hmap] at hp'
      exact printFnWithOpts_panic rt name _ (by cases mapping with
        | nil => cases hne
        | cons _ _ => rfl) (args.map g) (hall args) p hp'
  | noArgs name => cases hp
  | scopedFn name arg1 scope =>
      have hp' : printScopedFn rt name (Expr.arg rt (g arg1)) (Expr.arg rt (g scope))
          = .error p := hp
      unfold printScopedFn at hp'
      by_cases hc : (!(Expr.arg rt (g scope)).val.isNil) = true
      · rw [if_pos hc] at hp'
        exact hprint ("Scoped" ++ name) [arg1, scope] p hp'
      · rw [if_neg hc] at hp'
        exact hprint name [arg1] p hp'
  | keyScopedFn name expr =>
      have hp' : printKeyScopedFn rt name (Expr.arg rt (g expr)) = .error p := hp
      unfold printKeyScopedFn at hp'
      by_cases hc : (!(Expr.arg rt (g expr)).val.isNull) = true
      · rw [if_pos hc] at hp'
        exact hprint ("Scoped" ++ name) [expr] p hp'
      · rw [if_neg hc] at hp'
        cases hp'
  | matchFn =>
      have hp' : matchFn.String rt (Expr.arg rt (g "Match")) (Expr.arg rt (g "Terms"))
          = .error p := hp
      unfold matchFn.String at hp'
      by_cases hc : (!(Expr.arg rt (g "Terms")).val.isNil) = true
      · rw [if_pos hc] at hp'
        exact hprint "MatchTerms" ["Match", "Terms"] p hp'
      · rw [if_neg hc] at hp'
        exact hprint "Match" ["Match"] p hp'
  | letFn => exact letFn_panic rt _ _ p hp

/-- Every panic of `String` on an expression is a panic of the catalog. -/
theorem panic_all (rt : Runtime) :
    ∀ (n : Nat) (e : Expr), sizeOf e < n →
      ∀ p, Expr.String rt e = .error p → catalogPanic p := by
  intro n
  induction n with
  | zero => intro e he; omega
  | succ n ih =>
      intro e he p hp
      cases e with
      | nil => cases hp; exact Or.inl rfl
      | value v => cases hp
      | invalidExpr err => cases hp
      | unescapedArr arr => cases hp
      | unescapedObj obj => cases hp
      | fn k vals =>
          simp only [Expr.fn.sizeOf_spec] at he
          have hg : ∀ F p, Expr.String rt (getField k.fields vals F) = .error p →
              catalogPanic p := by
            intro F
            rcases getField_nil_or_mem F k.fields vals with h | h
            · rw [h]
              intro p hp
              cases hp
              exact Or.inl rfl
            · apply ih
              have := List.sizeOf_lt_of_mem h
              omega
          have hfn : Arg.index (fieldArgs k.fields (Expr.args rt vals))
              = fun F => Expr.arg rt (getField k.fields vals F) :=
            funext fun F => index_fieldArgs rt F k.fields vals
          have hp' : k.String rt (Arg.index (fieldArgs k.fields (Expr.args rt vals)))
              = .error p := hp
          rw [hfn, String_eq_run] at hp'
          exact shape_panic rt k.shape (shape_small k) (getField k.fields vals) hg p hp'

/-- The panic of `_fnCall` on an empty mapping is not a panic of the catalog. -/
theorem catalogPanic_ne_mapping (p : Panic) (h : catalogPanic p) (name : String) :
    p ≠ .message
      (name ++ ".String() accepts optional parameters, should have a non-zero mapping") := by
  rcases h with h | ⟨found, h⟩ | ⟨typ, h⟩
  · rw [h]
    exact Panic.noConfusion
  · rw [h]
    exact Panic.noConfusion
  · rw [h]
    intro heq
    have hd := congrArg (fun s => s.data.reverse) (Panic.message.inj heq)
    simp [String.data_append] at hd

/-- C36.  Every `String` method of strconv.go that calls `printFnWithOpts` passes a mapping
that is not empty, so on every expression, whichever of its optional fields are set, `String`
returns a string or panics with a panic of the catalog, and the panic of `_fnCall` on an empty
mapping is not one of them, whatever the name. -/
theorem mapping_panic_unreachable (rt : Runtime) (e : Expr) (k : FnKind) (fn : String → Arg)
    (name : String) :
    (match k.shape with
      | .withOpts _ mapping _ => mapping.isEmpty = false
      | _ => True) ∧
      k.String rt fn = k.shape.run rt fn ∧
      ((∃ s, Expr.String rt e = .ok s) ∨ ∃ p, Expr.String rt e = .error p ∧ catalogPanic p) ∧
      Expr.String rt e ≠ .error (.message
        (name ++ ".String() accepts optional parameters, should have a non-zero mapping")) := by
  refine ⟨?_, String_eq_run rt k fn, ?_, ?_⟩
  · cases k <;> trivial
  · cases hs : Expr.String rt e with
    | ok s => exact Or.inl ⟨s, rfl⟩
    | error p =>
        exact Or.inr ⟨p, rfl, panic_all rt (sizeOf e + 1) e (Nat.lt_succ_self _) p hs⟩
  · intro hs
    exact catalogPanic_ne_mapping _ (panic_all rt (sizeOf e + 1) e (Nat.lt_succ_self _) _ hs)
      name rfl

end faunadb
